import Mathlib

/-!
# jx: helmfile generation, requirements merge and deploy configuration

A shallow embedding of `pkg/cmd/step/create/helmfile/create_helmfile.go` and
`pkg/config/deploy_config.go`, with the statements about them that are proved
further down. `MergeSave` of `pkg/config/install_requirements.go` is not among
the sources and is modelled from the specification and from `TestMergeSave`.

Conventions of the embedding:

* Go strings are Lean strings, Go slices are lists, a nil pointer is `none`.
* A Go `map[string]string` is an association list with distinct keys
  (`mapSet` keeps them distinct). Go leaves the iteration order of a map
  unspecified: the order used by a `range` over a map built by the code is what
  `World.mapOrder` returns, and the order of an input map is the order of
  its list.
* Everything outside the program (file system, Kubernetes API, the Go standard
  library functions `url.ParseRequestURI`, `path.Join`, `uuid.New`, YAML
  marshalling) is a field of `World`; the definitions are executable once a
  `World` is given.
* A Go `error` is `Option String` (`none` is `nil`); `errors.Wrapf err msg`
  is the message followed by `": "` and the cause.
-/

namespace Jx

/-! ## Data model of `pkg/helmfile` and `pkg/config` used by the generator -/

/-- Entry of the `repositories` section of a helmfile (`helmfile.RepositorySpec`). -/
structure RepositorySpec where
  Name : String := ""
  URL : String := ""
  CertFile : String := ""
  KeyFile : String := ""
  Username : String := ""
  Password : String := ""
  deriving DecidableEq, Repr

/-- Entry of the `releases` section of a helmfile (`helmfile.ReleaseSpec`).
The hook and patch payloads are carried through unchanged by the generator, so
they are kept as lists of strings; the optional flags are Go pointers. -/
structure ReleaseSpec where
  Name : String := ""
  Namespace : String := ""
  Version : String := ""
  Chart : String := ""
  Values : List String := []
  Hooks : List String := []
  Wait : Option Bool := none
  Timeout : Option Int := none
  RecreatePods : Option Bool := none
  Force : Option Bool := none
  Installed : Option Bool := none
  Atomic : Option Bool := none
  CleanupOnFail : Option Bool := none
  Dependencies : List String := []
  JSONPatches : List String := []
  StrategicMergePatches : List String := []
  Adopt : List String := []
  Needs : List String := []
  deriving DecidableEq, Repr

/-- Defaults section of a helmfile (`helmfile.HelmSpec`). -/
structure HelmSpec where
  Atomic : Bool := false
  Verify : Bool := false
  Wait : Bool := false
  Timeout : Int := 0
  Force : Bool := false
  deriving DecidableEq, Repr

/-- The generated helmfile (`helmfile.HelmState`). -/
structure HelmState where
  Bases : List String := []
  HelmDefaults : HelmSpec := {}
  Repositories : List RepositorySpec := []
  Releases : List ReleaseSpec := []
  deriving DecidableEq, Repr

/-- An application of `jx-apps.yml` (`config.App`). -/
structure App where
  Name : String := ""
  Repository : String := ""
  Namespace : String := ""
  Phase : String := ""
  Version : String := ""
  Description : String := ""
  Alias : String := ""
  Values : List String := []
  Hooks : List String := []
  Wait : Option Bool := none
  Timeout : Option Int := none
  RecreatePods : Option Bool := none
  Force : Option Bool := none
  Installed : Option Bool := none
  Atomic : Option Bool := none
  CleanupOnFail : Option Bool := none
  Dependencies : List String := []
  JSONPatches : List String := []
  StrategicMergePatches : List String := []
  Adopt : List String := []
  deriving DecidableEq, Repr

/-- The loaded `jx-apps.yml` (`config.AppConfig`), as far as the generator reads it. -/
structure AppConfig where
  Apps : List App := []
  Repositories : List RepositorySpec := []
  DefaultNamespace : String := ""
  deriving DecidableEq, Repr

/-- Resolved chart of an application (`envctx.ChartDetails`). -/
structure ChartDetails where
  Name : String := ""
  Prefix : String := ""
  LocalName : String := ""
  Repository : String := ""
  deriving DecidableEq, Repr

/-- The `charts` argument, `map[string]*envctx.ChartDetails`: `none` is a
missing key or a nil pointer. Distinct keys hold distinct pointers. -/
abbrev Charts := String → Option ChartDetails

/-- Assignment through the pointer stored under `key`. -/
def Charts.set (charts : Charts) (key : String) (d : ChartDetails) : Charts :=
  fun k => if k = key then some d else charts k

/-- A Go `map[string]string` as an association list. -/
abbrev GoMap := List (String × String)

/-- Go `m[k] = v`. -/
def mapSet : GoMap → String → String → GoMap
  | [], k, v => [(k, v)]
  | (k', v') :: t, k, v => if k' = k then (k, v) :: t else (k', v') :: mapSet t k v

/-- Go `m[k]`, the empty string when the key is absent. -/
def mapGet : GoMap → String → String
  | [], _ => ""
  | (k', v') :: t, k => if k' = k then v' else mapGet t k

/-! ### The requirements (`jx-requirements.yml`)

`pkg/config/install_requirements.go` is not among the sources: the records
below hold the fields that the sources and the tests of `pkg/config` read or
write. -/

/-- Cluster section of the requirements (`config.ClusterConfig`). -/
structure ClusterConfig where
  ChartRepository : String := ""
  ClusterName : String := ""
  DevEnvApprovers : List String := []
  EnvironmentGitOwner : String := ""
  EnvironmentGitPublic : Bool := false
  GitKind : String := ""
  GitName : String := ""
  GitPublic : Bool := false
  GitServer : String := ""
  Namespace : String := ""
  ProjectID : String := ""
  Provider : String := ""
  Region : String := ""
  Registry : String := ""
  Zone : String := ""
  deriving DecidableEq, Repr

/-- TLS section of an ingress (`config.TLSConfig`). -/
structure TLSConfig where
  Email : String := ""
  Enabled : Bool := false
  Production : Bool := false
  SecretName : String := ""
  deriving DecidableEq, Repr

/-- Ingress section of the requirements or of an environment (`config.IngressConfig`). -/
structure IngressConfig where
  CloudDNSSecretName : String := ""
  Domain : String := ""
  DomainIssuerURL : String := ""
  IgnoreLoadBalancer : Bool := false
  Kind : String := ""
  NamespaceSubDomain : String := ""
  ServiceType : String := ""
  TLS : TLSConfig := {}
  deriving DecidableEq, Repr

/-- One kind of storage (`config.StorageEntryConfig`). -/
structure StorageEntryConfig where
  Enabled : Bool := false
  URL : String := ""
  deriving DecidableEq, Repr

/-- Storage section of the requirements (`config.StorageConfig`). -/
structure StorageConfig where
  Logs : StorageEntryConfig := {}
  Reports : StorageEntryConfig := {}
  Repository : StorageEntryConfig := {}
  Backup : StorageEntryConfig := {}
  deriving DecidableEq, Repr

/-- Velero section of the requirements (`config.VeleroConfig`). -/
structure VeleroConfig where
  Namespace : String := ""
  ServiceAccount : String := ""
  Schedule : String := ""
  TimeToLive : String := ""
  deriving DecidableEq, Repr

/-- Version stream section of the requirements (`config.VersionStreamConfig`). -/
structure VersionStreamConfig where
  URL : String := ""
  Ref : String := ""
  deriving DecidableEq, Repr

/-- An environment of the requirements (`config.EnvironmentConfig`). -/
structure EnvironmentConfig where
  Key : String := ""
  Owner : String := ""
  Repository : String := ""
  GitServer : String := ""
  GitKind : String := ""
  Ingress : IngressConfig := {}
  RemoteCluster : Bool := false
  PromotionStrategy : String := ""
  URLTemplate : String := ""
  deriving DecidableEq, Repr

/-- The requirements (`config.RequirementsConfig`). -/
structure RequirementsConfig where
  BootConfigURL : String := ""
  Cluster : ClusterConfig := {}
  Environments : List EnvironmentConfig := []
  GitOps : Bool := false
  Helmfile : Bool := false
  Kaniko : Bool := false
  Ingress : IngressConfig := {}
  Repository : String := ""
  SecretStorage : String := ""
  Storage : StorageConfig := {}
  Terraform : Bool := false
  Velero : VeleroConfig := {}
  VersionStream : VersionStreamConfig := {}
  Webhook : String := ""
  deriving DecidableEq, Repr

/-- Metadata of a configuration object (`metav1.ObjectMeta`), as far as a
`Deployfile` sets it. -/
structure ObjectMeta where
  Name : String := ""
  Namespace : String := ""
  deriving DecidableEq, Repr

/-- `DeployConfigSec`: where applications are deployed with kpt. -/
structure DeployConfigSec where
  KptPath : String := ""
  Namespace : String := ""
  deriving DecidableEq, Repr

/-- `DeployConfig` defines how applications should be deployed into a remote environment. -/
structure DeployConfig where
  Kind : String := ""
  APIVersion : String := ""
  Metadata : ObjectMeta := {}
  Spec : DeployConfigSec := {}
  deriving DecidableEq, Repr

/-- The version resolver of the environment context: `StableVersion` for a
chart name returns an error, or an optional stable version. -/
structure VersionResolver where
  StableVersion : String → Except String (Option String)

/-- The environment context (`envctx.EnvironmentContext`), as far as the generator reads it:
the requirements, the namespace of the dev environment and the version
resolver, each a pointer that may be nil. -/
structure EnvironmentContext where
  Requirements : Option RequirementsConfig := none
  DevEnv : Option String := none
  VersionResolver : Option VersionResolver := none

/-- The options of the command (`CreateHelmfileOptions`). -/
structure CreateHelmfileOptions where
  Dir : String := "."
  IgnoreNamespaceCheck : Bool := false
  outputDir : String := ""
  valueFiles : List String := []
  deriving DecidableEq, Repr

/-- Everything the generator asks of the outside. -/
structure World where
  /-- Whether `url.ParseRequestURI` returns no error. -/
  parseRequestURI : String → Bool
  /-- `helmPrefixes.PrefixForURL`. -/
  prefixForURL : String → String
  /-- The successive results of `uuid.New().String()`. -/
  uuid : Nat → String
  /-- The order in which a `range` visits the entries of a map built by the code. -/
  mapOrder : GoMap → GoMap
  /-- `path.Join`. -/
  pathJoin : List String → String
  /-- `util.FileExists`, its error dropped as the caller does. -/
  fileExists : String → Bool
  /-- `util.DirExists`. -/
  dirExists : String → Bool × Option String
  /-- `os.RemoveAll`. -/
  removeAll : String → Option String
  /-- `os.MkdirAll`. -/
  mkdirAll : String → Option String
  /-- `ioutil.WriteFile`. -/
  writeFile : String → String → Option String
  /-- `yaml.Marshal` of the generated namespace values. -/
  marshalValues : List String → Except String String
  /-- `yaml.Marshal` of the helmfile. -/
  marshalState : HelmState → Except String String
  /-- `KubeClientAndNamespace`: the current namespace, or an error. -/
  kubeClientAndNamespace : Except String String
  /-- The names of the namespaces listed by the cluster, or an error. -/
  listNamespaces : Except String (List String)
  /-- `kube.DefaultChartMuseumURL`. -/
  defaultChartMuseumURL : String

/-- Go `errors.Wrapf`. -/
def wrapf (err : String) (msg : String) : String := msg ++ ": " ++ err

/-- `cloud.KIND`. -/
def KIND : String := "kind"

/-! ## `create_helmfile.go` -/

/-- Whether `strings.Index(s, "/")` is not `-1`. -/
def hasSlash (s : String) : Bool := s.data.any (fun c => c == '/')

/-- Pieces of a character list between the separators `'/'` (`strings.Split(s, "/")`):
`cur` holds the characters of the piece being read. -/
def splitSlashAux : List Char → List Char → List String
  | [], cur => [String.mk cur]
  | c :: cs, cur => if c = '/' then String.mk cur :: splitSlashAux cs [] else splitSlashAux cs (cur ++ [c])

/-- Go `strings.Split(s, "/")`. -/
def splitSlash (s : String) : List String := splitSlashAux s.data []

/-- State of the loop that fills the `repos` map: the map from repository URL
to name, the chart details (their `Name` is rewritten in place) and the number
of UUIDs drawn so far. -/
structure RepoState where
  repos : GoMap
  charts : Charts
  uuids : Nat

/-- The inner loop over `localHelmRepos`: every entry whose URL is the
repository names it in `repos` and sets `matched`. -/
def matchLocalRepos (localHelmRepos : GoMap) (repository : String) (repos : GoMap) : GoMap × Bool :=
  localHelmRepos.foldl
    (fun (acc : GoMap × Bool) kv =>
      if repository = kv.2 then (mapSet acc.1 repository kv.1, true) else acc)
    (repos, false)

/-- One iteration of the first loop of `generateHelmFile` (lines 183-224). -/
def collectRepo (w : World) (localHelmRepos : GoMap) (st : RepoState) (app : App) : RepoState :=
  match st.charts app.Name with
  | none => st
  | some details =>
    if w.parseRequestURI details.Repository = false then
      { st with repos := mapSet st.repos details.Repository details.Repository }
    else
      let m := matchLocalRepos localHelmRepos details.Repository st.repos
      let named : GoMap × Nat :=
        if m.2 = false then
          let p := w.prefixForURL details.Repository
          let p := if p = "" then details.Prefix else p
          if p = "" then (mapSet m.1 details.Repository (w.uuid st.uuids), st.uuids + 1)
          else (mapSet m.1 details.Repository p, st.uuids)
        else (m.1, st.uuids)
      let charts :=
        if hasSlash details.Name = false then
          st.charts.set app.Name
            { details with Name := mapGet named.1 details.Repository ++ "/" ++ details.Name }
        else st.charts
      { repos := named.1, charts := charts, uuids := named.2 }

/-- The first loop of `generateHelmFile`. -/
def collectRepos (w : World) (localHelmRepos : GoMap) (applications : List App)
    (charts : Charts) : RepoState :=
  applications.foldl (collectRepo w localHelmRepos) { repos := [], charts := charts, uuids := 0 }

/-- One iteration of the loop over the `repos` map (lines 227-246): entries
that are no URL are skipped, an URL already listed is not added again. -/
def addRepoURL (w : World) (repositories : List RepositorySpec) (kv : String × String) :
    List RepositorySpec :=
  if w.parseRequestURI kv.1 then
    if repositories.any (fun r => decide (r.URL = kv.1)) then repositories
    else repositories ++ [{ Name := kv.2, URL := kv.1 }]
  else repositories

/-- One iteration of the loop over `apps.Repositories` (lines 248-259). -/
def addAppRepository (repositories : List RepositorySpec) (ar : RepositorySpec) :
    List RepositorySpec :=
  if repositories.any (fun r => decide (r.URL = ar.URL)) then repositories
  else repositories ++ [ar]

/-- The `repositories` slice at line 260: the repositories of the applications'
charts followed by those of `apps.Repositories`. -/
def appRepositories (w : World) (repos : GoMap) (apps : AppConfig) : List RepositorySpec :=
  apps.Repositories.foldl addAppRepository ((w.mapOrder repos).foldl (addRepoURL w) [])

/-- The default namespace (lines 261-267). -/
def defaultNamespace (apps : AppConfig) (ec : EnvironmentContext) : String :=
  let d := apps.DefaultNamespace
  let d := match ec.Requirements with
    | some r => if d = "" then r.Cluster.Namespace else d
    | none => d
  match ec.DevEnv with
  | some ns => if d = "" then ns else d
  | none => d

/-- `addExtraAppValues`: the values files found for the application in the
directory of the phase (and of the `apps` phase when generating `system`). -/
def addExtraAppValues (w : World) (o : CreateHelmfileOptions) (app : App)
    (newValuesFiles : List String) (valuesFilename generatePhase : String) : List String :=
  let phases := if generatePhase = "system" then [generatePhase, "apps"] else [generatePhase]
  phases.foldl
    (fun answer phase =>
      let answer :=
        if w.fileExists (w.pathJoin [o.Dir, phase, app.Name, valuesFilename]) then
          if phase ≠ generatePhase then
            answer ++ [w.pathJoin ["..", phase, app.Name, valuesFilename]]
          else answer ++ [w.pathJoin [app.Name, valuesFilename]]
        else answer
      match splitSlash app.Name with
      | [_, localName] =>
        if w.fileExists (w.pathJoin [o.Dir, phase, localName, valuesFilename]) then
          if phase ≠ generatePhase then
            answer ++ [w.pathJoin ["..", phase, localName, valuesFilename]]
          else answer ++ [w.pathJoin [localName, valuesFilename]]
        else answer
      | _ => answer)
    newValuesFiles

/-- The version of a release (lines 276-287): the application's own, or the
stable version of the chart when the application has none and a resolver is set. -/
def resolveVersion (ec : EnvironmentContext) (version chartName : String) : Except String String :=
  match ec.VersionResolver with
  | none => .ok version
  | some vr =>
    if version = "" then
      match vr.StableVersion chartName with
      | .error err => .error (wrapf err ("failed to resolve version of chart " ++ chartName))
      | .ok none => .ok version
      | .ok (some sv) => .ok sv
    else .ok version

/-- The release built for an application whose chart is `details`
(lines 288-320), `version` being the resolved version. -/
def appRelease (w : World) (o : CreateHelmfileOptions) (defaultNs phase : String)
    (app : App) (details : ChartDetails) (version : String) : ReleaseSpec :=
  let app := if app.Namespace = "" then { app with Namespace := defaultNs } else app
  let extraValuesFiles := app.Values ++ o.valueFiles
  let extraValuesFiles := addExtraAppValues w o app extraValuesFiles "values.yaml" phase
  let extraValuesFiles := addExtraAppValues w o app extraValuesFiles "values.yaml.gotmpl" phase
  let aliasName := if app.Alias ≠ "" then app.Alias else details.LocalName
  { Name := aliasName
    Namespace := app.Namespace
    Version := version
    Chart := details.Name
    Values := extraValuesFiles
    Hooks := app.Hooks
    Wait := app.Wait
    Timeout := app.Timeout
    RecreatePods := app.RecreatePods
    Force := app.Force
    Installed := app.Installed
    Atomic := app.Atomic
    CleanupOnFail := app.CleanupOnFail
    Dependencies := app.Dependencies
    JSONPatches := app.JSONPatches
    StrategicMergePatches := app.StrategicMergePatches
    Adopt := app.Adopt }

/-- The loop that builds the releases (lines 268-322): applications without
chart details are skipped, a version that cannot be resolved ends the function. -/
def buildReleases (w : World) (o : CreateHelmfileOptions) (ec : EnvironmentContext)
    (charts : Charts) (defaultNs phase : String) : List App → Except String (List ReleaseSpec)
  | [] => .ok []
  | app :: rest =>
    match charts app.Name with
    | none => buildReleases w o ec charts defaultNs phase rest
    | some details =>
      match resolveVersion ec app.Version details.Name with
      | .error err => .error err
      | .ok version =>
        match buildReleases w o ec charts defaultNs phase rest with
        | .error err => .error err
        | .ok releases => .ok (appRelease w o defaultNs phase app details version :: releases)

/-- The dummy release added when there is no release (lines 326-330). -/
def emptyRelease (defaultNs : String) : ReleaseSpec :=
  { Name := "empty", Chart := "jenkins-x/empty", Namespace := defaultNs }

/-- The repository of the dummy release (lines 341-344). -/
def jenkinsXRepository (w : World) : RepositorySpec :=
  { Name := "jenkins-x", URL := w.defaultChartMuseumURL }

/-- The repositories after the block for the empty helmfile (lines 333-346). -/
def addJenkinsXRepository (w : World) (repositories : List RepositorySpec) : List RepositorySpec :=
  if repositories.any (fun repo => decide (repo.Name = "jenkins-x")) then repositories
  else repositories ++ [jenkinsXRepository w]

/-- `AddRepositoryIfNeeded` adds the repository if needed. -/
def AddRepositoryIfNeeded (repos : List RepositorySpec) (repository : RepositorySpec) :
    List RepositorySpec :=
  if repos.any (fun r => decide (r.Name = repository.Name)) then repos
  else repos ++ [repository]

/-- `writeGeneratedNamespaceValues`: the error it returns. The result of the
final `ioutil.WriteFile` is assigned and not returned. -/
def writeGeneratedNamespaceValues (w : World) (o : CreateHelmfileOptions)
    (ns phase : String) : Option String :=
  match w.mkdirAll (w.pathJoin [o.outputDir, phase, "generated", ns]) with
  | some err =>
    some (wrapf err ("cannot create generated values directory "
      ++ w.pathJoin [phase, "generated", ns] ++ " "))
  | none =>
    match w.marshalValues [ns] with
    | .error err => some err
    | .ok data =>
      let _err := w.writeFile (w.pathJoin [o.outputDir, phase, "generated", ns, "values.yaml"]) data
      none

/-- The repository of the namespace chart (lines 495-498). -/
def zloeberRepository : RepositorySpec :=
  { Name := "zloeber", URL := "git+https://github.com/zloeber/helm-namespace@chart" }

/-- The release that creates namespace `ns` (lines 501-507). -/
def createNamespaceChart (w : World) (currentNamespace ns : String) : ReleaseSpec :=
  { Name := "namespace-" ++ ns
    Namespace := currentNamespace
    Chart := "zloeber/namespace"
    Values := [w.pathJoin ["generated", ns, "values.yaml"]] }

/-- The test of line 477 on a release: its namespace is set, is not the
current one and was not matched by a namespace of the cluster (none is matched
under `IgnoreNamespaceCheck`). -/
def needsNamespace (o : CreateHelmfileOptions) (currentNamespace : String)
    (namespaces : List String) (release : ReleaseSpec) : Bool :=
  let namespaceMatched :=
    if o.IgnoreNamespaceCheck = false then namespaces.any (fun ns => decide (ns = release.Namespace))
    else false
  decide (release.Namespace ≠ "") && decide (release.Namespace ≠ currentNamespace)
    && !namespaceMatched

/-- The value written to `Needs` at line 486. -/
def needsEntry (currentNamespace ns : String) : String :=
  currentNamespace ++ "/namespace-" ++ ns

/-- The loop of `ensureNamespaceExist` (lines 468-512). `done` are the
releases already visited (with `Needs` updated), the second list those still to
visit, so the `helmfileReleases` slice is `done` followed by it. Returns the
repositories, the created namespace releases and the updated slice. -/
def ensureNamespaceLoop (w : World) (o : CreateHelmfileOptions) (phase currentNamespace : String)
    (namespaces : List String) :
    List ReleaseSpec → List ReleaseSpec → List RepositorySpec → List ReleaseSpec →
      List RepositorySpec × List ReleaseSpec × List ReleaseSpec
  | done, [], helmfileRepos, createNamespaces => (helmfileRepos, createNamespaces, done)
  | done, release :: rest, helmfileRepos, createNamespaces =>
    if needsNamespace o currentNamespace namespaces release then
      let existingCreateNamespaceChartFound :=
        (createNamespaces ++ (done ++ release :: rest)).any
          (fun r => decide (r.Name = "namespace-" ++ release.Namespace))
      let updated := { release with Needs := [needsEntry currentNamespace release.Namespace] }
      if existingCreateNamespaceChartFound = false then
        let _err := writeGeneratedNamespaceValues w o release.Namespace phase
        ensureNamespaceLoop w o phase currentNamespace namespaces (done ++ [updated]) rest
          (AddRepositoryIfNeeded helmfileRepos zloeberRepository)
          (createNamespaces ++ [createNamespaceChart w currentNamespace release.Namespace])
      else
        ensureNamespaceLoop w o phase currentNamespace namespaces (done ++ [updated]) rest
          helmfileRepos createNamespaces
    else
      ensureNamespaceLoop w o phase currentNamespace namespaces (done ++ [release]) rest
        helmfileRepos createNamespaces

/-- `ensureNamespaceExist`: the repositories and releases it returns, or its error. -/
def ensureNamespaceExist (w : World) (o : CreateHelmfileOptions)
    (helmfileRepos : List RepositorySpec) (helmfileReleases : List ReleaseSpec) (phase : String) :
    Except String (List RepositorySpec × List ReleaseSpec) :=
  match w.removeAll (w.pathJoin [o.outputDir, phase, "generated"]) with
  | some err =>
    .error (wrapf err ("cannot delete generated values directory "
      ++ w.pathJoin [phase, "generated"] ++ " "))
  | none =>
    match w.kubeClientAndNamespace with
    | .error err => .error (wrapf err "failed to create kube client")
    | .ok currentNamespace =>
      match w.listNamespaces with
      | .error err => .error (wrapf err "failed to list namespaces")
      | .ok namespaces =>
        let r := ensureNamespaceLoop w o phase currentNamespace namespaces [] helmfileReleases
          helmfileRepos []
        .ok (r.1, r.2.1 ++ r.2.2)

/-- Lexicographic comparison of two character sequences: `-1`, `0` or `1`. -/
def compareChars : List Char → List Char → Int
  | [], [] => 0
  | [], _ :: _ => -1
  | _ :: _, [] => 1
  | a :: as, b :: bs =>
    if a.toNat < b.toNat then -1
    else if b.toNat < a.toNat then 1
    else compareChars as bs

/-- Go `strings.Compare`. Go compares the UTF-8 bytes of the two strings, which
orders them as their code points do. -/
def stringsCompare (a b : String) : Int := compareChars a.data b.data

/-- The comparison given to `sort.Slice`: `strings.Compare(r1.Name, r2.Name) < 0`. -/
def repositoryLess (r1 r2 : RepositorySpec) : Bool := decide (stringsCompare r1.Name r2.Name < 0)

/-- Go `sort.Slice` with comparison `less`, as an insertion sort. `sort.Slice` is
not stable: the order it leaves between entries that compare equal is not specified. -/
def sortSlice {α : Type} (less : α → α → Bool) (l : List α) : List α :=
  l.insertionSort (fun a b => less b a = false)

/-- `writeHelmfile`: creates the directory of the phase when missing and writes the file. -/
def writeHelmfile (w : World) (o : CreateHelmfileOptions) (phase data : String) : Option String :=
  let dir := w.pathJoin [o.outputDir, phase]
  let st := w.dirExists dir
  let mk : Option String :=
    if st.2.isSome || st.1 = false then
      match w.mkdirAll dir with
      | some err => some (wrapf err ("cannot create phase directory " ++ dir ++ " "))
      | none => none
    else none
  match mk with
  | some err => some err
  | none =>
    match w.writeFile (w.pathJoin [o.outputDir, phase, "helmfile.yaml"]) data with
    | some err => some (wrapf err "failed to save file helmfile.yaml")
    | none => none

/-- The releases and repositories after the block for the empty helmfile
(lines 324-347). -/
def withPlaceholder (w : World) (defaultNs : String) (releases : List ReleaseSpec)
    (repositories : List RepositorySpec) : List ReleaseSpec × List RepositorySpec :=
  if releases.length = 0 then
    (releases ++ [emptyRelease defaultNs], addJenkinsXRepository w repositories)
  else (releases, repositories)

/-- The `HelmState` assembled at lines 365-382. -/
def helmState (ec : EnvironmentContext) (repositories : List RepositorySpec)
    (releases : List ReleaseSpec) : HelmState :=
  let h : HelmState :=
    { Bases := ["../environments.yaml"]
      HelmDefaults := { Atomic := true, Verify := false, Wait := true, Timeout := 520, Force := false }
      Repositories := repositories
      Releases := releases }
  match ec.Requirements with
  | some r =>
    if r.Cluster.Provider = KIND then { h with HelmDefaults := { h.HelmDefaults with Timeout := 2 * 60 * 60 } }
    else h
  | none => h

/-- `generateHelmFile`: the `HelmState` it marshals and writes, or its error.
The function also leaves the default namespace in the applications without
a namespace and the rewritten names in `charts`; these writes to its arguments
are used inside the function and are not part of the result here. -/
def generateHelmFile (w : World) (o : CreateHelmfileOptions) (ec : EnvironmentContext)
    (applications : List App) (charts : Charts) (localHelmRepos : GoMap) (apps : AppConfig)
    (phase : String) : Except String HelmState :=
  let st := collectRepos w localHelmRepos applications charts
  let repositories := appRepositories w st.repos apps
  let defaultNs := defaultNamespace apps ec
  match buildReleases w o ec st.charts defaultNs phase applications with
  | .error err => .error err
  | .ok releases =>
    let p := withPlaceholder w defaultNs releases repositories
    match ensureNamespaceExist w o p.2 p.1 phase with
    | .error err => .error (wrapf err "failed to check namespaces exists")
    | .ok (repositories, releases) =>
      let h := helmState ec (sortSlice repositoryLess repositories) releases
      match w.marshalState h with
      | .error err => .error (wrapf err "failed to marshal helmfile data")
      | .ok data =>
        match writeHelmfile w o phase data with
        | some err => .error (wrapf err "failed to write helmfile")
        | none => .ok h

/-! ## `pkg/config` -/

/-- What `pkg/config` asks of the outside. -/
structure ConfigWorld where
  /-- `filepath.Join`. -/
  filepathJoin : List String → String
  /-- `util.FileExists`: whether the file exists, and the error of the check. -/
  fileExists : String → Bool × Option String
  /-- `ioutil.ReadFile`. -/
  readFile : String → Except String String
  /-- `yaml.Unmarshal` into an empty `DeployConfig`: the configuration as far
  as it was filled, and the error. -/
  unmarshalDeployConfig : String → DeployConfig × Option String
  /-- `SaveConfig` of the requirements to the named file. -/
  saveConfig : RequirementsConfig → String → Option String

/-- `DeployConfigPath`, the name of the deployment configuration file. -/
def DeployConfigPath (w : ConfigWorld) : String := w.filepathJoin [".jenkins-x", "Deployfile"]

/-- `LoadDeployConfigFile` loads a specific deploy YAML configuration file or
returns nil if it does not exist. The result is the configuration, the file
name and the error. -/
def LoadDeployConfigFile (w : ConfigWorld) (fileName : String) :
    Option DeployConfig × String × Option String :=
  let st := w.fileExists fileName
  if st.2.isSome || st.1 = false then (none, "", st.2)
  else
    match w.readFile fileName with
    | .error err =>
      (some {}, "", some ("Failed to load file " ++ fileName ++ " due to " ++ err))
    | .ok data =>
      match w.unmarshalDeployConfig data with
      | (config, some err) =>
        (some config, "", some ("Failed to unmarshal YAML file " ++ fileName ++ " due to " ++ err))
      | (config, none) => (some config, fileName, none)

/-- `LoadDeployConfig` loads the deploy configuration if present or returns nil if its not. -/
def LoadDeployConfig (w : ConfigWorld) (projectDir : String) :
    Option DeployConfig × String × Option String :=
  let fileName := DeployConfigPath w
  let fileName := if projectDir ≠ "" then w.filepathJoin [projectDir, fileName] else fileName
  LoadDeployConfigFile w fileName

/-- Modelled from the spec: the override-if-nonempty rule on a string field of
the requirements (`MergeSave` of `pkg/config/install_requirements.go` is not
among the sources): a non-empty `Changed` field wins. -/
def mergeString (original changed : String) : String :=
  if changed ≠ "" then changed else original

/-- Modelled from the spec: the override-if-nonempty rule on a boolean field,
whose empty value is `false`. -/
def mergeBool (original changed : Bool) : Bool :=
  if changed = true then changed else original

/-- Modelled from the spec: the override-if-nonempty rule on a list of strings. -/
def mergeStrings (original changed : List String) : List String :=
  if changed ≠ [] then changed else original

/-- Modelled from the spec: field-level merge of the cluster section. -/
def mergeClusterConfig (original changed : ClusterConfig) : ClusterConfig :=
  { ChartRepository := mergeString original.ChartRepository changed.ChartRepository
    ClusterName := mergeString original.ClusterName changed.ClusterName
    DevEnvApprovers := mergeStrings original.DevEnvApprovers changed.DevEnvApprovers
    EnvironmentGitOwner := mergeString original.EnvironmentGitOwner changed.EnvironmentGitOwner
    EnvironmentGitPublic := mergeBool original.EnvironmentGitPublic changed.EnvironmentGitPublic
    GitKind := mergeString original.GitKind changed.GitKind
    GitName := mergeString original.GitName changed.GitName
    GitPublic := mergeBool original.GitPublic changed.GitPublic
    GitServer := mergeString original.GitServer changed.GitServer
    Namespace := mergeString original.Namespace changed.Namespace
    ProjectID := mergeString original.ProjectID changed.ProjectID
    Provider := mergeString original.Provider changed.Provider
    Region := mergeString original.Region changed.Region
    Registry := mergeString original.Registry changed.Registry
    Zone := mergeString original.Zone changed.Zone }

/-- Modelled from the spec: field-level merge of a TLS section. -/
def mergeTLSConfig (original changed : TLSConfig) : TLSConfig :=
  { Email := mergeString original.Email changed.Email
    Enabled := mergeBool original.Enabled changed.Enabled
    Production := mergeBool original.Production changed.Production
    SecretName := mergeString original.SecretName changed.SecretName }

/-- Modelled from the spec: field-level merge of an ingress section. -/
def mergeIngressConfig (original changed : IngressConfig) : IngressConfig :=
  { CloudDNSSecretName := mergeString original.CloudDNSSecretName changed.CloudDNSSecretName
    Domain := mergeString original.Domain changed.Domain
    DomainIssuerURL := mergeString original.DomainIssuerURL changed.DomainIssuerURL
    IgnoreLoadBalancer := mergeBool original.IgnoreLoadBalancer changed.IgnoreLoadBalancer
    Kind := mergeString original.Kind changed.Kind
    NamespaceSubDomain := mergeString original.NamespaceSubDomain changed.NamespaceSubDomain
    ServiceType := mergeString original.ServiceType changed.ServiceType
    TLS := mergeTLSConfig original.TLS changed.TLS }

/-- Modelled from the spec: field-level merge of a storage entry. -/
def mergeStorageEntryConfig (original changed : StorageEntryConfig) : StorageEntryConfig :=
  { Enabled := mergeBool original.Enabled changed.Enabled
    URL := mergeString original.URL changed.URL }

/-- Modelled from the spec: field-level merge of the storage section. -/
def mergeStorageConfig (original changed : StorageConfig) : StorageConfig :=
  { Logs := mergeStorageEntryConfig original.Logs changed.Logs
    Reports := mergeStorageEntryConfig original.Reports changed.Reports
    Repository := mergeStorageEntryConfig original.Repository changed.Repository
    Backup := mergeStorageEntryConfig original.Backup changed.Backup }

/-- Modelled from the spec: field-level merge of the velero section. -/
def mergeVeleroConfig (original changed : VeleroConfig) : VeleroConfig :=
  { Namespace := mergeString original.Namespace changed.Namespace
    ServiceAccount := mergeString original.ServiceAccount changed.ServiceAccount
    Schedule := mergeString original.Schedule changed.Schedule
    TimeToLive := mergeString original.TimeToLive changed.TimeToLive }

/-- Modelled from the spec: field-level merge of the version stream section. -/
def mergeVersionStreamConfig (original changed : VersionStreamConfig) : VersionStreamConfig :=
  { URL := mergeString original.URL changed.URL
    Ref := mergeString original.Ref changed.Ref }

/-- Modelled from the spec: field-level merge of one environment. -/
def mergeEnvironmentConfig (original changed : EnvironmentConfig) : EnvironmentConfig :=
  { Key := mergeString original.Key changed.Key
    Owner := mergeString original.Owner changed.Owner
    Repository := mergeString original.Repository changed.Repository
    GitServer := mergeString original.GitServer changed.GitServer
    GitKind := mergeString original.GitKind changed.GitKind
    Ingress := mergeIngressConfig original.Ingress changed.Ingress
    RemoteCluster := mergeBool original.RemoteCluster changed.RemoteCluster
    PromotionStrategy := mergeString original.PromotionStrategy changed.PromotionStrategy
    URLTemplate := mergeString original.URLTemplate changed.URLTemplate }

/-- Modelled from the spec: the environments are merged entry by entry, in the
order of the lists (as the merge tests of the repository check them): an entry
that both lists have is merged field by field, an entry that only one of them
has is empty in the other and is taken as it is. -/
def mergeEnvironments : List EnvironmentConfig → List EnvironmentConfig → List EnvironmentConfig
  | [], changed => changed
  | original, [] => original
  | o :: original, c :: changed => mergeEnvironmentConfig o c :: mergeEnvironments original changed

/-- Modelled from the spec: field-level, override-preferring merge of two requirements. -/
def mergeRequirements (original changed : RequirementsConfig) : RequirementsConfig :=
  { BootConfigURL := mergeString original.BootConfigURL changed.BootConfigURL
    Cluster := mergeClusterConfig original.Cluster changed.Cluster
    Environments := mergeEnvironments original.Environments changed.Environments
    GitOps := mergeBool original.GitOps changed.GitOps
    Helmfile := mergeBool original.Helmfile changed.Helmfile
    Kaniko := mergeBool original.Kaniko changed.Kaniko
    Ingress := mergeIngressConfig original.Ingress changed.Ingress
    Repository := mergeString original.Repository changed.Repository
    SecretStorage := mergeString original.SecretStorage changed.SecretStorage
    Storage := mergeStorageConfig original.Storage changed.Storage
    Terraform := mergeBool original.Terraform changed.Terraform
    Velero := mergeVeleroConfig original.Velero changed.Velero
    VersionStream := mergeVersionStreamConfig original.VersionStream changed.VersionStream
    Webhook := mergeString original.Webhook changed.Webhook }

/-- Modelled from the spec: `MergeSave` of `pkg/config/install_requirements.go`, which is
not among the sources (only its test `TestMergeSave` is). It merges `src` into
the receiver `c` and saves the result to the named file; the result is the
receiver after the call and the error. -/
def MergeSave (w : ConfigWorld) (c src : RequirementsConfig) (requirementsFileName : String) :
    RequirementsConfig × Option String :=
  let merged := mergeRequirements c src
  match w.saveConfig merged requirementsFileName with
  | some err =>
    (merged, some (wrapf err
      ("error saving the merged jx-requirements.yml files to " ++ requirementsFileName)))
  | none => (merged, none)

/-! ## `step_verify_environments.go` -/

/-- Go `errors.Wrapf` and `errors.Wrap` (`github.com/pkg/errors`) on an error
that may be nil: the result is nil when the error is nil. -/
def Wrapf (err : Option String) (msg : String) : Option String :=
  match err with
  | none => none
  | some e => some (wrapf e msg)

/-- Go `strings.ReplaceAll(s, ".", "-")`. -/
def replaceDots (s : String) : String :=
  String.mk (s.data.map (fun c => if c = '.' then '-' else c))

/-- Go `strings.TrimSuffix`. -/
def trimSuffix (s suffix : String) : String :=
  if suffix.data.isSuffixOf s.data then
    String.mk (s.data.take (s.data.length - suffix.data.length))
  else s

/-- Git source of an environment (`v1.EnvironmentRepository`). -/
structure EnvironmentRepository where
  URL : String := ""
  Ref : String := ""
  deriving DecidableEq, Repr

/-- `v1.EnvironmentSpec`, as far as the verify steps read or write it. -/
structure EnvironmentSpec where
  Kind : String := ""
  Namespace : String := ""
  PromotionStrategy : String := ""
  RemoteCluster : Bool := false
  Source : EnvironmentRepository := {}
  deriving DecidableEq, Repr

/-- An environment of the cluster (`v1.Environment`). -/
structure Environment where
  Name : String := ""
  Spec : EnvironmentSpec := {}
  deriving DecidableEq, Repr

/-- A parsed git URL (`gits.GitRepository`). -/
structure GitRepository where
  URL : String := ""
  Organisation : String := ""
  Name : String := ""
  Host : String := ""
  CloneURL : String := ""
  HTMLURL : String := ""
  deriving DecidableEq, Repr

/-- A user of a git server (`auth.UserAuth`). -/
structure UserAuth where
  Username : String := ""
  ApiToken : String := ""
  BearerToken : String := ""
  Password : String := ""
  GithubAppOwner : String := ""
  deriving DecidableEq, Repr

/-- A git server and its users (`auth.AuthServer`). -/
structure AuthServer where
  URL : String := ""
  Name : String := ""
  Kind : String := ""
  Users : List UserAuth := []
  deriving DecidableEq, Repr

/-- The auth configuration (`auth.AuthConfig`). -/
structure AuthConfig where
  Servers : List AuthServer := []
  PipeLineUsername : String := ""
  PipeLineServer : String := ""
  deriving DecidableEq, Repr

/-- `config.ExposeControllerConfig`. -/
structure ExposeControllerConfig where
  Domain : String := ""
  Exposer : String := ""
  HTTP : String := ""
  TLSAcme : String := ""
  URLTemplate : String := ""
  TLSSecretName : String := ""
  deriving DecidableEq, Repr

/-- `config.ExposeController`. -/
structure ExposeController where
  Config : ExposeControllerConfig := {}
  Production : Bool := false
  deriving DecidableEq, Repr

/-- `config.HelmValuesConfig`: the expose controller is a pointer. -/
structure HelmValuesConfig where
  ExposeController : Option ExposeController := none
  deriving DecidableEq, Repr

/-- `gits.GitRepositoryOptions`. -/
structure GitRepositoryOptions where
  ServerURL : String := ""
  ServerKind : String := ""
  Username : String := ""
  ApiToken : String := ""
  Owner : String := ""
  RepoName : String := ""
  Public : Bool := false
  IgnoreExistingRepository : Bool := false
  deriving DecidableEq, Repr

/-- An operation on the local git repository or on the git provider; the
functions below return the operations they performed, in order. -/
inductive GitOperation where
  | ensureUserAndEmailSetup
  | createProviderForUser
  | getRepository
  | findTagForVersion
  | duplicateGitRepoFromCommitish
  | forkAndPullRepo
  | hasChanges
  | add
  | commitDir
  | getRemoteForURL
  | push (remoteName : String)
  | setRemoteURL
  | doCreateEnvironmentGitRepo
  deriving DecidableEq, Repr

/-- The options of the command (`StepVerifyEnvironmentsOptions`). -/
structure StepVerifyEnvironmentsOptions where
  Dir : String := ""
  BatchMode : Bool := false
  deriving DecidableEq, Repr

/-- What `step_verify_environments.go` asks of the outside: the constants of
the packages `boot`, `gits`, `kube`, `config` and `v1`, the process
environment, the auth and git packages and the git provider. -/
structure EnvironmentsWorld where
  /-- `boot.ConfigRepoURLEnvVarName`. -/
  ConfigRepoURLEnvVarName : String
  /-- `boot.ConfigBaseRefEnvVarName`. -/
  ConfigBaseRefEnvVarName : String
  /-- `boot.DisablePushUpdatesToDevEnvironment`. -/
  DisablePushUpdatesToDevEnvironment : String
  /-- `gits.KindGitHub`. -/
  KindGitHub : String
  /-- `gits.GitHubURL`. -/
  GitHubURL : String
  /-- `config.WebhookTypeLighthouse`. -/
  WebhookTypeLighthouse : String
  /-- `config.RepositoryTypeUnknown`. -/
  RepositoryTypeUnknown : String
  /-- `config.ExposeDefaultURLTemplate`. -/
  ExposeDefaultURLTemplate : String
  /-- `config.DefaultBootRepository`. -/
  DefaultBootRepository : String
  /-- `kube.LabelValueDevEnvironment`. -/
  LabelValueDevEnvironment : String
  /-- `v1.EnvironmentKindTypeDevelopment`. -/
  EnvironmentKindTypeDevelopment : String
  /-- `kube.DefaultEnvironmentGitRepoURL`. -/
  DefaultEnvironmentGitRepoURL : String
  /-- `kube.DefaultEnvironmentHelmfileGitRepoURL`. -/
  DefaultEnvironmentHelmfileGitRepoURL : String
  /-- `kube.DefaultEnvironmentHelmfileLocalGitRepoURL`. -/
  DefaultEnvironmentHelmfileLocalGitRepoURL : String
  /-- `os.LookupEnv`: `none` when the variable is not set. -/
  lookupEnv : String → Option String
  /-- `gits.ParseGitURL`. -/
  parseGitURL : String → Except String GitRepository
  /-- `GitRepository.HostURL`. -/
  hostURL : GitRepository → String
  /-- `GitRepository.HostURLWithoutUser`. -/
  hostURLWithoutUser : GitRepository → String
  /-- `GitRepository.IsGitHub`. -/
  isGitHub : GitRepository → Bool
  /-- `ioutil.TempDir`. -/
  tempDir : Except String String
  /-- `filepath.Abs`. -/
  filepathAbs : String → Except String String
  /-- `IsGitHubAppMode`. -/
  isGitHubAppMode : Except String Bool
  /-- `IsJXBoot`. -/
  isJXBoot : Bool
  /-- `AuthConfig.GetPipelineAuth`: the server and the user of the pipeline, each possibly nil. -/
  getPipelineAuth : AuthConfig → Option AuthServer × Option UserAuth
  /-- `UserAuth.IsInvalid`. -/
  isInvalid : UserAuth → Bool
  /-- `RequirementsConfig.Environment`: the configuration of the named environment and the error. -/
  requirementsEnvironment : RequirementsConfig → String → Option EnvironmentConfig × Option String
  /-- `config.NewRequirementsConfig`. -/
  newRequirementsConfig : RequirementsConfig
  /-- `config.LoadRequirementsConfig`: the requirements and their file name. -/
  loadRequirementsConfig : String → Except String (RequirementsConfig × String)
  /-- `util.FileExists`. -/
  fileExists : String → Bool × Option String
  /-- `RequirementsConfig.SaveConfig`. -/
  saveConfig : RequirementsConfig → String → Option String
  /-- `modifyPipelineGitEnvVars`, the method of the same file that writes the
  pipeline user into the project configuration: its error. -/
  modifyPipelineGitEnvVars : String → Option String
  /-- `gits.EnsureUserAndEmailSetup`: user name, email and error. -/
  ensureUserAndEmailSetup : String × String × Option String
  /-- `GitRepository.CreateProviderForUser`: its error. -/
  createProviderForUser : GitRepository → AuthServer → UserAuth → String → Option String
  /-- `GitProvider.GetRepository`. -/
  getRepository : String → String → Except String GitRepository
  /-- `GitProvider.CurrentUsername`. -/
  currentUsername : String
  /-- `gits.IsDefaultBootConfigURL`. -/
  isDefaultBootConfigURL : String → Except String Bool
  /-- `CreateVersionResolver`: its error. -/
  createVersionResolver : String → String → Option String
  /-- `VersionResolver.ResolveGitVersion`. -/
  resolveGitVersion : String → Except String String
  /-- `gits.FindTagForVersion`. -/
  findTagForVersion : String → String → Except String String
  /-- `gits.DuplicateGitRepoFromCommitish`: organisation, name, source URL,
  commitish, privacy and the repository to copy from when it is on another host. -/
  duplicateGitRepoFromCommitish :
    String → String → String → String → Bool → Option GitRepository → Except String GitRepository
  /-- `gits.ForkAndPullRepo`: its error. -/
  forkAndPullRepo : String → String → Option String
  /-- `Gitter.HasChanges`. -/
  hasChanges : String → Except String Bool
  /-- `Gitter.Add`. -/
  add : String → String → Option String
  /-- `Gitter.CommitDir`. -/
  commitDir : String → String → Option String
  /-- `gits.AddUserToURL`. -/
  addUserToURL : String → String → Except String String
  /-- `gits.GetRemoteForURL`. -/
  getRemoteForURL : String → String → Except String String
  /-- `Gitter.Push` of `master` to the named remote, forced. -/
  push : String → String → Option String
  /-- `Gitter.SetRemoteURL`. -/
  setRemoteURL : String → String → String → Option String
  /-- `kube.DoCreateEnvironmentGitRepo`: batch mode, helmfile, the environment,
  the URL to fork, the directory, the options of the repository, the helm
  values and the function that modifies the clone; its error. -/
  doCreateEnvironmentGitRepo :
    Bool → Bool → Environment → String → String → GitRepositoryOptions → HelmValuesConfig →
      (String → Option String) → Option String

/-- Go `os.Getenv`. -/
def EnvironmentsWorld.getenv (w : EnvironmentsWorld) (key : String) : String :=
  match w.lookupEnv key with
  | some v => v
  | none => ""

/-- Modelled from the spec: `util.CombineErrors` (`pkg/util` is not among the
sources), used by `readEnvironment`, whose comment says that an error is
returned in case any of the required variables is missing: nil when every error
is nil, the one error when one is not, and the list of the errors otherwise. -/
def CombineErrors (errs : List (Option String)) : Option String :=
  match errs.filterMap id with
  | [] => none
  | [e] => some e
  | es => some ("[" ++ ", ".intercalate es ++ "]")

/-- `readEnvironment` returns the repository URL as well as the git ref for
original boot config repo. An error is returned in case any of the require
environment variables needed to setup the environment repository is missing. -/
def readEnvironment (w : EnvironmentsWorld) : String × String × Option String :=
  let url := w.lookupEnv w.ConfigRepoURLEnvVarName
  let missingRepoURLErr : Option String :=
    if url.isNone then
      some ("the environment variable " ++ w.ConfigRepoURLEnvVarName ++ " must be specified")
    else none
  let ref := w.lookupEnv w.ConfigBaseRefEnvVarName
  let missingReoRefErr : Option String :=
    if ref.isNone then
      some ("the environment variable " ++ w.ConfigBaseRefEnvVarName ++ " must be specified")
    else none
  let err := CombineErrors [missingRepoURLErr, missingReoRefErr]
  (url.getD "", ref.getD "", err)

/-- `configureRemoteEnvironment`: the environment configuration after the call
(it is written through the pointer, also when the git URL does not parse) and
the error. -/
def configureRemoteEnvironment (w : EnvironmentsWorld) (env : Environment)
    (envConfig : EnvironmentConfig) : EnvironmentConfig × Option String :=
  let envConfig :=
    { envConfig with
      Key := "dev"
      PromotionStrategy := env.Spec.PromotionStrategy
      RemoteCluster := env.Spec.RemoteCluster }
  let u := env.Spec.Source.URL
  if u ≠ "" then
    match w.parseGitURL u with
    | .error err => (envConfig, some err)
    | .ok gitInfo =>
      let envConfig :=
        if gitInfo.Organisation ≠ "" then { envConfig with Owner := gitInfo.Organisation }
        else envConfig
      let envConfig :=
        if gitInfo.Name ≠ "" then { envConfig with Repository := gitInfo.Name } else envConfig
      let envConfig :=
        if envConfig.GitKind = "" ∧ w.isGitHub gitInfo = true then
          { envConfig with GitKind := w.KindGitHub }
        else envConfig
      let envConfig :=
        if envConfig.GitServer = "" then
          { envConfig with GitServer := w.hostURLWithoutUser gitInfo }
        else envConfig
      (envConfig, none)
  else (envConfig, none)

/-- The loop of `ModifyEnvironmentRequirements` over the remote environments
(lines 439-449): every environment with the key `dev` is configured. The
arguments are the environments still to visit, `found` and the environment
that `e` points to; the result is the environments after the loop, `found`,
the environment that `e` points to and the error that ended the loop. -/
def configureDevEnvironments (w : EnvironmentsWorld) (env : Environment) :
    List EnvironmentConfig → Bool → EnvironmentConfig →
      List EnvironmentConfig × Bool × EnvironmentConfig × Option String
  | [], found, e => ([], found, e, none)
  | x :: rest, found, _ =>
    if x.Key = "dev" then
      match configureRemoteEnvironment w env x with
      | (x', some err) => (x' :: rest, true, x', some err)
      | (x', none) =>
        let r := configureDevEnvironments w env rest true x'
        (x' :: r.1, r.2.1, r.2.2.1, r.2.2.2)
    else
      let r := configureDevEnvironments w env rest found x
      (x :: r.1, r.2.1, r.2.2.1, r.2.2.2)

/-- The value of a string field that is assigned only when it is empty
(`if x == "" { x = value }`). -/
def setIfEmpty (current value : String) : String :=
  if current = "" then value else current

/-- The cluster section after lines 459-504 of `ModifyEnvironmentRequirements`;
`owner` is `e.Owner` and `ns` the namespace of the environment. -/
def populateRemoteCluster (w : EnvironmentsWorld) (dev cluster : ClusterConfig)
    (owner ns : String) : ClusterConfig :=
  { cluster with
    DevEnvApprovers :=
      if cluster.DevEnvApprovers.length = 0 then dev.DevEnvApprovers else cluster.DevEnvApprovers
    Provider := setIfEmpty cluster.Provider dev.Provider
    EnvironmentGitOwner := setIfEmpty cluster.EnvironmentGitOwner owner
    EnvironmentGitPublic := dev.EnvironmentGitPublic
    GitKind := setIfEmpty cluster.GitKind (setIfEmpty dev.GitKind w.KindGitHub)
    GitName := setIfEmpty cluster.GitName (setIfEmpty dev.GitName w.KindGitHub)
    GitServer := setIfEmpty cluster.GitServer (setIfEmpty dev.GitServer w.GitHubURL)
    Namespace := ns }

/-- The ingress section after lines 495-517 of `ModifyEnvironmentRequirements`;
`ns` is the namespace set in the cluster section. -/
def populateRemoteIngress (dev ingress : IngressConfig) (ns : String) : IngressConfig :=
  { ingress with
    Kind := setIfEmpty ingress.Kind dev.Kind
    ServiceType :=
      if dev.ServiceType ≠ "" ∧ ingress.ServiceType = "" then dev.ServiceType
      else ingress.ServiceType
    IgnoreLoadBalancer := dev.IgnoreLoadBalancer
    NamespaceSubDomain := setIfEmpty ingress.NamespaceSubDomain ("-" ++ ns ++ ".") }

/-- Lines 459-524 of `ModifyEnvironmentRequirements`: the remote requirements
and the environment after the assignments, `e` being the environment
configuration that the variable `e` points to. -/
def populateRemoteRequirements (w : EnvironmentsWorld) (devRequirements : RequirementsConfig)
    (env : Environment) (remote : RequirementsConfig) (e : EnvironmentConfig) :
    RequirementsConfig × Environment :=
  let ns := if env.Spec.Namespace = "" then "jx-" ++ env.Name else env.Spec.Namespace
  ({ remote with
      Cluster := populateRemoteCluster w devRequirements.Cluster remote.Cluster e.Owner ns
      GitOps := true
      Helmfile := true
      Kaniko := devRequirements.Kaniko
      Webhook := w.WebhookTypeLighthouse
      SecretStorage := devRequirements.SecretStorage
      BootConfigURL :=
        if env.Spec.Source.URL ≠ "" then env.Spec.Source.URL else remote.BootConfigURL
      Ingress := populateRemoteIngress devRequirements.Ingress remote.Ingress ns
      VersionStream :=
        { URL := setIfEmpty remote.VersionStream.URL devRequirements.VersionStream.URL
          Ref := setIfEmpty remote.VersionStream.Ref devRequirements.VersionStream.Ref }
      Velero :=
        { remote.Velero with
          Schedule := setIfEmpty remote.Velero.Schedule devRequirements.Velero.Schedule
          TimeToLive := setIfEmpty remote.Velero.TimeToLive devRequirements.Velero.TimeToLive } },
   { env with Spec := { env.Spec with Namespace := ns } })

/-- `ModifyEnvironmentRequirements` populates the remote requirements from the
development requirements. The result is the remote requirements and the
environment after the call (both are written through their pointers) and the error. -/
def ModifyEnvironmentRequirements (w : EnvironmentsWorld) (devRequirements : RequirementsConfig)
    (env : Environment) (remoteRequirements : RequirementsConfig) :
    RequirementsConfig × Environment × Option String :=
  let r := configureDevEnvironments w env remoteRequirements.Environments false {}
  let remote := { remoteRequirements with Environments := r.1 }
  match r.2.2.2 with
  | some err => (remote, env, some err)
  | none =>
    if r.2.1 = false then
      match configureRemoteEnvironment w env {} with
      | (_, some err) => (remote, env, some err)
      | (e, none) =>
        let remote := { remote with Environments := remote.Environments ++ [e] }
        let p := populateRemoteRequirements w devRequirements env remote e
        (p.1, p.2, none)
    else
      let p := populateRemoteRequirements w devRequirements env remote r.2.2.1
      (p.1, p.2, none)

/-- `NewRemoteRequirementsConfig` creates a new default remote requirements config. -/
def NewRemoteRequirementsConfig (w : EnvironmentsWorld) : RequirementsConfig :=
  { w.newRequirementsConfig with Repository := w.RepositoryTypeUnknown }

/-- `getEnvironmentURLTemplate`. -/
def getEnvironmentURLTemplate (w : EnvironmentsWorld) (envCfg : EnvironmentConfig) : String :=
  if envCfg.URLTemplate ≠ "" then envCfg.URLTemplate else w.ExposeDefaultURLTemplate

/-- `createEnvironmentHelmValues`: the helm values and the error. The name of
the environment is quoted in the message as `%q` quotes a name without
special characters. -/
def createEnvironmentHelmValues (w : EnvironmentsWorld) (requirements : RequirementsConfig)
    (environment : Environment) : HelmValuesConfig × Option String :=
  match w.requirementsEnvironment requirements environment.Name with
  | (none, err) =>
    ({}, Wrapf err ("looking the configuration of environment \"" ++ environment.Name
      ++ "\" in the requirements configuration"))
  | (some _, some err) =>
    ({}, Wrapf (some err) ("looking the configuration of environment \"" ++ environment.Name
      ++ "\" in the requirements configuration"))
  | (some envCfg, none) =>
    let domain :=
      if envCfg.Ingress.Domain ≠ "" then envCfg.Ingress.Domain else requirements.Ingress.Domain
    let useHTTP := if envCfg.Ingress.TLS.Enabled then "false" else "true"
    let tlsAcme := if envCfg.Ingress.TLS.Enabled then "true" else "false"
    let exposer := "Ingress"
    let config : ExposeControllerConfig :=
      { Domain := domain
        Exposer := exposer
        HTTP := useHTTP
        TLSAcme := tlsAcme
        URLTemplate := getEnvironmentURLTemplate w envCfg }
    let config :=
      if envCfg.Ingress.TLS.Enabled then
        let secretName :=
          if envCfg.Ingress.TLS.SecretName = "" then
            if envCfg.Ingress.TLS.Production then "tls-" ++ domain ++ "-p"
            else "tls-" ++ domain ++ "-s"
          else envCfg.Ingress.TLS.SecretName
        { config with TLSSecretName := replaceDots secretName }
      else config
    ({ ExposeController := some { Config := config, Production := envCfg.Ingress.TLS.Production } },
      none)

/-- `createDevEnvironmentRepository`: the repository created, or the error, and
the git operations performed. -/
def createDevEnvironmentRepository (w : EnvironmentsWorld) (gitInfo : GitRepository)
    (localRepoDir fromGitURL fromGitRef : String) (privateRepo : Bool)
    (requirements : RequirementsConfig) : Except String GitRepository × List GitOperation :=
  match w.isDefaultBootConfigURL fromGitURL with
  | .error err =>
    (.error (wrapf err ("failed to verify whether " ++ fromGitURL
      ++ " is the default boot config repository")), [])
  | .ok isDefaultBootURL =>
    let resolved : Except String String :=
      if isDefaultBootURL = true ∧ fromGitRef = "master" then
        match w.createVersionResolver requirements.VersionStream.URL
            requirements.VersionStream.Ref with
        | some err => .error (wrapf err "failed to create version resolver")
        | none =>
          match w.resolveGitVersion fromGitURL with
          | .error err =>
            .error (wrapf err
              "failed to resolve version for https://github.com/jenkins-x/jenkins-x-boot-config.git")
          | .ok ref =>
            if ref = "" then
              match w.resolveGitVersion w.DefaultBootRepository with
              | .error err =>
                .error (wrapf err
                  "failed to resolve version for https://github.com/jenkins-x/jenkins-x-boot-config.git")
              | .ok ref => .ok ref
            else .ok ref
      else .ok fromGitRef
    match resolved with
    | .error err => (.error err, [])
    | .ok fromGitRef =>
      let commitish :=
        match w.findTagForVersion localRepoDir fromGitRef with
        | .error _ => "origin/" ++ fromGitRef
        | .ok tag => tag
      match w.parseGitURL fromGitURL with
      | .error err =>
        (.error (wrapf err ("failed to parse upstream boot config URL " ++ fromGitURL)),
          [.findTagForVersion])
      | .ok fromGitInfo =>
        let fromRepo : Option GitRepository :=
          if fromGitInfo.Host ≠ gitInfo.Host then
            some { fromGitInfo with CloneURL := fromGitURL, HTMLURL := trimSuffix fromGitURL ".git" }
          else none
        match w.duplicateGitRepoFromCommitish gitInfo.Organisation gitInfo.Name fromGitURL
            commitish privateRepo fromRepo with
        | .error err =>
          (.error (wrapf err ("duplicating " ++ fromGitURL ++ " to " ++ gitInfo.Organisation
            ++ "/" ++ gitInfo.Name)), [.findTagForVersion, .duplicateGitRepoFromCommitish])
        | .ok duplicateInfo =>
          (.ok duplicateInfo, [.findTagForVersion, .duplicateGitRepoFromCommitish])

/-- Lines 661-671 of `pushDevEnvironmentUpdates`: the changes are staged and
committed when there are some. -/
def commitChanges (w : EnvironmentsWorld) (localRepoDir : String) (hasChanges : Bool) :
    Option String × List GitOperation :=
  if hasChanges then
    match w.add localRepoDir "." with
    | some err => (some (wrapf err "unable to add stage commit"), [.add])
    | none =>
      match w.commitDir localRepoDir "chore(config): update configuration" with
      | some err =>
        (some (wrapf err ("unable to commit changes to environment repo in " ++ localRepoDir)),
          [.add, .commitDir])
      | none => (none, [.add, .commitDir])
  else (none, [])

/-- Lines 673-691 of `pushDevEnvironmentUpdates`: the remote of the repository
is looked up and `master` is pushed to it. -/
def pushToRemote (w : EnvironmentsWorld) (environmentRepo : GitRepository)
    (localRepoDir : String) : Option String × List GitOperation :=
  match w.addUserToURL environmentRepo.CloneURL w.currentUsername with
  | .error err =>
    (some (wrapf err ("unable to add username to git url " ++ environmentRepo.CloneURL)), [])
  | .ok remoteURL =>
    match w.getRemoteForURL localRepoDir remoteURL with
    | .error err =>
      (some (wrapf err ("cannot determine remote name for " ++ environmentRepo.CloneURL)),
        [.getRemoteForURL])
    | .ok remoteName =>
      -- `err` is the error of `gits.GetRemoteForURL`, which is nil here
      let err : Option String := none
      if remoteName = "" then
        (Wrapf err ("no remote configured for " ++ environmentRepo.CloneURL), [.getRemoteForURL])
      else
        match w.push localRepoDir remoteName with
        | some err =>
          (some (wrapf err ("unable to push " ++ localRepoDir ++ " to "
            ++ environmentRepo.CloneURL)), [.getRemoteForURL, .push remoteName])
        | none => (none, [.getRemoteForURL, .push remoteName])

/-- `pushDevEnvironmentUpdates`: its error and the git operations performed. -/
def pushDevEnvironmentUpdates (w : EnvironmentsWorld) (environmentRepo : GitRepository)
    (localRepoDir : String) : Option String × List GitOperation :=
  match w.forkAndPullRepo environmentRepo.CloneURL localRepoDir with
  | some err =>
    (some (wrapf err ("forking and pulling " ++ environmentRepo.CloneURL)), [.forkAndPullRepo])
  | none =>
    match w.modifyPipelineGitEnvVars localRepoDir with
    | some err => (some (wrapf err "failed to modify dev environment config"), [.forkAndPullRepo])
    | none =>
      match w.hasChanges localRepoDir with
      | .error err =>
        (some (wrapf err "unable to check for changes"), [.forkAndPullRepo, .hasChanges])
      | .ok hasChanges =>
        match commitChanges w localRepoDir hasChanges with
        | (some err, ops) => (some err, [.forkAndPullRepo, .hasChanges] ++ ops)
        | (none, ops) =>
          let r := pushToRemote w environmentRepo localRepoDir
          (r.1, [.forkAndPullRepo, .hasChanges] ++ ops ++ r.2)

/-- `handleDevEnvironmentRepository`: its error and the git operations performed. -/
def handleDevEnvironmentRepository (w : EnvironmentsWorld) (o : StepVerifyEnvironmentsOptions)
    (envGitInfo : GitRepository) (public_ : Bool) (requirements : RequirementsConfig) :
    Option String × List GitOperation :=
  match readEnvironment w with
  | (_, _, some err) => (some err, [])
  | (fromGitURL, fromBaseRef, none) =>
    match w.filepathAbs o.Dir with
    | .error err => (some (wrapf err ("resolving " ++ o.Dir ++ " to absolute path")), [])
    | .ok dir =>
      let repo : Except String GitRepository × List GitOperation :=
        match w.getRepository envGitInfo.Organisation envGitInfo.Name with
        | .ok environmentRepo => (.ok environmentRepo, [.getRepository])
        | .error _ =>
          match createDevEnvironmentRepository w envGitInfo dir fromGitURL fromBaseRef
              (!public_) requirements with
          | (.error err, ops) =>
            (.error (wrapf err ("creating remote for dev environment " ++ envGitInfo.Name)),
              [.getRepository] ++ ops)
          | (.ok environmentRepo, ops) => (.ok environmentRepo, [.getRepository] ++ ops)
      match repo with
      | (.error err, ops) => (some err, ops)
      | (.ok environmentRepo, ops) =>
        match pushDevEnvironmentUpdates w environmentRepo dir with
        | (some err, ops') =>
          (some (wrapf err ("error updating dev environment for " ++ envGitInfo.Name)),
            ops ++ ops')
        | (none, ops') =>
          match w.setRemoteURL dir "jenkins-x" fromGitURL with
          | some err =>
            (some (wrapf err ("setting jenkins-x remote to boot config " ++ fromGitURL)),
              ops ++ ops' ++ [.setRemoteURL])
          | none => (none, ops ++ ops' ++ [.setRemoteURL])

/-- The function `modifyFn` that `createEnvironmentRepository` hands to
`kube.DoCreateEnvironmentGitRepo` (lines 390-425): it writes the requirements
of the environment into the clone `dir` and commits them. -/
def modifyFn (w : EnvironmentsWorld) (requirements : RequirementsConfig)
    (environment : Environment) (dir : String) : Option String :=
  match w.loadRequirementsConfig dir with
  | .error err => some (wrapf err "failed to load environment requirements")
  | .ok (envReq, fileName) =>
    match w.fileExists fileName with
    | (_, some err) => some err
    | (fileFound, none) =>
      let envReq := if fileFound = false then NewRemoteRequirementsConfig w else envReq
      match ModifyEnvironmentRequirements w requirements environment envReq with
      | (_, _, some err) => some (wrapf err "failed to modify environment requirements")
      | (envReq, _, none) =>
        match w.saveConfig envReq fileName with
        | some err => some (wrapf err "failed to save environment requirements")
        | none =>
          match w.add dir "*" with
          | some err => some err
          | none =>
            match w.hasChanges dir with
            | .error err => some err
            | .ok changes =>
              if changes then w.commitDir dir "modify environment requirements configuration"
              else none

/-- Lines 312-330 of `createEnvironmentRepository`: in GitHub App mode the
server is looked up by the URL of the git server when the pipeline has none,
and the user by the owner of the repository. -/
def gitHubAppAuth (authConfig : AuthConfig) (gitServerURL gitOwner : String)
    (server : Option AuthServer) : Option AuthServer × Option UserAuth :=
  let server :=
    match server with
    | some s => some s
    | none => authConfig.Servers.find? (fun s => decide (s.URL = gitServerURL))
  match server with
  | some s => (some s, s.Users.find? (fun u => decide (gitOwner = u.GithubAppOwner)))
  | none => (none, none)

/-- Lines 360-432 of `createEnvironmentRepository`, after the pipeline user was
validated: its error and the git operations performed. -/
def createOrUpdateRepository (w : EnvironmentsWorld) (o : StepVerifyEnvironmentsOptions)
    (name : String) (requirements : RequirementsConfig) (environment : Environment)
    (gitURL : String) (envGitInfo : GitRepository) (envDir gitKind gitServerURL : String)
    (server : AuthServer) (userAuth : UserAuth) (helmfile : Bool) (forkGitURL : String)
    (helmValues : HelmValuesConfig) : Option String × List GitOperation :=
  match w.ensureUserAndEmailSetup with
  | (gitUserName, gitUserEmail, some err) =>
    (some (wrapf err ("couldn't configure git with user " ++ gitUserName ++ " and email "
      ++ gitUserEmail)), [.ensureUserAndEmailSetup])
  | (_, _, none) =>
    if name = w.LabelValueDevEnvironment
        ∨ environment.Spec.Kind = w.EnvironmentKindTypeDevelopment then
      if w.isJXBoot = true ∧ requirements.GitOps = true
          ∧ w.getenv w.DisablePushUpdatesToDevEnvironment ≠ "true" then
        match w.createProviderForUser envGitInfo server userAuth gitKind with
        | some err =>
          (some (wrapf err "unable to create git provider"),
            [.ensureUserAndEmailSetup, .createProviderForUser])
        | none =>
          match handleDevEnvironmentRepository w o envGitInfo
              requirements.Cluster.EnvironmentGitPublic requirements with
          | (some err, ops) =>
            (some (wrapf err "handle dev environment repository"),
              [.ensureUserAndEmailSetup, .createProviderForUser] ++ ops)
          | (none, ops) => (none, [.ensureUserAndEmailSetup, .createProviderForUser] ++ ops)
      else (none, [.ensureUserAndEmailSetup])
    else
      let gitRepoOptions : GitRepositoryOptions :=
        { ServerURL := gitServerURL
          ServerKind := gitKind
          Username := userAuth.Username
          ApiToken := userAuth.Password
          Owner := envGitInfo.Organisation
          RepoName := envGitInfo.Name
          Public := requirements.Cluster.EnvironmentGitPublic
          IgnoreExistingRepository := true }
      match w.doCreateEnvironmentGitRepo o.BatchMode helmfile environment forkGitURL envDir
          gitRepoOptions helmValues (modifyFn w requirements environment) with
      | some err =>
        (some (wrapf err ("failed to create git repository for gitURL " ++ gitURL)),
          [.ensureUserAndEmailSetup, .doCreateEnvironmentGitRepo])
      | none => (none, [.ensureUserAndEmailSetup, .doCreateEnvironmentGitRepo])

/-- `createEnvironmentRepository`: its error and the git operations performed. -/
def createEnvironmentRepository (w : EnvironmentsWorld) (o : StepVerifyEnvironmentsOptions)
    (name : String) (requirements : RequirementsConfig) (authConfig : AuthConfig)
    (environment : Environment) (gitURL : String) (envGitInfo : GitRepository) :
    Option String × List GitOperation :=
  match w.tempDir with
  | .error err => (some (wrapf err "creating temp dir for environment repository"), [])
  | .ok envDir =>
    match w.isGitHubAppMode with
    | .error err => (some (wrapf err "checking the GitHub app mode"), [])
    | .ok gha =>
      -- `err` is the error of `IsGitHubAppMode`, which is nil here
      let err : Option String := none
      let gitOwner := envGitInfo.Organisation
      let gitKind :=
        if requirements.Cluster.GitKind = "" then w.KindGitHub else requirements.Cluster.GitKind
      let gitServerURL := w.hostURL envGitInfo
      let pipelineAuth := w.getPipelineAuth authConfig
      let found : Option AuthServer × Option UserAuth :=
        if gha then gitHubAppAuth authConfig gitServerURL gitOwner pipelineAuth.1
        else pipelineAuth
      let forkGitURL :=
        if requirements.Helmfile then
          if environment.Spec.RemoteCluster then w.DefaultEnvironmentHelmfileGitRepoURL
          else w.DefaultEnvironmentHelmfileLocalGitRepoURL
        else w.DefaultEnvironmentGitRepoURL
      let values : HelmValuesConfig × Option String :=
        if requirements.Helmfile then ({}, err)
        else createEnvironmentHelmValues w requirements environment
      match values with
      | (_, some err) => (some (wrapf err "creating environment helm values"), [])
      | (helmValues, none) =>
        -- `err` is nil from here to line 357: every error assigned to it was returned
        let err : Option String := none
        match found with
        | (none, _) =>
          (some ("no auth server found for git server " ++ gitServerURL ++ " from gitURL "
            ++ gitURL), [])
        | (some _, none) =>
          (some ("no pipeline user found for git server " ++ gitServerURL ++ " from gitURL "
            ++ gitURL), [])
        | (some server, some userAuth) =>
          if w.isInvalid userAuth then
            (Wrapf err ("validating user '" ++ userAuth.Username ++ "' of server '"
              ++ server.Name ++ "'"), [])
          else
            createOrUpdateRepository w o name requirements environment gitURL envGitInfo envDir
              gitKind gitServerURL server userAuth requirements.Helmfile forkGitURL helmValues

/-! ## `step_verify_preinstall.go` -/

/-- `cloud.GKE`. -/
def GKE : String := "gke"

/-- `cloud.EKS`. -/
def EKS : String := "eks"

/-- `cloud.AWS`. -/
def AWS : String := "aws"

/-- The options of the command (`StepVerifyPreInstallOptions`), with the batch
mode of the common options. -/
structure StepVerifyPreInstallOptions where
  BatchMode : Bool := false
  Debug : Bool := false
  Dir : String := ""
  LazyCreate : Bool := false
  DisableVerifyHelm : Bool := false
  DisableVerifyPackages : Bool := false
  DefaultHelmfileSecrets : Bool := false
  LazyCreateFlag : String := ""
  Namespace : String := ""
  ProviderValuesDir : String := ""
  TestKanikoSecretData : String := ""
  TestVeleroSecretData : String := ""
  WorkloadIdentity : Bool := false
  NoSecretYAMLValidate : Bool := false
  deriving DecidableEq, Repr

/-- What `gatherRequirements` leaves: the requirements as the call left them
(they are written through the pointer), the pointer it returns (`none` is
nil), its error and the questions it asked. -/
structure GatherResult where
  requirements : RequirementsConfig
  returned : Option RequirementsConfig
  err : Option String
  prompts : List String
  deriving DecidableEq, Repr

/-- A step of the `Run` of the pre-install verification; `Run` returns the
steps it performed, in order. -/
inductive VerifyStep where
  | loadRequirementsConfig
  | validateSecretsYAML
  | configureCommonOptions
  | gatherRequirements
  | validateRequirements
  | isLazyCreateSecrets
  | getDeployNamespace
  | kubeClient
  | verifyTLS
  | verifyDevNamespace
  | ensureDevNamespaceCreated
  | verifyIngress
  | namespaceRun
  | verifyPackages
  | verifyInstallConfig
  | verifyStorage
  | verifyHelm
  | validateVelero
  | lazyCreateVeleroSecret
  | verifyProwConfigMaps
  | enableIRSASupportInCluster
  | environmentContext
  | createIRSAManagedServiceAccounts
  deriving DecidableEq, Repr

/-- What `step_verify_preinstall.go` asks of the outside: constants of the
package `config`, helpers of other packages, the cluster, and the results of
the methods of the file that are not embedded here. -/
structure PreInstallWorld where
  /-- `config.WebhookTypeProw`. -/
  WebhookTypeProw : String
  /-- `config.WebhookTypeLighthouse`. -/
  WebhookTypeLighthouse : String
  /-- `config.RepositoryTypeBucketRepo`. -/
  RepositoryTypeBucketRepo : String
  /-- `gits.IsGitHubServerURL`. -/
  isGitHubServerURL : String → Bool
  /-- `naming.ToValidName`. -/
  toValidName : String → String
  /-- `yaml.Marshal` of the requirements. -/
  yamlMarshal : RequirementsConfig → Except String String
  /-- `ioutil.WriteFile`. -/
  writeFile : String → String → Option String
  /-- `filepath.Dir`. -/
  filepathDir : String → String
  /-- `filepath.Join`. -/
  filepathJoin : List String → String
  /-- `config.SaveRequirementsValuesFile`. -/
  saveRequirementsValuesFile : RequirementsConfig → String → Option String
  /-- `config.LoadRequirementsConfig`: the requirements and their file name. -/
  loadRequirementsConfig : String → Except String (RequirementsConfig × String)
  /-- `validateSecretsYAML`: its error. -/
  validateSecretsYAML : Option String
  /-- `ConfigureCommonOptions`: its error. -/
  configureCommonOptions : RequirementsConfig → Option String
  /-- Lines 539-737 of `gatherRequirements`: the questions asked of the user
  and of the cluster, and what they leave in the requirements. -/
  gatherInteractive : StepVerifyPreInstallOptions → RequirementsConfig → String → GatherResult
  /-- `RequirementsConfig.IsLazyCreateSecrets`. -/
  isLazyCreateSecrets : RequirementsConfig → String → Except String Bool
  /-- `GetDeployNamespace`. -/
  getDeployNamespace : String → Except String String
  /-- `KubeClient`: its error. -/
  kubeClient : Option String
  /-- `verifyTLS`: its error. -/
  verifyTLS : RequirementsConfig → Option String
  /-- `kube.GetDevNamespace`: namespace, name of the environment and error;
  the first argument tells whether `EnsureDevNamespaceCreatedWithoutEnvironment`
  ran before. -/
  getDevNamespace : Bool → String → String × String × Option String
  /-- `kube.EnsureDevNamespaceCreatedWithoutEnvironment`: its error. -/
  ensureDevNamespaceCreatedWithoutEnvironment : String → Option String
  /-- `verifyIngress`: the requirements as it leaves them, and its error. -/
  verifyIngress : RequirementsConfig → String → RequirementsConfig × Option String
  /-- `Run` of the namespace options: its error. -/
  namespaceRun : String → Option String
  /-- `Run` of the packages verification: its error. -/
  verifyPackages : Option String
  /-- `VerifyInstallConfig`: the requirements as it leaves them, and its error. -/
  verifyInstallConfig : String → RequirementsConfig → String → RequirementsConfig × Option String
  /-- `verifyStorage`: the requirements as it leaves them, and its error. -/
  verifyStorage : RequirementsConfig → String → RequirementsConfig × Option String
  /-- `verifyHelm`: its error. -/
  verifyHelm : String → Option String
  /-- `validateVelero`: its error; the first argument tells whether
  `lazyCreateVeleroSecret` ran before. -/
  validateVelero : Bool → String → Option String
  /-- `lazyCreateVeleroSecret`: its error. -/
  lazyCreateVeleroSecret : RequirementsConfig → String → Option String
  /-- `verifyProwConfigMaps`: its error. -/
  verifyProwConfigMaps : String → Option String
  /-- `cluster.IsInCluster`. -/
  isInCluster : Bool
  /-- `os.Getenv`. -/
  getenv : String → String
  /-- `amazon.EnableIRSASupportInCluster`: its error. -/
  enableIRSASupportInCluster : RequirementsConfig → Option String
  /-- `EnvironmentContext`: the `VersionsDir` of its version resolver (`none`
  when the resolver is nil), or the error. -/
  environmentContext : String → Except String (Option String)
  /-- `amazon.CreateIRSAManagedServiceAccounts`: its error. -/
  createIRSAManagedServiceAccounts : RequirementsConfig → String → Option String

/-- `SaveConfig` saves the configuration file to the given project directory. -/
def StepVerifyPreInstallOptions.SaveConfig (w : PreInstallWorld) (c : RequirementsConfig)
    (fileName : String) : Option String :=
  match w.yamlMarshal c with
  | .error err => some err
  | .ok data =>
    match w.writeFile fileName data with
    | some err => some (wrapf err ("failed to save file " ++ fileName))
    | none =>
      if c.Helmfile then w.saveRequirementsValuesFile c (w.filepathDir fileName)
      else none

/-- The name given to the git repository of an environment that has none
(lines 1074-1084 of `ValidateRequirements`); `count` is the number of
environments. -/
def environmentRepositoryName (w : PreInstallWorld) (clusterName : String) (count : Nat)
    (env : EnvironmentConfig) : String :=
  let repoName := "environment-" ++ clusterName
  let repoName :=
    if count > 1 then
      let clusterName := if clusterName ≠ "" then clusterName ++ "-" else clusterName
      "environment-" ++ clusterName ++ env.Key
    else repoName
  w.toValidName repoName

/-- The loop of `ValidateRequirements` over the environments (lines 1072-1087):
the environments after the loop. -/
def nameEnvironmentRepositories (w : PreInstallWorld) (requirements : RequirementsConfig) :
    List EnvironmentConfig :=
  requirements.Environments.map fun env =>
    if env.Repository = "" then
      { env with
        Repository := environmentRepositoryName w requirements.Cluster.ClusterName
          requirements.Environments.length env }
    else env

/-- `ValidateRequirements` validate the requirements; e.g. the webhook and git
provider. The result is the requirements after the call (they are written
through the pointer) and the error. -/
def StepVerifyPreInstallOptions.ValidateRequirements (w : PreInstallWorld)
    (requirements : RequirementsConfig) (fileName : String) :
    RequirementsConfig × Option String :=
  let kind := requirements.Cluster.GitKind
  let server := requirements.Cluster.GitServer
  if requirements.Webhook = w.WebhookTypeProw ∧
      ((kind ≠ "" ∧ kind ≠ "github") ∨ (server ≠ "" ∧ w.isGitHubServerURL server = false)) then
    (requirements,
      some ("invalid requirements in file " ++ fileName
        ++ " cannot use prow as a webhook for git kind: " ++ kind ++ " server: " ++ server
        ++ ". Please try using lighthouse instead"))
  else
    let bucket : RequirementsConfig × Option String :=
      if requirements.Repository = w.RepositoryTypeBucketRepo
          ∧ requirements.Cluster.ChartRepository = "" then
        let requirements :=
          { requirements with
            Cluster := { requirements.Cluster with
              ChartRepository := "http://bucketrepo/bucketrepo/charts/" } }
        (requirements, StepVerifyPreInstallOptions.SaveConfig w requirements fileName)
      else (requirements, none)
    match bucket with
    | (requirements, some err) =>
      (requirements, some (wrapf err ("failed to save changes to file: " ++ fileName)))
    | (requirements, none) =>
      let modified := requirements.Environments.any (fun env => decide (env.Repository = ""))
      let requirements :=
        { requirements with Environments := nameEnvironmentRepositories w requirements }
      if modified then
        match StepVerifyPreInstallOptions.SaveConfig w requirements fileName with
        | some err =>
          (requirements, some (wrapf err ("failed to save changes to file: " ++ fileName)))
        | none => (requirements, none)
      else (requirements, none)

/-- The message of `gatherRequirements` for a field that is missing in batch mode. -/
def batchModeMessage (field : String) : String :=
  "please specify '" ++ field ++ "' in jx-requirements when running  in  batch mode"

/-- Lines 514-538 of `gatherRequirements`: the field whose absence ends the
call in batch mode, if there is one. -/
def missingInBatchMode (requirements : RequirementsConfig) : Option String :=
  if requirements.Cluster.Provider = "" then some "provider"
  else if (requirements.Cluster.Provider = EKS ∨ requirements.Cluster.Provider = AWS)
      ∧ requirements.Cluster.Region = "" then some "region"
  else if requirements.Cluster.Provider = GKE ∧ requirements.Cluster.ProjectID = "" then
    some "project"
  else if requirements.Cluster.Provider = GKE ∧ requirements.Cluster.Zone = "" then some "zone"
  else if requirements.Cluster.EnvironmentGitOwner = "" then some "environmentGitOwner"
  else if requirements.Cluster.ClusterName = "" then some "clusterName"
  else none

/-- `gatherRequirements` gathers cluster requirements and connects to the
cluster if required. -/
def StepVerifyPreInstallOptions.gatherRequirements (w : PreInstallWorld)
    (o : StepVerifyPreInstallOptions) (requirements : RequirementsConfig)
    (requirementsFileName : String) : GatherResult :=
  let missing := if o.BatchMode then missingInBatchMode requirements else none
  match missing with
  | some field =>
    { requirements := requirements, returned := none, err := some (batchModeMessage field),
      prompts := [] }
  | none => w.gatherInteractive o requirements requirementsFileName

/-- `verifyDevNamespace`; `created` tells whether the namespace was lazily
created before. -/
def StepVerifyPreInstallOptions.verifyDevNamespace (w : PreInstallWorld) (created : Bool)
    (ns : String) : Option String :=
  match w.getDevNamespace created ns with
  | (_, _, some err) => some err
  | (ns, envName, none) =>
    if ns = "" then some "no dev namespace name found"
    else if envName = "" then some ("namespace " ++ ns ++ " has no team label")
    else none

/-- A step of `Run` that ends it when it fails: the error and the steps
performed are those of the step when `err` is an error, and the step followed
by `next` otherwise. -/
def thenStep (step : VerifyStep) (err : Option String) (next : Option String × List VerifyStep) :
    Option String × List VerifyStep :=
  match err with
  | some e => (some e, [step])
  | none => (next.1, step :: next.2)

/-- Lines 173-188 of `Run`: the dev namespace is verified and, under
`LazyCreate`, created and verified again when the verification fails. The
result is the error that `Run` returns here (`none` when it goes on) and the
steps performed. -/
def verifyOrCreateDevNamespace (w : PreInstallWorld) (o : StepVerifyPreInstallOptions)
    (ns : String) : Option String × List VerifyStep :=
  match StepVerifyPreInstallOptions.verifyDevNamespace w false ns with
  | none => (none, [.verifyDevNamespace])
  | some _ =>
    if o.LazyCreate then
      match w.ensureDevNamespaceCreatedWithoutEnvironment ns with
      | some err =>
        (some (wrapf err ("failed to lazily create the namespace " ++ ns)),
          [.verifyDevNamespace, .ensureDevNamespaceCreated])
      | none =>
        match StepVerifyPreInstallOptions.verifyDevNamespace w true ns with
        | some err =>
          (some (wrapf err ("failed to verify the namespace " ++ ns)),
            [.verifyDevNamespace, .ensureDevNamespaceCreated, .verifyDevNamespace])
        | none =>
          (none, [.verifyDevNamespace, .ensureDevNamespaceCreated, .verifyDevNamespace])
    else (none, [.verifyDevNamespace])

/-- Lines 231-253 of `Run`: the velero secret is validated on GKE when velero
has a namespace, and lazily created when the validation fails. -/
def verifyVelero (w : PreInstallWorld) (o : StepVerifyPreInstallOptions)
    (requirements : RequirementsConfig) : Option String × List VerifyStep :=
  let vns := requirements.Velero.Namespace
  if vns ≠ "" ∧ requirements.Cluster.Provider = GKE then
    match w.validateVelero false vns with
    | none => (none, [.validateVelero])
    | some err =>
      if o.LazyCreate then
        match w.lazyCreateVeleroSecret requirements vns with
        | some err =>
          (some (wrapf err ("failed to lazily create the velero secret in: " ++ vns)),
            [.validateVelero, .lazyCreateVeleroSecret])
        | none =>
          (w.validateVelero true vns, [.validateVelero, .lazyCreateVeleroSecret, .validateVelero])
      else (some err, [.validateVelero])
  else (none, [])

/-- Lines 263-290 of `Run`: on EKS, under `LazyCreate`, the IAM roles for the
service accounts are created unless the command runs in the cluster. -/
def enableIRSA (w : PreInstallWorld) (o : StepVerifyPreInstallOptions)
    (requirements : RequirementsConfig) : Option String × List VerifyStep :=
  if requirements.Cluster.Provider = EKS ∧ o.LazyCreate = true then
    if w.isInCluster = false ∨ w.getenv "OVERRIDE_IRSA_IN_CLUSTER" = "true" then
      match w.enableIRSASupportInCluster requirements with
      | some err => (some (wrapf err "error enabling IRSA in cluster"), [.enableIRSASupportInCluster])
      | none =>
        let dir : Except String String × List VerifyStep :=
          if o.ProviderValuesDir = "" then
            match w.environmentContext o.Dir with
            | .error err =>
              (.error (wrapf err "failed to create EnvironmentContext"), [.environmentContext])
            | .ok none => (.error "no VersionResolver", [.environmentContext])
            | .ok (some versionsDir) =>
              (.ok (w.filepathJoin [versionsDir, "kubeProviders"]), [.environmentContext])
          else (.ok o.ProviderValuesDir, [])
        match dir with
        | (.error err, steps) => (some err, .enableIRSASupportInCluster :: steps)
        | (.ok providerValuesDir, steps) =>
          match w.createIRSAManagedServiceAccounts requirements providerValuesDir with
          | some err =>
            (some (wrapf err "error creating the IRSA managed Service Accounts"),
              .enableIRSASupportInCluster :: steps ++ [.createIRSAManagedServiceAccounts])
          | none =>
            (none, .enableIRSASupportInCluster :: steps ++ [.createIRSAManagedServiceAccounts])
    else (none, [])
  else (none, [])

/-- A group of steps of `Run` that ends it when it fails. -/
def thenSteps (stage : Option String × List VerifyStep)
    (next : Option String × List VerifyStep) : Option String × List VerifyStep :=
  match stage.1 with
  | some e => (some e, stage.2)
  | none => (next.1, stage.2 ++ next.2)

/-- Lines 190-297 of `Run`, after the dev namespace: ingress, namespace,
packages, install configuration, storage, helm, velero, config maps and IRSA. -/
def verifyCluster (w : PreInstallWorld) (o : StepVerifyPreInstallOptions)
    (requirements : RequirementsConfig) (requirementsFileName ns : String) :
    Option String × List VerifyStep :=
  let ingress := w.verifyIngress requirements requirementsFileName
  thenStep .verifyIngress ingress.2 <|
  thenStep .namespaceRun (w.namespaceRun ns) <|
  thenSteps
    (if o.DisableVerifyPackages = false then (w.verifyPackages, [.verifyPackages])
      else (none, [])) <|
  let install := w.verifyInstallConfig ns ingress.1 requirementsFileName
  thenStep .verifyInstallConfig install.2 <|
  let storage := w.verifyStorage install.1 requirementsFileName
  thenStep .verifyStorage storage.2 <|
  let requirements := storage.1
  thenSteps
    (if o.DisableVerifyHelm = false ∧ requirements.Helmfile = false then
        (w.verifyHelm ns, [.verifyHelm])
      else (none, [])) <|
  thenSteps (verifyVelero w o requirements) <|
  thenSteps
    (if requirements.Webhook = w.WebhookTypeLighthouse then
        (w.verifyProwConfigMaps ns, [.verifyProwConfigMaps])
      else (none, [])) <|
  thenSteps (enableIRSA w o requirements) (none, [])

/-- `Run` implements this command: its error and the steps performed. -/
def StepVerifyPreInstallOptions.Run (w : PreInstallWorld) (o : StepVerifyPreInstallOptions) :
    Option String × List VerifyStep :=
  match w.loadRequirementsConfig o.Dir with
  | .error err => (some err, [.loadRequirementsConfig])
  | .ok (requirements, requirementsFileName) =>
    thenStep .loadRequirementsConfig none <|
    thenSteps
      (if requirements.Helmfile = true ∧ o.NoSecretYAMLValidate = false then
          (w.validateSecretsYAML, [.validateSecretsYAML])
        else (none, [])) <|
    thenStep .configureCommonOptions (w.configureCommonOptions requirements) <|
    let gathered :=
      StepVerifyPreInstallOptions.gatherRequirements w o requirements requirementsFileName
    thenStep .gatherRequirements gathered.err <|
    let requirements := gathered.returned.getD gathered.requirements
    let validated :=
      StepVerifyPreInstallOptions.ValidateRequirements w requirements requirementsFileName
    thenStep .validateRequirements validated.2 <|
    let requirements := validated.1
    match w.isLazyCreateSecrets requirements o.LazyCreateFlag with
    | .error err => (some err, [.isLazyCreateSecrets])
    | .ok lazyCreate =>
      thenStep .isLazyCreateSecrets none <|
      let o := { o with LazyCreate := lazyCreate }
      let o :=
        if o.Namespace = "" then { o with Namespace := requirements.Cluster.Namespace } else o
      match w.getDeployNamespace o.Namespace with
      | .error err => (some err, [.getDeployNamespace])
      | .ok ns =>
        thenStep .getDeployNamespace none <|
        thenStep .kubeClient w.kubeClient <|
        thenStep .verifyTLS (w.verifyTLS requirements) <|
        thenSteps (verifyOrCreateDevNamespace w o ns) <|
        verifyCluster w o requirements requirementsFileName ns

/-! ## Concrete inputs for the examples -/

/-- A world for the examples: the strings with a colon parse as request URIs,
`path.Join` joins clean path elements with `/`, no values file exists, every
file operation succeeds, the current namespace is `jx` and the cluster has
the namespaces `jx` and `default`. -/
def exampleWorld : World where
  parseRequestURI := fun s => s.data.any (fun c => c == ':')
  prefixForURL := fun _ => ""
  uuid := fun n => "uuid-" ++ toString n
  mapOrder := id
  pathJoin := fun l => "/".intercalate l
  fileExists := fun _ => false
  dirExists := fun _ => (true, none)
  removeAll := fun _ => none
  mkdirAll := fun _ => none
  writeFile := fun _ _ => none
  marshalValues := fun _ => .ok ""
  marshalState := fun _ => .ok ""
  kubeClientAndNamespace := .ok "jx"
  listNamespaces := .ok ["jx", "default"]
  defaultChartMuseumURL := "http://jenkins-x-chartmuseum:8080"

/-- Two releases of the namespace `foo`, which the cluster does not have. -/
def exampleReleases : List ReleaseSpec :=
  [{ Name := "app1", Namespace := "foo", Chart := "jenkins-x/app1" },
   { Name := "app2", Namespace := "foo", Chart := "jenkins-x/app2" }]

/-- A release of the namespace `foo` next to a release that is already named `namespace-foo`. -/
def exampleOwnNamespaceRelease : List ReleaseSpec :=
  [{ Name := "app1", Namespace := "foo", Chart := "jenkins-x/app1" },
   { Name := "namespace-foo", Namespace := "jx", Chart := "zloeber/namespace" }]

/-- The applications of the example: one in its own namespace `tekton`, one
without a namespace. -/
def exampleApplications : List App :=
  [{ Name := "jenkins-x/tekton", Namespace := "tekton", Version := "1.0.0" },
   { Name := "jenkins-x/jxui", Alias := "ui", Wait := some true }]

/-- The chart details of the example, both charts from the same repository. -/
def exampleCharts : Charts := fun name =>
  if name = "jenkins-x/tekton" then
    some { Name := "jenkins-x/tekton", Prefix := "jenkins-x", LocalName := "tekton",
           Repository := "http://chartmuseum.jenkins-x.io" }
  else if name = "jenkins-x/jxui" then
    some { Name := "jenkins-x/jxui", Prefix := "jenkins-x", LocalName := "jxui",
           Repository := "http://chartmuseum.jenkins-x.io" }
  else none

/-- The local helm repositories of the example. -/
def exampleLocalHelmRepos : GoMap := [("jenkins-x", "http://chartmuseum.jenkins-x.io")]

/-- The `jx-apps.yml` of the example: it lists the repository of the namespace
chart under a name of its own. -/
def exampleAppConfig : AppConfig :=
  { Apps := exampleApplications
    Repositories :=
      [{ Name := "helm-namespace", URL := "git+https://github.com/zloeber/helm-namespace@chart" }]
    DefaultNamespace := "jx" }

/-- The helmfile generated for the example. -/
def exampleHelmState : HelmState :=
  { Bases := ["../environments.yaml"]
    HelmDefaults := { Atomic := true, Verify := false, Wait := true, Timeout := 520, Force := false }
    Repositories :=
      [{ Name := "helm-namespace", URL := "git+https://github.com/zloeber/helm-namespace@chart" },
       { Name := "jenkins-x", URL := "http://chartmuseum.jenkins-x.io" },
       { Name := "zloeber", URL := "git+https://github.com/zloeber/helm-namespace@chart" }]
    Releases :=
      [{ Name := "namespace-tekton", Namespace := "jx", Chart := "zloeber/namespace",
         Values := ["generated/tekton/values.yaml"] },
       { Name := "tekton", Namespace := "tekton", Version := "1.0.0", Chart := "jenkins-x/tekton",
         Values := ["../jx-requirements.values.yaml.gotmpl"], Needs := ["jx/namespace-tekton"] },
       { Name := "ui", Namespace := "jx", Chart := "jenkins-x/jxui",
         Values := ["../jx-requirements.values.yaml.gotmpl"], Wait := some true }] }

/-- The options of the example, as `Run` leaves them. -/
def exampleOptions : CreateHelmfileOptions :=
  { valueFiles := ["../jx-requirements.values.yaml.gotmpl"] }

/-- The helmfile generated when there is no application. -/
def exampleEmptyHelmState : HelmState :=
  { Bases := ["../environments.yaml"]
    HelmDefaults := { Atomic := true, Verify := false, Wait := true, Timeout := 520, Force := false }
    Repositories := [{ Name := "jenkins-x", URL := "http://jenkins-x-chartmuseum:8080" }]
    Releases := [{ Name := "empty", Namespace := "jx", Chart := "jenkins-x/empty" }] }

/-- What `ensureNamespaceExist` returns for `exampleReleases`. -/
def exampleShimmed : List ReleaseSpec :=
  [{ Name := "namespace-foo", Namespace := "jx", Chart := "zloeber/namespace",
     Values := ["generated/foo/values.yaml"] },
   { Name := "app1", Namespace := "foo", Chart := "jenkins-x/app1", Needs := ["jx/namespace-foo"] },
   { Name := "app2", Namespace := "foo", Chart := "jenkins-x/app2", Needs := ["jx/namespace-foo"] }]

/-- A file system for the examples: the only deploy configuration is the one of
the test data directory `deploy-config-remote-env`. -/
def exampleConfigWorld : ConfigWorld where
  filepathJoin := fun l => "/".intercalate l
  fileExists := fun f =>
    (decide (f = "test_data/deploy-config-remote-env/.jenkins-x/Deployfile"), none)
  readFile := fun _ => .ok "spec:\n  kptPath: namespaces/apps\n  namespace: myapps\n"
  unmarshalDeployConfig := fun _ =>
    ({ Spec := { KptPath := "namespaces/apps", Namespace := "myapps" } }, none)
  saveConfig := fun _ _ => none

/-- The world of the examples with a disk on which the values file of the
namespace `tekton` cannot be written. -/
def exampleFullDiskWorld : World :=
  { exampleWorld with
    writeFile := fun file _ =>
      if file = "/apps/generated/tekton/values.yaml" then some "no space left on device" else none }

/-- The world of the examples in which no directory can be created under `generated`. -/
def exampleNoGeneratedDirWorld : World :=
  { exampleWorld with
    mkdirAll := fun dir =>
      if dir = "/apps/generated/tekton" then some "permission denied" else none }

/-- A world for the examples of the environment verification: the boot
variables are set, the only git URL that parses is the one of the staging
repository, the pipeline user of GitHub is `jx-bot`, and every operation on
git succeeds. -/
def exampleEnvironmentsWorld : EnvironmentsWorld where
  ConfigRepoURLEnvVarName := "CONFIG_REPO_URL"
  ConfigBaseRefEnvVarName := "CONFIG_BASE_REF"
  DisablePushUpdatesToDevEnvironment := "JX_DISABLE_PUSH_UPDATES_TO_DEV_ENV"
  KindGitHub := "github"
  GitHubURL := "https://github.com"
  WebhookTypeLighthouse := "lighthouse"
  RepositoryTypeUnknown := ""
  ExposeDefaultURLTemplate := "{{.Service}}.{{.Namespace}}.{{.Domain}}"
  DefaultBootRepository := "https://github.com/jenkins-x/jenkins-x-boot-config.git"
  LabelValueDevEnvironment := "dev"
  EnvironmentKindTypeDevelopment := "Development"
  DefaultEnvironmentGitRepoURL := "https://github.com/jenkins-x/default-environment-charts.git"
  DefaultEnvironmentHelmfileGitRepoURL :=
    "https://github.com/jenkins-x/default-environment-helmfile.git"
  DefaultEnvironmentHelmfileLocalGitRepoURL :=
    "https://github.com/jenkins-x/default-environment-helmfile-local.git"
  lookupEnv := fun key =>
    if key = "CONFIG_REPO_URL" then
      some "https://github.com/jenkins-x/jenkins-x-boot-config.git"
    else if key = "CONFIG_BASE_REF" then some "master"
    else none
  parseGitURL := fun u =>
    if u = "https://github.com/myorg/environment-staging.git" then
      .ok { URL := u, Organisation := "myorg", Name := "environment-staging",
            Host := "github.com" }
    else .error ("Invalid path could not determine organisation and repository name: " ++ u)
  hostURL := fun r => "https://" ++ r.Host
  hostURLWithoutUser := fun r => "https://" ++ r.Host
  isGitHub := fun r => decide (r.Host = "github.com")
  tempDir := .ok "/tmp/jx-env-repo-1"
  filepathAbs := fun d => .ok ("/workspace/" ++ d)
  isGitHubAppMode := .ok false
  isJXBoot := true
  getPipelineAuth := fun c =>
    match c.Servers.find? (fun s => decide (s.URL = c.PipeLineServer)) with
    | some s => (some s, s.Users.find? (fun u => decide (u.Username = c.PipeLineUsername)))
    | none => (none, none)
  isInvalid := fun u =>
    decide (u.BearerToken = "") && (decide (u.ApiToken = "") || decide (u.Username = ""))
  requirementsEnvironment := fun r name =>
    match r.Environments.find? (fun e => decide (e.Key = name)) with
    | some e => (some e, none)
    | none => (none, some ("environment \"" ++ name ++ "\" not found"))
  newRequirementsConfig := {}
  loadRequirementsConfig := fun dir => .ok ({}, dir ++ "/jx-requirements.yml")
  fileExists := fun _ => (false, none)
  saveConfig := fun _ _ => none
  modifyPipelineGitEnvVars := fun _ => none
  ensureUserAndEmailSetup := ("jx-bot", "jx-bot@example.com", none)
  createProviderForUser := fun _ _ _ _ => none
  getRepository := fun org name => .ok { Organisation := org, Name := name }
  currentUsername := "jx-bot"
  isDefaultBootConfigURL := fun _ => .ok true
  createVersionResolver := fun _ _ => none
  resolveGitVersion := fun _ => .ok "1.0.0"
  findTagForVersion := fun _ ref => .ok ("v" ++ ref)
  duplicateGitRepoFromCommitish := fun org name _ _ _ _ => .ok { Organisation := org, Name := name }
  forkAndPullRepo := fun _ _ => none
  hasChanges := fun _ => .ok false
  add := fun _ _ => none
  commitDir := fun _ _ => none
  addUserToURL := fun u _ => .ok u
  getRemoteForURL := fun _ _ => .ok "origin"
  push := fun _ _ => none
  setRemoteURL := fun _ _ _ => none
  doCreateEnvironmentGitRepo := fun _ _ _ _ _ _ _ _ => none

/-- An auth configuration whose pipeline user `jx-bot` has no token. -/
def exampleInvalidAuthConfig : AuthConfig :=
  { Servers := [{ URL := "https://github.com", Name := "GitHub", Kind := "github",
                  Users := [{ Username := "jx-bot" }] }]
    PipeLineUsername := "jx-bot"
    PipeLineServer := "https://github.com" }

/-- The staging environment of the examples. -/
def exampleStaging : Environment :=
  { Name := "staging"
    Spec := { Kind := "Permanent", Namespace := "jx-staging",
              Source := { URL := "https://github.com/myorg/environment-staging.git" } } }

/-- The repository of the staging environment. -/
def exampleStagingRepository : GitRepository :=
  { URL := "https://github.com/myorg/environment-staging.git", Organisation := "myorg",
    Name := "environment-staging", Host := "github.com" }

/-- A world for the examples of the pre-install verification: the requirements
of every directory are those of a `gke` cluster with lighthouse, lazy creation is off
unless the flag is `true`, the deploy namespace `jx` exists without a team
label until it is lazily created, files cannot be written, and every other
step succeeds. -/
def examplePreInstallWorld : PreInstallWorld where
  WebhookTypeProw := "prow"
  WebhookTypeLighthouse := "lighthouse"
  RepositoryTypeBucketRepo := "bucketrepo"
  isGitHubServerURL := fun u => decide (u = "https://github.com")
  toValidName := fun s => s
  yamlMarshal := fun _ => .ok ""
  writeFile := fun _ _ => some "read-only file system"
  filepathDir := fun f => f
  filepathJoin := fun l => "/".intercalate l
  saveRequirementsValuesFile := fun _ _ => none
  loadRequirementsConfig := fun dir =>
    .ok ({ Cluster := { Provider := "gke", ProjectID := "myproject", Zone := "europe-west1-b",
                        EnvironmentGitOwner := "myorg", ClusterName := "mycluster",
                        Namespace := "jx" },
           Environments := [{ Key := "dev", Repository := "environment-mycluster-dev" }],
           Webhook := "lighthouse" },
         dir ++ "/jx-requirements.yml")
  validateSecretsYAML := none
  configureCommonOptions := fun _ => none
  gatherInteractive := fun _ r _ =>
    { requirements := r, returned := some r, err := none, prompts := [] }
  isLazyCreateSecrets := fun _ flag => .ok (decide (flag = "true"))
  getDeployNamespace := fun ns => .ok ns
  kubeClient := none
  verifyTLS := fun _ => none
  getDevNamespace := fun created ns => (ns, if created then "dev" else "", none)
  ensureDevNamespaceCreatedWithoutEnvironment := fun _ => none
  verifyIngress := fun r _ => (r, none)
  namespaceRun := fun _ => none
  verifyPackages := none
  verifyInstallConfig := fun _ r _ => (r, none)
  verifyStorage := fun r _ => (r, none)
  verifyHelm := fun _ => none
  validateVelero := fun _ _ => none
  lazyCreateVeleroSecret := fun _ _ => none
  verifyProwConfigMaps := fun _ => none
  isInCluster := true
  getenv := fun _ => ""
  enableIRSASupportInCluster := fun _ => none
  environmentContext := fun _ => .ok (some "/versions")
  createIRSAManagedServiceAccounts := fun _ _ => none

/-- Requirements that use prow with GitHub and have an environment without a repository. -/
def exampleProwRequirements : RequirementsConfig :=
  { Cluster := { ClusterName := "mycluster", GitKind := "github" }
    Environments := [{ Key := "dev" }]
    Webhook := "prow" }

/-- Requirements with a named and two unnamed environments. -/
def exampleUnnamedRequirements : RequirementsConfig :=
  { Cluster := { ClusterName := "mycluster" }
    Environments := [{ Key := "dev", Repository := "my-dev" }, { Key := "staging" },
                     { Key := "production" }]
    Webhook := "lighthouse" }

/-- The world of the examples with a disk that can be written. -/
def exampleWritableWorld : PreInstallWorld :=
  { examplePreInstallWorld with writeFile := fun _ _ => none }

/-- The world of the examples when no remote of the local clone has the URL of
the environment repository: `gits.GetRemoteForURL` returns an empty name and
no error. -/
def exampleNoRemoteWorld : EnvironmentsWorld :=
  { exampleEnvironmentsWorld with getRemoteForURL := fun _ _ => .ok "" }

/-- The repository of the development environment. -/
def exampleDevRepository : GitRepository :=
  { URL := "https://github.com/myorg/environment-mycluster-dev.git", Organisation := "myorg",
    Name := "environment-mycluster-dev", Host := "github.com",
    CloneURL := "https://github.com/myorg/environment-mycluster-dev.git",
    HTMLURL := "https://github.com/myorg/environment-mycluster-dev" }

/-- The world of the examples with a lookup of the environment configuration
that reports an environment that is not configured by a nil configuration and
no error. -/
def exampleNoConfigurationWorld : EnvironmentsWorld :=
  { exampleEnvironmentsWorld with
    requirementsEnvironment := fun r name =>
      (r.Environments.find? (fun e => decide (e.Key = name)), none) }

/-- An auth configuration whose pipeline user `jx-bot` has an API token. -/
def exampleAuthConfig : AuthConfig :=
  { Servers := [{ URL := "https://github.com", Name := "GitHub", Kind := "github",
                  Users := [{ Username := "jx-bot", ApiToken := "0123456789abcdef" }] }]
    PipeLineUsername := "jx-bot"
    PipeLineServer := "https://github.com" }

/-! ## Auxiliary definitions for the statements -/

/-- The update of `Needs` made by one iteration of the loop of `ensureNamespaceExist`. -/
def setNeeds (o : CreateHelmfileOptions) (currentNamespace : String) (namespaces : List String)
    (release : ReleaseSpec) : ReleaseSpec :=
  if needsNamespace o currentNamespace namespaces release then
    { release with Needs := [needsEntry currentNamespace release.Namespace] }
  else release

/-- Whether some release of the list has the given name. -/
def nameTaken (l : List ReleaseSpec) (n : String) : Bool := l.any (fun r => decide (r.Name = n))

/-- The string fields of the requirements outside the environments. -/
def requirementsStringFields : List (RequirementsConfig → String) :=
  [fun r => r.BootConfigURL, fun r => r.Repository, fun r => r.SecretStorage,
   fun r => r.Webhook,
   fun r => r.Cluster.ChartRepository, fun r => r.Cluster.ClusterName,
   fun r => r.Cluster.EnvironmentGitOwner, fun r => r.Cluster.GitKind,
   fun r => r.Cluster.GitName, fun r => r.Cluster.GitServer, fun r => r.Cluster.Namespace,
   fun r => r.Cluster.ProjectID, fun r => r.Cluster.Provider, fun r => r.Cluster.Region,
   fun r => r.Cluster.Registry, fun r => r.Cluster.Zone,
   fun r => r.Ingress.CloudDNSSecretName, fun r => r.Ingress.Domain,
   fun r => r.Ingress.DomainIssuerURL, fun r => r.Ingress.Kind,
   fun r => r.Ingress.NamespaceSubDomain, fun r => r.Ingress.ServiceType,
   fun r => r.Ingress.TLS.Email, fun r => r.Ingress.TLS.SecretName,
   fun r => r.Storage.Logs.URL, fun r => r.Storage.Reports.URL,
   fun r => r.Storage.Repository.URL, fun r => r.Storage.Backup.URL,
   fun r => r.Velero.Namespace, fun r => r.Velero.ServiceAccount, fun r => r.Velero.Schedule,
   fun r => r.Velero.TimeToLive, fun r => r.VersionStream.URL, fun r => r.VersionStream.Ref]

/-- The boolean fields of the requirements outside the environments. -/
def requirementsBoolFields : List (RequirementsConfig → Bool) :=
  [fun r => r.GitOps, fun r => r.Helmfile, fun r => r.Kaniko, fun r => r.Terraform,
   fun r => r.Cluster.EnvironmentGitPublic, fun r => r.Cluster.GitPublic,
   fun r => r.Ingress.IgnoreLoadBalancer, fun r => r.Ingress.TLS.Enabled,
   fun r => r.Ingress.TLS.Production,
   fun r => r.Storage.Logs.Enabled, fun r => r.Storage.Reports.Enabled,
   fun r => r.Storage.Repository.Enabled, fun r => r.Storage.Backup.Enabled]

/-- The string fields of an environment. -/
def environmentStringFields : List (EnvironmentConfig → String) :=
  [fun e => e.Key, fun e => e.Owner, fun e => e.Repository, fun e => e.GitServer,
   fun e => e.GitKind, fun e => e.PromotionStrategy, fun e => e.URLTemplate,
   fun e => e.Ingress.CloudDNSSecretName, fun e => e.Ingress.Domain,
   fun e => e.Ingress.DomainIssuerURL, fun e => e.Ingress.Kind,
   fun e => e.Ingress.NamespaceSubDomain, fun e => e.Ingress.ServiceType,
   fun e => e.Ingress.TLS.Email, fun e => e.Ingress.TLS.SecretName]

/-- The boolean fields of an environment. -/
def environmentBoolFields : List (EnvironmentConfig → Bool) :=
  [fun e => e.RemoteCluster, fun e => e.Ingress.IgnoreLoadBalancer,
   fun e => e.Ingress.TLS.Enabled, fun e => e.Ingress.TLS.Production]

/-! # Theorems -/

/-! ## The loop of `ensureNamespaceExist` -/

theorem setNeeds_Name (o : CreateHelmfileOptions) (cur : String) (nss : List String)
    (r : ReleaseSpec) : (setNeeds o cur nss r).Name = r.Name := by
  unfold setNeeds; split <;> rfl

theorem loop_releases (w : World) (o : CreateHelmfileOptions) (phase cur : String)
    (nss : List String) (todo : List ReleaseSpec) :
    ∀ (done : List ReleaseSpec) (repos : List RepositorySpec) (created : List ReleaseSpec),
      (ensureNamespaceLoop w o phase cur nss done todo repos created).2.2
        = done ++ todo.map (setNeeds o cur nss) := by
  induction todo with
  | nil => intro done repos created; simp [ensureNamespaceLoop]
  | cons r rest ih =>
    intro done repos created
    simp only [ensureNamespaceLoop]
    split
    · rename_i h
      split
      · rw [ih]; simp [setNeeds, h]
      · rw [ih]; simp [setNeeds, h]
    · rename_i h
      rw [ih]; simp [setNeeds, h]

theorem nameTaken_append (l₁ l₂ : List ReleaseSpec) (n : String) :
    nameTaken (l₁ ++ l₂) n = (nameTaken l₁ n || nameTaken l₂ n) := by
  simp [nameTaken, List.any_append]

theorem nameTaken_iff (l : List ReleaseSpec) (n : String) :
    nameTaken l n = true ↔ n ∈ l.map (fun r => r.Name) := by
  simp only [nameTaken, List.any_eq_true, decide_eq_true_eq, List.mem_map]

theorem loop_created_prefix (w : World) (o : CreateHelmfileOptions) (phase cur : String)
    (nss : List String) (todo : List ReleaseSpec) :
    ∀ (done : List ReleaseSpec) (repos : List RepositorySpec) (created : List ReleaseSpec),
      ∃ extra, (ensureNamespaceLoop w o phase cur nss done todo repos created).2.1
          = created ++ extra ∧
        ∀ c ∈ extra, ∃ r ∈ todo, needsNamespace o cur nss r = true ∧
          c = createNamespaceChart w cur r.Namespace ∧
          nameTaken (done ++ todo) ("namespace-" ++ r.Namespace) = false := by
  induction todo with
  | nil => intro done repos created; exact ⟨[], by simp [ensureNamespaceLoop]⟩
  | cons r rest ih =>
    intro done repos created
    simp only [ensureNamespaceLoop]
    split
    · rename_i h
      split
      · rename_i hex
        obtain ⟨extra, he, hall⟩ := ih (done ++ [{ r with Needs := [needsEntry cur r.Namespace] }])
          (AddRepositoryIfNeeded repos zloeberRepository)
          (created ++ [createNamespaceChart w cur r.Namespace])
        refine ⟨createNamespaceChart w cur r.Namespace :: extra, by rw [he]; simp, ?_⟩
        intro c hc
        rcases List.mem_cons.1 hc with hc | hc
        · refine ⟨r, List.mem_cons_self _ _, h, hc, ?_⟩
          have := hex
          simp only [List.any_append, Bool.or_eq_false_iff] at this
          simpa [nameTaken, List.any_append] using this.2
        · obtain ⟨r', hr', h1, h2, h3⟩ := hall c hc
          refine ⟨r', List.mem_cons_of_mem _ hr', h1, h2, ?_⟩
          simpa [nameTaken, List.any_append] using h3
      · obtain ⟨extra, he, hall⟩ := ih (done ++ [{ r with Needs := [needsEntry cur r.Namespace] }])
          repos created
        refine ⟨extra, he, ?_⟩
        intro c hc
        obtain ⟨r', hr', h1, h2, h3⟩ := hall c hc
        refine ⟨r', List.mem_cons_of_mem _ hr', h1, h2, ?_⟩
        simpa [nameTaken, List.any_append] using h3
    · obtain ⟨extra, he, hall⟩ := ih (done ++ [r]) repos created
      refine ⟨extra, he, ?_⟩
      intro c hc
      obtain ⟨r', hr', h1, h2, h3⟩ := hall c hc
      refine ⟨r', List.mem_cons_of_mem _ hr', h1, h2, ?_⟩
      simpa [nameTaken, List.any_append] using h3

theorem loop_created_covers (w : World) (o : CreateHelmfileOptions) (phase cur : String)
    (nss : List String) (todo : List ReleaseSpec) :
    ∀ (done : List ReleaseSpec) (repos : List RepositorySpec) (created : List ReleaseSpec),
      ∀ r ∈ todo, needsNamespace o cur nss r = true →
        nameTaken ((ensureNamespaceLoop w o phase cur nss done todo repos created).2.1
          ++ (done ++ todo)) ("namespace-" ++ r.Namespace) = true := by
  induction todo with
  | nil => intro done repos created r hr; simp at hr
  | cons r rest ih =>
    intro done repos created r' hr' hneed
    have hpre := loop_created_prefix w o phase cur nss (r :: rest) done repos created
    rcases List.mem_cons.1 hr' with rfl | hmem
    · simp only [ensureNamespaceLoop, hneed, if_true]
      split
      · obtain ⟨extra, he, -⟩ := loop_created_prefix w o phase cur nss rest
          (done ++ [{ r' with Needs := [needsEntry cur r'.Namespace] }])
          (AddRepositoryIfNeeded repos zloeberRepository)
          (created ++ [createNamespaceChart w cur r'.Namespace])
        rw [he]
        simp [nameTaken, List.any_append, createNamespaceChart]
      · rename_i hex
        obtain ⟨extra, he, -⟩ := loop_created_prefix w o phase cur nss rest
          (done ++ [{ r' with Needs := [needsEntry cur r'.Namespace] }]) repos created
        rw [he]
        simp only [Bool.not_eq_false] at hex
        simp only [List.any_append, Bool.or_eq_true] at hex
        simp only [nameTaken, List.any_append, Bool.or_eq_true]
        tauto
    · simp only [ensureNamespaceLoop]
      split
      · split
        · have := ih (done ++ [{ r with Needs := [needsEntry cur r.Namespace] }])
            (AddRepositoryIfNeeded repos zloeberRepository)
            (created ++ [createNamespaceChart w cur r.Namespace]) r' hmem hneed
          simpa [nameTaken, List.any_append] using this
        · have := ih (done ++ [{ r with Needs := [needsEntry cur r.Namespace] }])
            repos created r' hmem hneed
          simpa [nameTaken, List.any_append] using this
      · have := ih (done ++ [r]) repos created r' hmem hneed
        simpa [nameTaken, List.any_append] using this

theorem loop_created_nodup (w : World) (o : CreateHelmfileOptions) (phase cur : String)
    (nss : List String) (todo : List ReleaseSpec) :
    ∀ (done : List ReleaseSpec) (repos : List RepositorySpec) (created : List ReleaseSpec),
      (created.map (fun r => r.Name)).Nodup →
      ((ensureNamespaceLoop w o phase cur nss done todo repos created).2.1.map
        (fun r => r.Name)).Nodup := by
  induction todo with
  | nil => intro done repos created h; simpa [ensureNamespaceLoop] using h
  | cons r rest ih =>
    intro done repos created h
    simp only [ensureNamespaceLoop]
    split
    · split
      · rename_i hex
        apply ih
        simp only [List.any_append, Bool.or_eq_false_iff] at hex
        have hnot : "namespace-" ++ r.Namespace ∉ created.map (fun r => r.Name) := by
          intro hmem
          have := (nameTaken_iff created _).2 hmem
          simp only [nameTaken] at this
          rw [hex.1] at this
          exact Bool.false_ne_true this
        rw [List.map_append, List.nodup_append]
        refine ⟨h, by simp, ?_⟩
        intro a ha hb
        simp only [List.map_cons, List.map_nil, List.mem_singleton, createNamespaceChart] at hb
        exact hnot (hb ▸ ha)
      · exact ih _ _ _ h
    · exact ih _ _ _ h

theorem needsNamespace_iff (o : CreateHelmfileOptions) (cur : String) (nss : List String)
    (r : ReleaseSpec) :
    needsNamespace o cur nss r = true ↔
      r.Namespace ≠ "" ∧ r.Namespace ≠ cur ∧ (o.IgnoreNamespaceCheck = true ∨ r.Namespace ∉ nss) := by
  unfold needsNamespace
  cases hI : o.IgnoreNamespaceCheck
  · have hmem : (nss.any fun ns => decide (ns = r.Namespace)) = true ↔ r.Namespace ∈ nss := by
      simp only [List.any_eq_true, decide_eq_true_eq]
      constructor
      · rintro ⟨x, hx, rfl⟩; exact hx
      · intro hx; exact ⟨_, hx, rfl⟩
    by_cases hin : r.Namespace ∈ nss
    · simp [hin, hmem.2 hin]
    · have : (nss.any fun ns => decide (ns = r.Namespace)) = false := by
        rw [Bool.eq_false_iff]; exact fun h => hin (hmem.1 h)
      simp [hin, this, and_assoc]
  · simp [and_assoc]

theorem ensureNamespaceExist_ok (w : World) (o : CreateHelmfileOptions)
    (repos : List RepositorySpec) (releases : List ReleaseSpec) (phase : String)
    (res : List RepositorySpec × List ReleaseSpec)
    (h : ensureNamespaceExist w o repos releases phase = .ok res) :
    ∃ cur nss, w.kubeClientAndNamespace = .ok cur ∧ w.listNamespaces = .ok nss ∧
      res = ((ensureNamespaceLoop w o phase cur nss [] releases repos []).1,
        (ensureNamespaceLoop w o phase cur nss [] releases repos []).2.1 ++
          (ensureNamespaceLoop w o phase cur nss [] releases repos []).2.2) := by
  unfold ensureNamespaceExist at h
  split at h
  · cases h
  · split at h
    · cases h
    · rename_i cur hcur
      split at h
      · cases h
      · rename_i nss hnss
        refine ⟨cur, nss, hcur, hnss, ?_⟩
        simp only [Except.ok.injEq] at h
        exact h.symm

/-- Claim C2: when `ensureNamespaceExist` succeeds, with `cur` the
current namespace and `nss` the namespaces of the cluster, the returned releases are
the created releases followed by the input releases (names unchanged). For
every namespace `N` of an input release that is non-empty, differs from `cur`
and is not in `nss` (or `IgnoreNamespaceCheck` is set), and for which no input
release is named `namespace-N`, the release named `namespace-N` with chart
`zloeber/namespace`, namespace `cur` and the values file
`path.Join("generated", N, "values.yaml")` is among the created ones, and
exactly one created release, and exactly one returned release, has that name.
Every created release is such a release for such an `N`. -/
theorem ensureNamespaceExist_injects_shims (w : World) (o : CreateHelmfileOptions)
    (repos : List RepositorySpec) (releases : List ReleaseSpec) (phase cur : String)
    (nss : List String) (res : List RepositorySpec × List ReleaseSpec)
    (hcur : w.kubeClientAndNamespace = .ok cur) (hnss : w.listNamespaces = .ok nss)
    (h : ensureNamespaceExist w o repos releases phase = .ok res) :
    ∃ created updated, res.2 = created ++ updated ∧
      updated.map (fun r => r.Name) = releases.map (fun r => r.Name) ∧
      (∀ N, (∃ r ∈ releases, r.Namespace = N) → N ≠ "" → N ≠ cur →
        (o.IgnoreNamespaceCheck = true ∨ N ∉ nss) →
        (∀ r ∈ releases, r.Name ≠ "namespace-" ++ N) →
        ({ Name := "namespace-" ++ N, Namespace := cur, Chart := "zloeber/namespace",
           Values := [w.pathJoin ["generated", N, "values.yaml"]] } : ReleaseSpec) ∈ created ∧
        (created.map (fun r => r.Name)).count ("namespace-" ++ N) = 1 ∧
        (res.2.map (fun r => r.Name)).count ("namespace-" ++ N) = 1) ∧
      (∀ c ∈ created, ∃ N,
        c = { Name := "namespace-" ++ N, Namespace := cur, Chart := "zloeber/namespace",
              Values := [w.pathJoin ["generated", N, "values.yaml"]] } ∧
        (∃ r ∈ releases, r.Namespace = N) ∧ N ≠ "" ∧ N ≠ cur ∧
        (o.IgnoreNamespaceCheck = true ∨ N ∉ nss) ∧
        ∀ r ∈ releases, r.Name ≠ "namespace-" ++ N) := by
  obtain ⟨cur', nss', hcur', hnss', hres⟩ := ensureNamespaceExist_ok w o repos releases phase res h
  rw [hcur] at hcur'; rw [hnss] at hnss'
  cases hcur'; cases hnss'
  obtain ⟨extra, hextra, hall⟩ := loop_created_prefix w o phase cur nss releases [] repos []
  have hrel := loop_releases w o phase cur nss releases [] repos []
  have hcov := loop_created_covers w o phase cur nss releases [] repos []
  have hnd := loop_created_nodup w o phase cur nss releases [] repos [] (by simp)
  simp only [List.nil_append] at hextra hrel hall hcov
  rw [hextra] at hcov hnd
  refine ⟨extra, releases.map (setNeeds o cur nss), ?_, ?_, ?_, ?_⟩
  · rw [hres, hextra, hrel]
  · simp [Function.comp_def, setNeeds_Name]
  · rintro N ⟨r, hr, rfl⟩ h1 h2 h3 h4
    have hneed := (needsNamespace_iff o cur nss r).2 ⟨h1, h2, h3⟩
    have hc := hcov r hr hneed
    rw [nameTaken_append, Bool.or_eq_true] at hc
    have hnot : nameTaken releases ("namespace-" ++ r.Namespace) = false := by
      rw [Bool.eq_false_iff]
      intro ht
      obtain ⟨x, hx, hxn⟩ := List.mem_map.1 ((nameTaken_iff _ _).1 ht)
      exact h4 x hx hxn
    rw [hnot] at hc
    have hin := (nameTaken_iff _ _).1 (hc.resolve_right Bool.false_ne_true)
    obtain ⟨c, hcmem, hcname⟩ := List.mem_map.1 hin
    obtain ⟨r', hr', -, hceq, -⟩ := hall c hcmem
    have hNN : r'.Namespace = r.Namespace := by
      rw [hceq] at hcname
      simp only [createNamespaceChart] at hcname
      exact String.ext (List.append_cancel_left (congrArg String.data hcname))
    have hcount : (extra.map (fun r => r.Name)).count ("namespace-" ++ r.Namespace) = 1 :=
      List.count_eq_one_of_mem hnd hin
    refine ⟨?_, hcount, ?_⟩
    · rw [hceq, hNN] at hcmem
      exact hcmem
    · rw [hres, hextra, hrel]
      simp only [List.map_append, List.count_append, List.map_map, Function.comp_def, setNeeds_Name]
      rw [hcount]
      have : (releases.map (fun r => r.Name)).count ("namespace-" ++ r.Namespace) = 0 := by
        rw [List.count_eq_zero]
        intro hm
        obtain ⟨x, hx, hxn⟩ := List.mem_map.1 hm
        exact h4 x hx hxn
      rw [this]
  · intro c hc
    obtain ⟨r, hr, hneed, hceq, htaken⟩ := hall c hc
    obtain ⟨h1, h2, h3⟩ := (needsNamespace_iff o cur nss r).1 hneed
    refine ⟨r.Namespace, hceq, ⟨r, hr, rfl⟩, h1, h2, h3, ?_⟩
    intro x hx hxn
    have : nameTaken releases ("namespace-" ++ r.Namespace) = true :=
      (nameTaken_iff _ _).2 (List.mem_map.2 ⟨x, hx, hxn⟩)
    rw [htaken] at this
    exact Bool.false_ne_true this

/-- Claim C3, as amended: when `ensureNamespaceExist` succeeds and the `k`-th
input release `r` is in a namespace that is non-empty, differs from the
current namespace `cur` and is not in the cluster (or `IgnoreNamespaceCheck` is set),
the release returned for it has `Needs` set to `cur/namespace-<ns>` and the
returned list contains a release named `namespace-<ns>`. When no input release
has that name, such a release stands at an earlier position of the returned
list and its namespace is `cur`. -/
theorem ensureNamespaceExist_needs_target (w : World) (o : CreateHelmfileOptions)
    (repos : List RepositorySpec) (releases : List ReleaseSpec) (phase cur : String)
    (nss : List String) (res : List RepositorySpec × List ReleaseSpec)
    (hcur : w.kubeClientAndNamespace = .ok cur) (hnss : w.listNamespaces = .ok nss)
    (h : ensureNamespaceExist w o repos releases phase = .ok res)
    (k : Nat) (r : ReleaseSpec) (hk : releases[k]? = some r)
    (h1 : r.Namespace ≠ "") (h2 : r.Namespace ≠ cur)
    (h3 : o.IgnoreNamespaceCheck = true ∨ r.Namespace ∉ nss) :
    ∃ created updated, res.2 = created ++ updated ∧ updated.length = releases.length ∧
      (res.2[created.length + k]?).map (fun x => x.Needs)
        = some [cur ++ "/namespace-" ++ r.Namespace] ∧
      (∃ x ∈ res.2, x.Name = "namespace-" ++ r.Namespace) ∧
      ((∀ x ∈ releases, x.Name ≠ "namespace-" ++ r.Namespace) →
        ∃ j x, j < created.length + k ∧ res.2[j]? = some x ∧
          x.Name = "namespace-" ++ r.Namespace ∧ x.Namespace = cur) := by
  obtain ⟨cur', nss', hcur', hnss', hres⟩ := ensureNamespaceExist_ok w o repos releases phase res h
  rw [hcur] at hcur'; rw [hnss] at hnss'
  cases hcur'; cases hnss'
  obtain ⟨extra, hextra, hall⟩ := loop_created_prefix w o phase cur nss releases [] repos []
  have hrel := loop_releases w o phase cur nss releases [] repos []
  have hcov := loop_created_covers w o phase cur nss releases [] repos []
  simp only [List.nil_append] at hextra hrel hall hcov
  rw [hextra] at hcov
  have hres2 : res.2 = extra ++ releases.map (setNeeds o cur nss) := by rw [hres, hextra, hrel]
  have hr : r ∈ releases := List.getElem?_mem hk
  have hneed := (needsNamespace_iff o cur nss r).2 ⟨h1, h2, h3⟩
  have hc := hcov r hr hneed
  refine ⟨extra, releases.map (setNeeds o cur nss), hres2, by simp, ?_, ?_, ?_⟩
  · rw [hres2, List.getElem?_append_right (Nat.le_add_right _ _), Nat.add_sub_cancel_left,
      List.getElem?_map, hk]
    simp [setNeeds, hneed, needsEntry]
  · rw [nameTaken_append, Bool.or_eq_true] at hc
    rcases hc with hc | hc
    · obtain ⟨x, hx, hxn⟩ := List.mem_map.1 ((nameTaken_iff _ _).1 hc)
      exact ⟨x, by rw [hres2]; exact List.mem_append_left _ hx, hxn⟩
    · obtain ⟨x, hx, hxn⟩ := List.mem_map.1 ((nameTaken_iff _ _).1 hc)
      refine ⟨setNeeds o cur nss x, ?_, by rw [setNeeds_Name]; exact hxn⟩
      rw [hres2]
      exact List.mem_append_right _ (List.mem_map_of_mem _ hx)
  · intro hno
    rw [nameTaken_append, Bool.or_eq_true] at hc
    have hnot : nameTaken releases ("namespace-" ++ r.Namespace) = false := by
      rw [Bool.eq_false_iff]
      intro ht
      obtain ⟨x, hx, hxn⟩ := List.mem_map.1 ((nameTaken_iff _ _).1 ht)
      exact hno x hx hxn
    rw [hnot] at hc
    obtain ⟨x, hx, hxn⟩ := List.mem_map.1 ((nameTaken_iff _ _).1 (hc.resolve_right Bool.false_ne_true))
    obtain ⟨j, hj, hjx⟩ := List.getElem_of_mem hx
    obtain ⟨r', -, -, hxeq, -⟩ := hall x hx
    refine ⟨j, x, Nat.lt_add_right k hj, ?_, hxn, ?_⟩
    · rw [hres2, List.getElem?_append_left hj, List.getElem?_eq_getElem hj, hjx]
    · rw [hxeq]; rfl

/-- Claim C4: when `ensureNamespaceExist` succeeds, the returned releases are
the created namespace releases (chart `zloeber/namespace`, named after
the namespace of an input release) followed by the input releases in their order,
each equal to the input release in every field other than `Needs`; the length
of the result is the length of the input plus the number of created releases. -/
theorem ensureNamespaceExist_keeps_releases (w : World) (o : CreateHelmfileOptions)
    (repos : List RepositorySpec) (releases : List ReleaseSpec) (phase : String)
    (res : List RepositorySpec × List ReleaseSpec)
    (h : ensureNamespaceExist w o repos releases phase = .ok res) :
    ∃ created updated, res.2 = created ++ updated ∧
      (∀ c ∈ created, c.Chart = "zloeber/namespace" ∧
        ∃ r ∈ releases, c.Name = "namespace-" ++ r.Namespace) ∧
      List.Forall₂ (fun r u => u = { r with Needs := u.Needs }) releases updated ∧
      res.2.length = releases.length + created.length := by
  obtain ⟨cur, nss, -, -, hres⟩ := ensureNamespaceExist_ok w o repos releases phase res h
  obtain ⟨extra, hextra, hall⟩ := loop_created_prefix w o phase cur nss releases [] repos []
  have hrel := loop_releases w o phase cur nss releases [] repos []
  simp only [List.nil_append] at hextra hrel hall
  have hres2 : res.2 = extra ++ releases.map (setNeeds o cur nss) := by rw [hres, hextra, hrel]
  refine ⟨extra, releases.map (setNeeds o cur nss), hres2, ?_, ?_, ?_⟩
  · intro c hc
    obtain ⟨r, hr, -, hceq, -⟩ := hall c hc
    exact ⟨by rw [hceq]; rfl, r, hr, by rw [hceq]; rfl⟩
  · rw [List.forall₂_map_right_iff]
    apply List.forall₂_same.2
    intro r _
    unfold setNeeds
    split <;> rfl
  · rw [hres2]; simp [Nat.add_comm]

/-! ## Repositories -/

theorem addRepoURL_nodup (w : World) (l : List RepositorySpec) (kv : String × String)
    (h : (l.map (fun r => r.URL)).Nodup) : ((addRepoURL w l kv).map (fun r => r.URL)).Nodup := by
  unfold addRepoURL
  split
  · split
    · exact h
    · rename_i hany
      rw [List.map_append, List.nodup_append]
      refine ⟨h, by simp, ?_⟩
      intro a ha hb
      simp only [List.map_cons, List.map_nil, List.mem_singleton] at hb
      obtain ⟨x, hx, hxa⟩ := List.mem_map.1 ha
      apply hany
      rw [List.any_eq_true]
      exact ⟨x, hx, by simpa using hxa.trans hb⟩
  · exact h

theorem addAppRepository_nodup (l : List RepositorySpec) (ar : RepositorySpec)
    (h : (l.map (fun r => r.URL)).Nodup) : ((addAppRepository l ar).map (fun r => r.URL)).Nodup := by
  unfold addAppRepository
  split
  · exact h
  · rename_i hany
    rw [List.map_append, List.nodup_append]
    refine ⟨h, by simp, ?_⟩
    intro a ha hb
    simp only [List.map_cons, List.map_nil, List.mem_singleton] at hb
    obtain ⟨x, hx, hxa⟩ := List.mem_map.1 ha
    apply hany
    rw [List.any_eq_true]
    exact ⟨x, hx, by simpa using hxa.trans hb⟩

theorem foldl_invariant {α β : Type} (P : β → Prop) (f : β → α → β)
    (hf : ∀ b a, P b → P (f b a)) (l : List α) : ∀ b, P b → P (l.foldl f b) := by
  induction l with
  | nil => intro b hb; exact hb
  | cons a t ih => intro b hb; exact ih (f b a) (hf b a hb)

theorem appRepositories_nodup (w : World) (repos : GoMap) (apps : AppConfig) :
    ((appRepositories w repos apps).map (fun r => r.URL)).Nodup := by
  unfold appRepositories
  exact foldl_invariant (fun l => (l.map (fun r : RepositorySpec => r.URL)).Nodup) addAppRepository
    (fun b a hb => addAppRepository_nodup b a hb) apps.Repositories _
    (foldl_invariant (fun l => (l.map (fun r : RepositorySpec => r.URL)).Nodup) (addRepoURL w)
      (fun b a hb => addRepoURL_nodup w b a hb) (w.mapOrder repos) [] (by simp))

theorem AddRepositoryIfNeeded_idem (repos : List RepositorySpec) (r : RepositorySpec) :
    AddRepositoryIfNeeded (AddRepositoryIfNeeded repos r) r = AddRepositoryIfNeeded repos r := by
  unfold AddRepositoryIfNeeded
  by_cases h : (repos.any fun x => decide (x.Name = r.Name)) = true
  · simp [h]
  · simp only [h]
    simp [List.any_append]

theorem loop_repos (w : World) (o : CreateHelmfileOptions) (phase cur : String)
    (nss : List String) (todo : List ReleaseSpec) :
    ∀ (done : List ReleaseSpec) (repos : List RepositorySpec) (created : List ReleaseSpec),
      (ensureNamespaceLoop w o phase cur nss done todo repos created).1 = repos ∨
      (ensureNamespaceLoop w o phase cur nss done todo repos created).1
        = AddRepositoryIfNeeded repos zloeberRepository := by
  induction todo with
  | nil => intro done repos created; left; simp [ensureNamespaceLoop]
  | cons r rest ih =>
    intro done repos created
    simp only [ensureNamespaceLoop]
    split
    · split
      · right
        rcases ih (done ++ [{ r with Needs := [needsEntry cur r.Namespace] }])
          (AddRepositoryIfNeeded repos zloeberRepository)
          (created ++ [createNamespaceChart w cur r.Namespace]) with h | h
        · exact h
        · rw [h, AddRepositoryIfNeeded_idem]
      · exact ih _ _ _
    · exact ih _ _ _

/-! ## `sort.Slice` -/

theorem compareChars_swap (a : List Char) : ∀ b, compareChars b a = - compareChars a b := by
  induction a with
  | nil => intro b; cases b <;> simp [compareChars]
  | cons x xs ih =>
    intro b
    cases b with
    | nil => simp [compareChars]
    | cons y ys =>
      simp only [compareChars]
      by_cases h1 : x.toNat < y.toNat
      · have h2 : ¬ y.toNat < x.toNat := by omega
        simp [h1, h2]
      · by_cases h2 : y.toNat < x.toNat
        · simp [h1, h2]
        · simp [h1, h2, ih ys]

theorem compareChars_trans (a : List Char) : ∀ b c, compareChars a b ≤ 0 → compareChars b c ≤ 0 →
    compareChars a c ≤ 0 := by
  induction a with
  | nil => intro b c _ _; cases c <;> simp [compareChars]
  | cons x xs ih =>
    intro b c hab hbc
    cases b with
    | nil => simp [compareChars] at hab
    | cons y ys =>
      cases c with
      | nil => simp [compareChars] at hbc
      | cons z zs =>
        simp only [compareChars] at hab hbc ⊢
        by_cases h1 : x.toNat < y.toNat
        · by_cases h3 : y.toNat < z.toNat
          · have : x.toNat < z.toNat := by omega
            simp [this]
          · by_cases h4 : z.toNat < y.toNat
            · simp [h3, h4] at hbc
            · have : x.toNat < z.toNat := by omega
              simp [this]
        · by_cases h2 : y.toNat < x.toNat
          · simp [h1, h2] at hab
          · simp only [h1, h2, if_false] at hab
            by_cases h3 : y.toNat < z.toNat
            · have : x.toNat < z.toNat := by omega
              simp [this]
            · by_cases h4 : z.toNat < y.toNat
              · simp [h3, h4] at hbc
              · simp only [h3, h4, if_false] at hbc
                have e1 : ¬ x.toNat < z.toNat := by omega
                have e2 : ¬ z.toNat < x.toNat := by omega
                simp only [e1, e2, if_false]
                exact ih ys zs hab hbc

theorem sortSlice_perm {α : Type} (less : α → α → Bool) (l : List α) :
    (sortSlice less l).Perm l := List.perm_insertionSort _ l

theorem sortSlice_repositoryLess_sorted (l : List RepositorySpec) :
    List.Pairwise (fun r1 r2 => stringsCompare r1.Name r2.Name ≤ 0)
      (sortSlice repositoryLess l) := by
  have key : ∀ a b : RepositorySpec, repositoryLess b a = false ↔ stringsCompare a.Name b.Name ≤ 0 := by
    intro a b
    unfold repositoryLess stringsCompare
    rw [decide_eq_false_iff_not, compareChars_swap a.Name.data b.Name.data]
    omega
  haveI : IsTotal RepositorySpec (fun a b => repositoryLess b a = false) :=
    ⟨fun a b => by
      rw [key a b, key b a]
      unfold stringsCompare
      rw [compareChars_swap a.Name.data b.Name.data]
      omega⟩
  haveI : IsTrans RepositorySpec (fun a b => repositoryLess b a = false) :=
    ⟨fun a b c hab hbc => by
      rw [key] at hab hbc ⊢
      exact compareChars_trans _ _ _ hab hbc⟩
  have hs := List.sorted_insertionSort (fun a b : RepositorySpec => repositoryLess b a = false) l
  unfold sortSlice
  exact List.Pairwise.imp (fun {a b} hab => (key a b).1 hab) hs

/-! ## `generateHelmFile` -/

theorem helmState_Repositories (ec : EnvironmentContext) (repositories : List RepositorySpec)
    (releases : List ReleaseSpec) : (helmState ec repositories releases).Repositories = repositories := by
  unfold helmState
  split
  · split <;> rfl
  · rfl

theorem helmState_Releases (ec : EnvironmentContext) (repositories : List RepositorySpec)
    (releases : List ReleaseSpec) : (helmState ec repositories releases).Releases = releases := by
  unfold helmState
  split
  · split <;> rfl
  · rfl

theorem generateHelmFile_ok (w : World) (o : CreateHelmfileOptions) (ec : EnvironmentContext)
    (applications : List App) (charts : Charts) (localHelmRepos : GoMap) (apps : AppConfig)
    (phase : String) (h : HelmState)
    (hok : generateHelmFile w o ec applications charts localHelmRepos apps phase = .ok h) :
    ∃ releases res,
      buildReleases w o ec (collectRepos w localHelmRepos applications charts).charts
        (defaultNamespace apps ec) phase applications = .ok releases ∧
      ensureNamespaceExist w o
        (withPlaceholder w (defaultNamespace apps ec) releases
          (appRepositories w (collectRepos w localHelmRepos applications charts).repos apps)).2
        (withPlaceholder w (defaultNamespace apps ec) releases
          (appRepositories w (collectRepos w localHelmRepos applications charts).repos apps)).1
        phase = .ok res ∧
      h.Repositories = sortSlice repositoryLess res.1 ∧ h.Releases = res.2 := by
  unfold generateHelmFile at hok
  simp only at hok
  split at hok
  · cases hok
  · rename_i releases hrel
    split at hok
    · cases hok
    · rename_i repositories' releases' hens
      split at hok
      · cases hok
      · split at hok
        · cases hok
        · simp only [Except.ok.injEq] at hok
          refine ⟨releases, (repositories', releases'), hrel, hens, ?_, ?_⟩
          · rw [← hok, helmState_Repositories]
          · rw [← hok, helmState_Releases]

theorem ensureNamespaceExist_shape (w : World) (o : CreateHelmfileOptions)
    (repos : List RepositorySpec) (releases : List ReleaseSpec) (phase : String)
    (res : List RepositorySpec × List ReleaseSpec)
    (h : ensureNamespaceExist w o repos releases phase = .ok res) :
    ∃ cur nss created, res.2 = created ++ releases.map (setNeeds o cur nss) ∧
      (∀ c ∈ created, ∃ N, c = createNamespaceChart w cur N) ∧
      (res.1 = repos ∨ res.1 = AddRepositoryIfNeeded repos zloeberRepository) := by
  obtain ⟨cur, nss, -, -, hres⟩ := ensureNamespaceExist_ok w o repos releases phase res h
  obtain ⟨extra, hextra, hall⟩ := loop_created_prefix w o phase cur nss releases [] repos []
  have hrel := loop_releases w o phase cur nss releases [] repos []
  have hrepos := loop_repos w o phase cur nss releases [] repos []
  simp only [List.nil_append] at hextra hrel hall
  refine ⟨cur, nss, extra, by rw [hres, hextra, hrel], ?_, by rw [hres]; exact hrepos⟩
  intro c hc
  obtain ⟨r, -, -, hceq, -⟩ := hall c hc
  exact ⟨r.Namespace, hceq⟩

theorem withPlaceholder_repositories (w : World) (d : String) (releases : List ReleaseSpec)
    (repositories : List RepositorySpec) :
    (withPlaceholder w d releases repositories).2 = repositories ∨
    (withPlaceholder w d releases repositories).2 = repositories ++ [jenkinsXRepository w] := by
  unfold withPlaceholder addJenkinsXRepository
  split
  · split
    · left; rfl
    · right; rfl
  · left; rfl

theorem final_repositories_shape (w : World) (d : String) (releases : List ReleaseSpec)
    (repositories final : List RepositorySpec)
    (h : final = (withPlaceholder w d releases repositories).2 ∨
      final = AddRepositoryIfNeeded (withPlaceholder w d releases repositories).2 zloeberRepository) :
    ∃ extras, final = repositories ++ extras ∧
      ∀ e ∈ extras, e = jenkinsXRepository w ∨ e = zloeberRepository := by
  have hadd : ∀ l : List RepositorySpec, AddRepositoryIfNeeded l zloeberRepository = l ∨
      AddRepositoryIfNeeded l zloeberRepository = l ++ [zloeberRepository] := by
    intro l; unfold AddRepositoryIfNeeded; split
    · left; rfl
    · right; rfl
  rcases withPlaceholder_repositories w d releases repositories with hp | hp
  · rw [hp] at h
    rcases h with h | h
    · exact ⟨[], by simp [h], by simp⟩
    · rcases hadd repositories with ha | ha
      · exact ⟨[], by simp [h, ha], by simp⟩
      · exact ⟨[zloeberRepository], by rw [h, ha], by simp⟩
  · rw [hp] at h
    rcases h with h | h
    · exact ⟨[jenkinsXRepository w], h, by simp⟩
    · rcases hadd (repositories ++ [jenkinsXRepository w]) with ha | ha
      · exact ⟨[jenkinsXRepository w], by rw [h, ha], by simp⟩
      · exact ⟨[jenkinsXRepository w, zloeberRepository], by rw [h, ha]; simp, by simp⟩

/-- Claim C1, as amended: when `generateHelmFile` succeeds, the repositories it
computes from the charts of the applications and from `apps.Repositories` have
pairwise distinct URLs, and so have the repositories of the generated
`HelmState` once the `jenkins-x` repository of the placeholder release and the
`zloeber` repository of the namespace chart are left out. Those two are added
when no repository has their name, whatever the URLs listed. -/
theorem generateHelmFile_repositories_by_url (w : World) (o : CreateHelmfileOptions)
    (ec : EnvironmentContext) (applications : List App) (charts : Charts)
    (localHelmRepos : GoMap) (apps : AppConfig) (phase : String) (h : HelmState)
    (hok : generateHelmFile w o ec applications charts localHelmRepos apps phase = .ok h) :
    ((appRepositories w (collectRepos w localHelmRepos applications charts).repos apps).map
      (fun r => r.URL)).Nodup ∧
    ((h.Repositories.filter
      (fun r => decide (r ≠ jenkinsXRepository w ∧ r ≠ zloeberRepository))).map
      (fun r => r.URL)).Nodup := by
  have hbase := appRepositories_nodup w (collectRepos w localHelmRepos applications charts).repos apps
  refine ⟨hbase, ?_⟩
  obtain ⟨releases, res, -, hens, hrepos, -⟩ :=
    generateHelmFile_ok w o ec applications charts localHelmRepos apps phase h hok
  obtain ⟨-, -, -, -, -, hshape⟩ := ensureNamespaceExist_shape w o _ _ phase res hens
  obtain ⟨extras, hfinal, hextras⟩ := final_repositories_shape w _ releases _ res.1 hshape
  have hperm : h.Repositories.Perm res.1 := by rw [hrepos]; exact sortSlice_perm _ _
  rw [((hperm.filter _).map _).nodup_iff, hfinal, List.filter_append]
  have hnil : extras.filter
      (fun r => decide (r ≠ jenkinsXRepository w ∧ r ≠ zloeberRepository)) = [] := by
    rw [List.filter_eq_nil_iff]
    intro e he
    rcases hextras e he with rfl | rfl <;> simp
  rw [hnil, List.append_nil]
  exact hbase.sublist ((List.filter_sublist _).map _)

/-- Claim C6: when `generateHelmFile` succeeds, the repositories of the generated
`HelmState` are in ascending order of `Name` under `strings.Compare`; they are
the repositories computed from the applications and `apps.Repositories`
together with the `jenkins-x` and `zloeber` repositories that the placeholder
and the namespace releases added, in some order. -/
theorem generateHelmFile_repositories_sorted (w : World) (o : CreateHelmfileOptions)
    (ec : EnvironmentContext) (applications : List App) (charts : Charts)
    (localHelmRepos : GoMap) (apps : AppConfig) (phase : String) (h : HelmState)
    (hok : generateHelmFile w o ec applications charts localHelmRepos apps phase = .ok h) :
    List.Pairwise (fun r1 r2 => stringsCompare r1.Name r2.Name ≤ 0) h.Repositories ∧
    ∃ extras, (∀ e ∈ extras, e = jenkinsXRepository w ∨ e = zloeberRepository) ∧
      h.Repositories.Perm
        (appRepositories w (collectRepos w localHelmRepos applications charts).repos apps
          ++ extras) := by
  obtain ⟨releases, res, -, hens, hrepos, -⟩ :=
    generateHelmFile_ok w o ec applications charts localHelmRepos apps phase h hok
  obtain ⟨-, -, -, -, -, hshape⟩ := ensureNamespaceExist_shape w o _ _ phase res hens
  obtain ⟨extras, hfinal, hextras⟩ := final_repositories_shape w _ releases _ res.1 hshape
  refine ⟨?_, extras, hextras, ?_⟩
  · rw [hrepos]
    exact sortSlice_repositoryLess_sorted res.1
  · rw [hrepos, ← hfinal]
    exact sortSlice_perm _ _

theorem collectRepo_charts (w : World) (localHelmRepos : GoMap) (st : RepoState) (app : App)
    (k : String) :
    ((collectRepo w localHelmRepos st app).charts k).map (fun d => d.LocalName)
      = (st.charts k).map (fun d => d.LocalName) := by
  unfold collectRepo
  split
  · rfl
  · rename_i details hd
    split
    · rfl
    · simp only
      split
      · unfold Charts.set
        by_cases hk : k = app.Name
        · simp [hk, hd]
        · simp [hk]
      · rfl

theorem collectRepos_charts (w : World) (localHelmRepos : GoMap) (applications : List App)
    (charts : Charts) (k : String) :
    ((collectRepos w localHelmRepos applications charts).charts k).map (fun d => d.LocalName)
      = (charts k).map (fun d => d.LocalName) := by
  unfold collectRepos
  exact foldl_invariant
    (fun st : RepoState => (st.charts k).map (fun d => d.LocalName) = (charts k).map (fun d => d.LocalName))
    (collectRepo w localHelmRepos)
    (fun st a hst => by simp only; rw [collectRepo_charts]; exact hst) applications _ rfl

theorem buildReleases_forall₂ (w : World) (o : CreateHelmfileOptions) (ec : EnvironmentContext)
    (charts : Charts) (d phase : String) (applications : List App) :
    ∀ rs, buildReleases w o ec charts d phase applications = .ok rs →
      List.Forall₂
        (fun a r => ∃ details version, charts a.Name = some details ∧
          resolveVersion ec a.Version details.Name = .ok version ∧
          r = appRelease w o d phase a details version)
        (applications.filter (fun a => (charts a.Name).isSome)) rs := by
  induction applications with
  | nil => intro rs h; simp only [buildReleases, Except.ok.injEq] at h; subst h; simp
  | cons a rest ih =>
    intro rs h
    simp only [buildReleases] at h
    split at h
    · rename_i hnone
      simp only [List.filter_cons, hnone, Option.isSome_none, Bool.false_eq_true, if_false]
      exact ih rs h
    · rename_i details hsome
      split at h
      · cases h
      · rename_i version hv
        split at h
        · cases h
        · rename_i rs' hrs'
          simp only [Except.ok.injEq] at h
          subst h
          simp only [List.filter_cons, hsome, Option.isSome_some, if_true]
          exact List.Forall₂.cons ⟨details, version, hsome, hv, rfl⟩ (ih rs' hrs')

theorem resolveVersion_own (ec : EnvironmentContext) (version chartName v : String)
    (hne : version ≠ "") (h : resolveVersion ec version chartName = .ok v) : v = version := by
  unfold resolveVersion at h
  split at h
  · simp only [Except.ok.injEq] at h; exact h.symm
  · simp only [hne, if_false, Except.ok.injEq] at h; exact h.symm

theorem namespace_name_ne_empty (N : String) : "namespace-" ++ N ≠ "empty" := by
  intro h
  have := congrArg String.data h
  simp only [String.data_append] at this
  have h0 := congrArg List.head? this
  simp at h0


/-- Claim C5, as amended: when `generateHelmFile` succeeds and some application
has chart details, the releases of the generated `HelmState` are the
created namespace releases followed by one release for each application that has chart
details, in the order of the applications. The release of an application has
the application's `Alias` as `Name` when that is non-empty and the chart's
`LocalName` otherwise, the application's `Namespace` when that is non-empty and
the default namespace otherwise, the application's `Version` when it sets one,
and the application's `Hooks`, `Wait`, `Timeout` and other flags. -/
theorem generateHelmFile_app_releases (w : World) (o : CreateHelmfileOptions)
    (ec : EnvironmentContext) (applications : List App) (charts : Charts)
    (localHelmRepos : GoMap) (apps : AppConfig) (phase : String) (h : HelmState)
    (hok : generateHelmFile w o ec applications charts localHelmRepos apps phase = .ok h)
    (hne : ∃ a ∈ applications, (charts a.Name).isSome = true) :
    ∃ created rs, h.Releases = created ++ rs ∧
      (∀ c ∈ created, c.Chart = "zloeber/namespace") ∧
      List.Forall₂
        (fun a r => ∃ details, charts a.Name = some details ∧
          r.Name = (if a.Alias ≠ "" then a.Alias else details.LocalName) ∧
          r.Namespace = (if a.Namespace = "" then defaultNamespace apps ec else a.Namespace) ∧
          (a.Version ≠ "" → r.Version = a.Version) ∧
          r.Hooks = a.Hooks ∧ r.Wait = a.Wait ∧ r.Timeout = a.Timeout ∧
          r.RecreatePods = a.RecreatePods ∧ r.Force = a.Force ∧ r.Installed = a.Installed ∧
          r.Atomic = a.Atomic ∧ r.CleanupOnFail = a.CleanupOnFail ∧
          r.Dependencies = a.Dependencies ∧ r.JSONPatches = a.JSONPatches ∧
          r.StrategicMergePatches = a.StrategicMergePatches ∧ r.Adopt = a.Adopt)
        (applications.filter (fun a => (charts a.Name).isSome)) rs := by
  obtain ⟨releases, res, hrel, hens, -, hreleases⟩ :=
    generateHelmFile_ok w o ec applications charts localHelmRepos apps phase h hok
  have hf := buildReleases_forall₂ w o ec _ _ phase applications releases hrel
  have hsome : ∀ k, ((collectRepos w localHelmRepos applications charts).charts k).isSome
      = (charts k).isSome := by
    intro k
    have := congrArg Option.isSome (collectRepos_charts w localHelmRepos applications charts k)
    simpa using this
  have hfilter : applications.filter
      (fun a => ((collectRepos w localHelmRepos applications charts).charts a.Name).isSome)
      = applications.filter (fun a => (charts a.Name).isSome) := by
    congr 1; funext a; exact hsome a.Name
  rw [hfilter] at hf
  have hlen : releases.length ≠ 0 := by
    obtain ⟨a, ha, hsa⟩ := hne
    have hmem : a ∈ applications.filter (fun a => (charts a.Name).isSome) :=
      List.mem_filter.2 ⟨ha, hsa⟩
    rw [← hf.length_eq]
    exact List.length_pos.2 (List.ne_nil_of_mem hmem) |>.ne'
  have hp : withPlaceholder w (defaultNamespace apps ec) releases
      (appRepositories w (collectRepos w localHelmRepos applications charts).repos apps)
      = (releases, appRepositories w (collectRepos w localHelmRepos applications charts).repos apps) := by
    unfold withPlaceholder; simp [hlen]
  rw [hp] at hens
  obtain ⟨cur, nss, created, hres, hcreated, -⟩ := ensureNamespaceExist_shape w o _ _ phase res hens
  refine ⟨created, releases.map (setNeeds o cur nss), by rw [hreleases, hres], ?_, ?_⟩
  · intro c hc
    obtain ⟨N, rfl⟩ := hcreated c hc
    rfl
  · rw [List.forall₂_map_right_iff]
    refine hf.imp ?_
    rintro a r ⟨details, version, hd, hv, rfl⟩
    have hs0 : (charts a.Name).isSome = true := by rw [← hsome a.Name, hd]; rfl
    obtain ⟨d0, hd0⟩ := Option.isSome_iff_exists.1 hs0
    have hloc : details.LocalName = d0.LocalName := by
      have := collectRepos_charts w localHelmRepos applications charts a.Name
      rw [hd, hd0] at this
      simpa using this
    have hfields : ∀ x : ReleaseSpec, (setNeeds o cur nss x).Name = x.Name ∧
        (setNeeds o cur nss x).Namespace = x.Namespace ∧
        (setNeeds o cur nss x).Version = x.Version ∧
        (setNeeds o cur nss x).Hooks = x.Hooks ∧ (setNeeds o cur nss x).Wait = x.Wait ∧
        (setNeeds o cur nss x).Timeout = x.Timeout ∧
        (setNeeds o cur nss x).RecreatePods = x.RecreatePods ∧
        (setNeeds o cur nss x).Force = x.Force ∧ (setNeeds o cur nss x).Installed = x.Installed ∧
        (setNeeds o cur nss x).Atomic = x.Atomic ∧
        (setNeeds o cur nss x).CleanupOnFail = x.CleanupOnFail ∧
        (setNeeds o cur nss x).Dependencies = x.Dependencies ∧
        (setNeeds o cur nss x).JSONPatches = x.JSONPatches ∧
        (setNeeds o cur nss x).StrategicMergePatches = x.StrategicMergePatches ∧
        (setNeeds o cur nss x).Adopt = x.Adopt := by
      intro x; unfold setNeeds; split <;> simp
    obtain ⟨f1, f2, f3, f4, f5, f6, f7, f8, f9, f10, f11, f12, f13, f14, f15⟩ :=
      hfields (appRelease w o (defaultNamespace apps ec) phase a details version)
    refine ⟨d0, hd0, ?_, ?_, ?_, ?_, ?_, ?_, ?_, ?_, ?_, ?_, ?_, ?_, ?_, ?_, ?_⟩
    · rw [f1, ← hloc]; unfold appRelease; by_cases hns : a.Namespace = "" <;> simp [hns]
    · rw [f2]; unfold appRelease; by_cases hns : a.Namespace = "" <;> simp [hns]
    · intro hver; rw [f3]; exact resolveVersion_own ec _ _ _ hver hv
    · rw [f4]; unfold appRelease; by_cases hns : a.Namespace = "" <;> simp [hns]
    · rw [f5]; unfold appRelease; by_cases hns : a.Namespace = "" <;> simp [hns]
    · rw [f6]; unfold appRelease; by_cases hns : a.Namespace = "" <;> simp [hns]
    · rw [f7]; unfold appRelease; by_cases hns : a.Namespace = "" <;> simp [hns]
    · rw [f8]; unfold appRelease; by_cases hns : a.Namespace = "" <;> simp [hns]
    · rw [f9]; unfold appRelease; by_cases hns : a.Namespace = "" <;> simp [hns]
    · rw [f10]; unfold appRelease; by_cases hns : a.Namespace = "" <;> simp [hns]
    · rw [f11]; unfold appRelease; by_cases hns : a.Namespace = "" <;> simp [hns]
    · rw [f12]; unfold appRelease; by_cases hns : a.Namespace = "" <;> simp [hns]
    · rw [f13]; unfold appRelease; by_cases hns : a.Namespace = "" <;> simp [hns]
    · rw [f14]; unfold appRelease; by_cases hns : a.Namespace = "" <;> simp [hns]
    · rw [f15]; unfold appRelease; by_cases hns : a.Namespace = "" <;> simp [hns]

/-- Claim C7: when `generateHelmFile` succeeds, the releases of the generated
`HelmState` are not empty. When no application has chart details they are the
created namespace releases, none of them named `empty`, followed by one release
named `empty` with chart `jenkins-x/empty` in the default namespace; the
repositories then hold an entry named `jenkins-x`: the entries of that name
are those computed before when there is one, and otherwise the single entry
with `kube.DefaultChartMuseumURL`. -/
theorem generateHelmFile_releases_nonempty (w : World) (o : CreateHelmfileOptions)
    (ec : EnvironmentContext) (applications : List App) (charts : Charts)
    (localHelmRepos : GoMap) (apps : AppConfig) (phase : String) (h : HelmState)
    (hok : generateHelmFile w o ec applications charts localHelmRepos apps phase = .ok h) :
    h.Releases ≠ [] ∧
    ((∀ a ∈ applications, charts a.Name = none) →
      (∃ created r, h.Releases = created ++ [r] ∧
        (∀ c ∈ created, c.Name ≠ "empty" ∧ c.Chart = "zloeber/namespace") ∧
        r = { Name := "empty", Chart := "jenkins-x/empty",
              Namespace := defaultNamespace apps ec, Needs := r.Needs }) ∧
      (∃ x ∈ h.Repositories, x.Name = "jenkins-x") ∧
      ((∃ x ∈ appRepositories w (collectRepos w localHelmRepos applications charts).repos apps,
          x.Name = "jenkins-x") →
        (h.Repositories.filter (fun x => decide (x.Name = "jenkins-x"))).Perm
          ((appRepositories w (collectRepos w localHelmRepos applications charts).repos apps).filter
            (fun x => decide (x.Name = "jenkins-x")))) ∧
      ((∀ x ∈ appRepositories w (collectRepos w localHelmRepos applications charts).repos apps,
          x.Name ≠ "jenkins-x") →
        h.Repositories.filter (fun x => decide (x.Name = "jenkins-x"))
          = [{ Name := "jenkins-x", URL := w.defaultChartMuseumURL }])) := by
  obtain ⟨releases, res, hrel, hens, hrepos, hreleases⟩ :=
    generateHelmFile_ok w o ec applications charts localHelmRepos apps phase h hok
  obtain ⟨cur, nss, created, hres, hcreated, hshape⟩ :=
    ensureNamespaceExist_shape w o _ _ phase res hens
  constructor
  · rw [hreleases, hres]
    intro hnil
    have h2 := (List.append_eq_nil.1 hnil).2
    rw [List.map_eq_nil_iff] at h2
    unfold withPlaceholder at h2
    split at h2
    · simp at h2
    · rename_i hl
      simp only at h2
      rw [h2] at hl
      exact hl rfl
  · intro hnone
    set base := appRepositories w (collectRepos w localHelmRepos applications charts).repos apps
      with hbase
    have hf := buildReleases_forall₂ w o ec _ _ phase applications releases hrel
    have hfil : applications.filter
        (fun a => ((collectRepos w localHelmRepos applications charts).charts a.Name).isSome) = [] := by
      rw [List.filter_eq_nil_iff]
      intro a ha
      have := congrArg Option.isSome (collectRepos_charts w localHelmRepos applications charts a.Name)
      rw [hnone a ha] at this
      simpa using this
    rw [hfil] at hf
    have hnil : releases = [] := List.forall₂_nil_left_iff.1 hf
    subst hnil
    have hp : withPlaceholder w (defaultNamespace apps ec) [] base
        = ([emptyRelease (defaultNamespace apps ec)], addJenkinsXRepository w base) := by
      unfold withPlaceholder; simp
    rw [hp] at hres hshape
    simp only [List.map_cons, List.map_nil] at hres
    have hperm : h.Repositories.Perm res.1 := by rw [hrepos]; exact sortSlice_perm _ _
    have hz : zloeberRepository.Name ≠ "jenkins-x" := by decide
    have hres1 : res.1.filter (fun x => decide (x.Name = "jenkins-x"))
        = (addJenkinsXRepository w base).filter (fun x => decide (x.Name = "jenkins-x")) := by
      rcases hshape with hs | hs
      · rw [hs]
      · rw [hs]
        unfold AddRepositoryIfNeeded
        split
        · rfl
        · rw [List.filter_append]
          simp [hz]
    refine ⟨⟨created, setNeeds o cur nss (emptyRelease (defaultNamespace apps ec)), ?_, ?_, ?_⟩,
      ?_, ?_, ?_⟩
    · rw [hreleases, hres]
    · intro c hc
      obtain ⟨N, rfl⟩ := hcreated c hc
      exact ⟨namespace_name_ne_empty N, rfl⟩
    · unfold setNeeds emptyRelease
      split <;> rfl
    · have hmem : ∃ x ∈ addJenkinsXRepository w base, x.Name = "jenkins-x" := by
        unfold addJenkinsXRepository
        split
        · rename_i hany
          obtain ⟨x, hx, hxn⟩ := List.any_eq_true.1 hany
          exact ⟨x, hx, by simpa using hxn⟩
        · exact ⟨jenkinsXRepository w, by simp, rfl⟩
      obtain ⟨x, hx, hxn⟩ := hmem
      have hx1 : x ∈ res.1.filter (fun x => decide (x.Name = "jenkins-x")) := by
        rw [hres1]; exact List.mem_filter.2 ⟨hx, by simpa using hxn⟩
      exact ⟨x, hperm.mem_iff.2 (List.mem_filter.1 hx1).1, hxn⟩
    · rintro ⟨x, hx, hxn⟩
      have hany : (base.any fun repo => decide (repo.Name = "jenkins-x")) = true :=
        List.any_eq_true.2 ⟨x, hx, by simpa using hxn⟩
      have : addJenkinsXRepository w base = base := by
        unfold addJenkinsXRepository; simp only [hany, if_true]
      rw [this] at hres1
      rw [← hres1]
      exact hperm.filter _
    · intro hno
      have hany : ¬ (base.any fun repo => decide (repo.Name = "jenkins-x")) = true := by
        intro hany
        obtain ⟨x, hx, hxn⟩ := List.any_eq_true.1 hany
        exact hno x hx (by simpa using hxn)
      have hadd : addJenkinsXRepository w base = base ++ [jenkinsXRepository w] := by
        unfold addJenkinsXRepository; simp [hany]
      have hbnil : base.filter (fun x => decide (x.Name = "jenkins-x")) = [] := by
        rw [List.filter_eq_nil_iff]
        intro x hx
        simpa using hno x hx
      rw [hadd, List.filter_append, hbnil] at hres1
      have hp2 := hperm.filter (fun x => decide (x.Name = "jenkins-x"))
      rw [hres1] at hp2
      simp only [List.nil_append, jenkinsXRepository, List.filter_cons, decide_True, if_true,
        List.filter_nil] at hp2
      exact List.perm_singleton.1 hp2

/-! ## Examples -/

/-- Claim C1 fails as stated: when `jx-apps.yml` lists the repository of
the namespace chart under the name `helm-namespace` and an application lives in
a namespace that the cluster lacks, the generated `HelmState` has the URL of that
repository twice. -/
theorem generateHelmFile_repositories_share_url :
    ∃ h, generateHelmFile exampleWorld exampleOptions {} exampleApplications exampleCharts
        exampleLocalHelmRepos exampleAppConfig "apps" = .ok h ∧
      h.Repositories.map (fun r => r.URL)
        = ["git+https://github.com/zloeber/helm-namespace@chart",
           "http://chartmuseum.jenkins-x.io",
           "git+https://github.com/zloeber/helm-namespace@chart"] ∧
      ¬ (h.Repositories.map (fun r => r.URL)).Nodup :=
  ⟨exampleHelmState, rfl, rfl, by decide⟩

/-- The statement of C1 as amended, on the example. -/
theorem generateHelmFile_repositories_by_url_witness :
    ((appRepositories exampleWorld
        (collectRepos exampleWorld exampleLocalHelmRepos exampleApplications exampleCharts).repos
        exampleAppConfig).map (fun r => r.URL)).Nodup ∧
    ((exampleHelmState.Repositories.filter
      (fun r => decide (r ≠ jenkinsXRepository exampleWorld ∧ r ≠ zloeberRepository))).map
      (fun r => r.URL)).Nodup :=
  generateHelmFile_repositories_by_url exampleWorld exampleOptions {} exampleApplications
    exampleCharts exampleLocalHelmRepos exampleAppConfig "apps" exampleHelmState rfl

/-- The statement of C2 on two releases of the missing namespace `foo`: one release
`namespace-foo` is created for both. -/
theorem ensureNamespaceExist_injects_shims_witness :
    ∃ created updated, exampleShimmed = created ++ updated ∧
      updated.map (fun r => r.Name) = exampleReleases.map (fun r => r.Name) ∧
      (∀ N, (∃ r ∈ exampleReleases, r.Namespace = N) → N ≠ "" → N ≠ "jx" →
        (({} : CreateHelmfileOptions).IgnoreNamespaceCheck = true ∨ N ∉ ["jx", "default"]) →
        (∀ r ∈ exampleReleases, r.Name ≠ "namespace-" ++ N) →
        ({ Name := "namespace-" ++ N, Namespace := "jx", Chart := "zloeber/namespace",
           Values := [exampleWorld.pathJoin ["generated", N, "values.yaml"]] } : ReleaseSpec)
          ∈ created ∧
        (created.map (fun r => r.Name)).count ("namespace-" ++ N) = 1 ∧
        (exampleShimmed.map (fun r => r.Name)).count ("namespace-" ++ N) = 1) ∧
      (∀ c ∈ created, ∃ N,
        c = { Name := "namespace-" ++ N, Namespace := "jx", Chart := "zloeber/namespace",
              Values := [exampleWorld.pathJoin ["generated", N, "values.yaml"]] } ∧
        (∃ r ∈ exampleReleases, r.Namespace = N) ∧ N ≠ "" ∧ N ≠ "jx" ∧
        (({} : CreateHelmfileOptions).IgnoreNamespaceCheck = true ∨ N ∉ ["jx", "default"]) ∧
        ∀ r ∈ exampleReleases, r.Name ≠ "namespace-" ++ N) :=
  ensureNamespaceExist_injects_shims exampleWorld {} [] exampleReleases "apps" "jx"
    ["jx", "default"] ([zloeberRepository], exampleShimmed) rfl rfl rfl

/-- Claim C3 fails as stated: when the input already holds a release named
`namespace-foo` after the application of namespace `foo`, no release is created;
the application is returned first, with `Needs` set to `jx/namespace-foo`, and
no release stands before it. -/
theorem ensureNamespaceExist_needs_not_preceded :
    ∃ res, ensureNamespaceExist exampleWorld {} [] exampleOwnNamespaceRelease "apps" = .ok res ∧
      res.2.map (fun x => x.Name) = ["app1", "namespace-foo"] ∧
      (res.2[0]?).map (fun x => x.Needs) = some ["jx/namespace-foo"] ∧
      ¬ ∃ j x, j < 0 ∧ res.2[j]? = some x ∧ x.Name = "namespace-foo" ∧ x.Namespace = "jx" :=
  ⟨_, rfl, rfl, rfl, by simp⟩

/-- The statement of C3 as amended, on the first of two releases of the missing namespace `foo`. -/
theorem ensureNamespaceExist_needs_target_witness :
    ∃ created updated, exampleShimmed = created ++ updated ∧
      updated.length = exampleReleases.length ∧
      (exampleShimmed[created.length + 0]?).map (fun x => x.Needs)
        = some ["jx" ++ "/namespace-" ++ "foo"] ∧
      (∃ x ∈ exampleShimmed, x.Name = "namespace-" ++ "foo") ∧
      ((∀ x ∈ exampleReleases, x.Name ≠ "namespace-" ++ "foo") →
        ∃ j x, j < created.length + 0 ∧ exampleShimmed[j]? = some x ∧
          x.Name = "namespace-" ++ "foo" ∧ x.Namespace = "jx") :=
  ensureNamespaceExist_needs_target exampleWorld {} [] exampleReleases "apps" "jx"
    ["jx", "default"] ([zloeberRepository], exampleShimmed) rfl rfl rfl 0
    { Name := "app1", Namespace := "foo", Chart := "jenkins-x/app1" } rfl
    (by decide) (by decide) (Or.inr (by decide))

/-- The statement of C4 on two releases of the missing namespace `foo`. -/
theorem ensureNamespaceExist_keeps_releases_witness :
    ∃ created updated, exampleShimmed = created ++ updated ∧
      (∀ c ∈ created, c.Chart = "zloeber/namespace" ∧
        ∃ r ∈ exampleReleases, c.Name = "namespace-" ++ r.Namespace) ∧
      List.Forall₂ (fun r u => u = { r with Needs := u.Needs }) exampleReleases updated ∧
      exampleShimmed.length = exampleReleases.length + created.length :=
  ensureNamespaceExist_keeps_releases exampleWorld {} [] exampleReleases "apps"
    ([zloeberRepository], exampleShimmed) rfl

/-- Claim C5 fails as stated: the application `jenkins-x/jxui` has no namespace,
and its release `ui` is in the default namespace `jx`. -/
theorem generateHelmFile_namespace_defaulted :
    ∃ h, generateHelmFile exampleWorld exampleOptions {} exampleApplications exampleCharts
        exampleLocalHelmRepos exampleAppConfig "apps" = .ok h ∧
      exampleApplications[1]?.map (fun a => (a.Name, a.Alias, a.Namespace))
        = some ("jenkins-x/jxui", "ui", "") ∧
      h.Releases.map (fun r => (r.Name, r.Namespace))
        = [("namespace-tekton", "jx"), ("tekton", "tekton"), ("ui", "jx")] :=
  ⟨exampleHelmState, rfl, rfl, rfl⟩

/-- The statement of C5 as amended, on the example. -/
theorem generateHelmFile_app_releases_witness :
    ∃ created rs, exampleHelmState.Releases = created ++ rs ∧
      (∀ c ∈ created, c.Chart = "zloeber/namespace") ∧
      List.Forall₂
        (fun a r => ∃ details, exampleCharts a.Name = some details ∧
          r.Name = (if a.Alias ≠ "" then a.Alias else details.LocalName) ∧
          r.Namespace = (if a.Namespace = "" then defaultNamespace exampleAppConfig {}
            else a.Namespace) ∧
          (a.Version ≠ "" → r.Version = a.Version) ∧
          r.Hooks = a.Hooks ∧ r.Wait = a.Wait ∧ r.Timeout = a.Timeout ∧
          r.RecreatePods = a.RecreatePods ∧ r.Force = a.Force ∧ r.Installed = a.Installed ∧
          r.Atomic = a.Atomic ∧ r.CleanupOnFail = a.CleanupOnFail ∧
          r.Dependencies = a.Dependencies ∧ r.JSONPatches = a.JSONPatches ∧
          r.StrategicMergePatches = a.StrategicMergePatches ∧ r.Adopt = a.Adopt)
        (exampleApplications.filter (fun a => (exampleCharts a.Name).isSome)) rs :=
  generateHelmFile_app_releases exampleWorld exampleOptions {} exampleApplications
    exampleCharts exampleLocalHelmRepos exampleAppConfig "apps" exampleHelmState rfl
    ⟨{ Name := "jenkins-x/tekton", Namespace := "tekton", Version := "1.0.0" },
      List.mem_cons_self _ _, rfl⟩

/-- The statement of C6 on the example. -/
theorem generateHelmFile_repositories_sorted_witness :
    List.Pairwise (fun r1 r2 => stringsCompare r1.Name r2.Name ≤ 0)
      exampleHelmState.Repositories ∧
    ∃ extras, (∀ e ∈ extras, e = jenkinsXRepository exampleWorld ∨ e = zloeberRepository) ∧
      exampleHelmState.Repositories.Perm
        (appRepositories exampleWorld
          (collectRepos exampleWorld exampleLocalHelmRepos exampleApplications exampleCharts).repos
          exampleAppConfig ++ extras) :=
  generateHelmFile_repositories_sorted exampleWorld exampleOptions {} exampleApplications
    exampleCharts exampleLocalHelmRepos exampleAppConfig "apps" exampleHelmState rfl

/-- The statement of C7 on an empty list of applications. -/
theorem generateHelmFile_releases_nonempty_witness :
    exampleEmptyHelmState.Releases ≠ [] ∧
    ((∀ a ∈ ([] : List App), exampleCharts a.Name = none) →
      (∃ created r, exampleEmptyHelmState.Releases = created ++ [r] ∧
        (∀ c ∈ created, c.Name ≠ "empty" ∧ c.Chart = "zloeber/namespace") ∧
        r = { Name := "empty", Chart := "jenkins-x/empty",
              Namespace := defaultNamespace { DefaultNamespace := "jx" } {},
              Needs := r.Needs }) ∧
      (∃ x ∈ exampleEmptyHelmState.Repositories, x.Name = "jenkins-x") ∧
      ((∃ x ∈ appRepositories exampleWorld
            (collectRepos exampleWorld exampleLocalHelmRepos [] exampleCharts).repos
            { DefaultNamespace := "jx" },
          x.Name = "jenkins-x") →
        (exampleEmptyHelmState.Repositories.filter (fun x => decide (x.Name = "jenkins-x"))).Perm
          ((appRepositories exampleWorld
            (collectRepos exampleWorld exampleLocalHelmRepos [] exampleCharts).repos
            { DefaultNamespace := "jx" }).filter
            (fun x => decide (x.Name = "jenkins-x")))) ∧
      ((∀ x ∈ appRepositories exampleWorld
            (collectRepos exampleWorld exampleLocalHelmRepos [] exampleCharts).repos
            { DefaultNamespace := "jx" },
          x.Name ≠ "jenkins-x") →
        exampleEmptyHelmState.Repositories.filter (fun x => decide (x.Name = "jenkins-x"))
          = [{ Name := "jenkins-x", URL := exampleWorld.defaultChartMuseumURL }])) :=
  generateHelmFile_releases_nonempty exampleWorld exampleOptions {} [] exampleCharts
    exampleLocalHelmRepos { DefaultNamespace := "jx" } "apps" exampleEmptyHelmState rfl

/-! ## `MergeSave` -/

theorem MergeSave_fst (w : ConfigWorld) (c src : RequirementsConfig) (file : String) :
    (MergeSave w c src file).1 = mergeRequirements c src := by
  simp only [MergeSave]
  split <;> rfl

theorem mergeEnvironments_length (os : List EnvironmentConfig) :
    ∀ cs, (mergeEnvironments os cs).length = max os.length cs.length := by
  induction os with
  | nil => intro cs; simp [mergeEnvironments]
  | cons x xs ih =>
    intro cs
    cases cs with
    | nil => simp [mergeEnvironments]
    | cons y ys => simp [mergeEnvironments, ih ys, Nat.succ_max_succ]

theorem mergeEnvironments_both (os : List EnvironmentConfig) :
    ∀ cs (i : Nat) eo ec, os[i]? = some eo → cs[i]? = some ec →
      (mergeEnvironments os cs)[i]? = some (mergeEnvironmentConfig eo ec) := by
  induction os with
  | nil => intro cs i eo ec h; simp at h
  | cons x xs ih =>
    intro cs i eo ec ho hc
    cases cs with
    | nil => simp at hc
    | cons y ys =>
      cases i with
      | zero =>
        simp only [List.getElem?_cons_zero, Option.some.injEq] at ho hc
        subst ho; subst hc
        simp [mergeEnvironments]
      | succ n =>
        simp only [List.getElem?_cons_succ] at ho hc
        simp only [mergeEnvironments, List.getElem?_cons_succ]
        exact ih ys n eo ec ho hc

theorem mergeEnvironments_only_changed (os : List EnvironmentConfig) :
    ∀ cs (i : Nat), os[i]? = none → (mergeEnvironments os cs)[i]? = cs[i]? := by
  induction os with
  | nil => intro cs i _; simp [mergeEnvironments]
  | cons x xs ih =>
    intro cs i ho
    cases i with
    | zero => simp at ho
    | succ n =>
      simp only [List.getElem?_cons_succ] at ho
      cases cs with
      | nil => simp [mergeEnvironments, ho]
      | cons y ys =>
        simp only [mergeEnvironments, List.getElem?_cons_succ]
        exact ih ys n ho

theorem mergeEnvironments_only_original (os : List EnvironmentConfig) :
    ∀ cs (i : Nat), cs[i]? = none → (mergeEnvironments os cs)[i]? = os[i]? := by
  induction os with
  | nil => intro cs i hc; simp [mergeEnvironments, hc]
  | cons x xs ih =>
    intro cs i hc
    cases cs with
    | nil => simp [mergeEnvironments]
    | cons y ys =>
      cases i with
      | zero => simp at hc
      | succ n =>
        simp only [List.getElem?_cons_succ] at hc
        simp only [mergeEnvironments, List.getElem?_cons_succ]
        exact ih ys n hc

/-- Claim C8, as amended: after `MergeSave` every string, boolean and list
field of the receiver is the field of `changed` when that is non-empty and its
previous value otherwise, whether or not the save succeeds. The environments
are merged entry by entry: an entry that both lists have is merged field by
field, an entry that only `changed` has is taken from it, and the merged list
has the length of the list of `changed` when that list is at least as long as
the list of the receiver. -/
theorem MergeSave_field_level (w : ConfigWorld) (original changed : RequirementsConfig)
    (file : String) :
    (∀ f ∈ requirementsStringFields, f (MergeSave w original changed file).1
      = if f changed ≠ "" then f changed else f original) ∧
    (∀ f ∈ requirementsBoolFields, f (MergeSave w original changed file).1
      = if f changed = true then f changed else f original) ∧
    ((MergeSave w original changed file).1.Cluster.DevEnvApprovers
      = if changed.Cluster.DevEnvApprovers ≠ [] then changed.Cluster.DevEnvApprovers
        else original.Cluster.DevEnvApprovers) ∧
    (original.Environments.length ≤ changed.Environments.length →
      (MergeSave w original changed file).1.Environments.length
        = changed.Environments.length) ∧
    (∀ (i : Nat) eo ec, original.Environments[i]? = some eo → changed.Environments[i]? = some ec →
      ∃ em, (MergeSave w original changed file).1.Environments[i]? = some em ∧
        (∀ g ∈ environmentStringFields, g em = if g ec ≠ "" then g ec else g eo) ∧
        (∀ g ∈ environmentBoolFields, g em = if g ec = true then g ec else g eo)) ∧
    (∀ i : Nat, original.Environments[i]? = none →
      (MergeSave w original changed file).1.Environments[i]? = changed.Environments[i]?) := by
  rw [MergeSave_fst]
  refine ⟨?_, ?_, rfl, ?_, ?_, ?_⟩
  · intro f hf
    simp only [requirementsStringFields, List.mem_cons, List.mem_singleton, List.not_mem_nil,
      or_false] at hf
    rcases hf with h | h | h | h | h | h | h | h | h | h | h | h | h | h | h | h | h | h | h | h |
      h | h | h | h | h | h | h | h | h | h | h | h | h | h <;> subst h <;> rfl
  · intro f hf
    simp only [requirementsBoolFields, List.mem_cons, List.mem_singleton, List.not_mem_nil,
      or_false] at hf
    rcases hf with h | h | h | h | h | h | h | h | h | h | h | h | h <;> subst h <;> rfl
  · intro hlen
    show (mergeEnvironments original.Environments changed.Environments).length = _
    rw [mergeEnvironments_length]
    exact Nat.max_eq_right hlen
  · intro i eo ec ho hc
    refine ⟨mergeEnvironmentConfig eo ec, mergeEnvironments_both _ _ i eo ec ho hc, ?_, ?_⟩
    · intro g hg
      simp only [environmentStringFields, List.mem_cons, List.mem_singleton, List.not_mem_nil,
        or_false] at hg
      rcases hg with h | h | h | h | h | h | h | h | h | h | h | h | h | h | h <;> subst h <;> rfl
    · intro g hg
      simp only [environmentBoolFields, List.mem_cons, List.mem_singleton, List.not_mem_nil,
        or_false] at hg
      rcases hg with h | h | h | h <;> subst h <;> rfl
  · intro i h; exact mergeEnvironments_only_changed _ _ i h

theorem mergeString_idem (o c : String) : mergeString (mergeString o c) c = mergeString o c := by
  unfold mergeString; split <;> simp_all

theorem mergeBool_idem (o c : Bool) : mergeBool (mergeBool o c) c = mergeBool o c := by
  unfold mergeBool; split <;> simp_all

theorem mergeStrings_idem (o c : List String) :
    mergeStrings (mergeStrings o c) c = mergeStrings o c := by
  unfold mergeStrings; split <;> simp_all

theorem mergeIngressConfig_idem (o c : IngressConfig) :
    mergeIngressConfig (mergeIngressConfig o c) c = mergeIngressConfig o c := by
  simp [mergeIngressConfig, mergeTLSConfig, mergeString_idem, mergeBool_idem]

theorem mergeEnvironmentConfig_idem (o c : EnvironmentConfig) :
    mergeEnvironmentConfig (mergeEnvironmentConfig o c) c = mergeEnvironmentConfig o c := by
  simp [mergeEnvironmentConfig, mergeIngressConfig_idem, mergeString_idem, mergeBool_idem]

theorem mergeEnvironments_idem (os : List EnvironmentConfig) :
    ∀ cs, mergeEnvironments (mergeEnvironments os cs) cs = mergeEnvironments os cs := by
  induction os with
  | nil =>
    intro cs
    induction cs with
    | nil => simp [mergeEnvironments]
    | cons y ys ihy =>
      simp only [mergeEnvironments] at ihy ⊢
      simp only [List.cons.injEq]
      refine ⟨?_, ihy⟩
      simp [mergeEnvironmentConfig, mergeIngressConfig, mergeTLSConfig, mergeString, mergeBool]
  | cons x xs ih =>
    intro cs
    cases cs with
    | nil => simp [mergeEnvironments]
    | cons y ys => simp [mergeEnvironments, mergeEnvironmentConfig_idem, ih ys]

theorem mergeRequirements_idem (o c : RequirementsConfig) :
    mergeRequirements (mergeRequirements o c) c = mergeRequirements o c := by
  simp [mergeRequirements, mergeClusterConfig, mergeStorageConfig, mergeStorageEntryConfig,
    mergeVeleroConfig, mergeVersionStreamConfig, mergeIngressConfig_idem, mergeEnvironments_idem,
    mergeString_idem, mergeBool_idem, mergeStrings_idem]

/-- Claim C9: merging `changed` into the result of merging `changed` into
`original` gives the result of the first merge. -/
theorem MergeSave_idempotent (w : ConfigWorld) (original changed : RequirementsConfig)
    (file : String) :
    (MergeSave w (MergeSave w original changed file).1 changed file).1
      = (MergeSave w original changed file).1 := by
  rw [MergeSave_fst, MergeSave_fst, mergeRequirements_idem]

/-- The merge of the case "Merge EnvironmentConfig slices Test" of `TestMergeSave`
satisfies the assertions of the test. -/
theorem MergeSave_test_environment_slices :
    ∃ merged, MergeSave exampleConfigWorld
        { Environments :=
            [{ Key := "dev", Repository := "repo" },
             { Key := "production", Ingress := { Domain := "domain" } },
             { Key := "staging",
               Ingress := { Domain := "domainStaging", TLS := { Email := "email" } } }] }
        { Environments :=
            [{ Key := "dev", Owner := "owner" },
             { Key := "production", Ingress := { CloudDNSSecretName := "secret" } },
             { Key := "staging",
               Ingress := { Domain := "newDomain", DomainIssuerURL := "issuer",
                            TLS := { Enabled := true } } },
             { Key := "ns2" }] }
        "jx-requirements.yml" = (merged, none) ∧
      merged.Environments.length = 4 ∧
      merged.Environments.map (fun e => (e.Key, e.Owner, e.Repository))
        = [("dev", "owner", "repo"), ("production", "", ""), ("staging", "", ""), ("ns2", "", "")] ∧
      merged.Environments.map
          (fun e => (e.Ingress.Domain, e.Ingress.CloudDNSSecretName, e.Ingress.TLS.Email,
            e.Ingress.TLS.Enabled))
        = [("", "", "", false), ("domain", "secret", "", false),
           ("newDomain", "", "email", true), ("", "", "", false)] :=
  ⟨_, rfl, rfl, rfl, rfl⟩

/-- Claim C8 fails as stated: merging requirements without environments into
requirements with the environment `dev`. The field `Environments` of `Changed`
is empty, so by the claim the receiver keeps its previous value of it; whatever
the merge does, a result that keeps it has one environment and not the length
of the list of `Changed`, which has none. `MergeSave` keeps it and succeeds. -/
theorem MergeSave_environments_not_changed_length :
    ({} : RequirementsConfig).Environments = [] ∧
    (∀ merged : RequirementsConfig,
      merged.Environments
          = ({ Environments := [{ Key := "dev" }] } : RequirementsConfig).Environments →
        merged.Environments.length ≠ ({} : RequirementsConfig).Environments.length) ∧
    MergeSave exampleConfigWorld { Environments := [{ Key := "dev" }] } {} "jx-requirements.yml"
      = ({ Environments := [{ Key := "dev" }] }, none) ∧
    (MergeSave exampleConfigWorld { Environments := [{ Key := "dev" }] } {}
        "jx-requirements.yml").1.Environments.length
      ≠ ({} : RequirementsConfig).Environments.length := by
  refine ⟨rfl, ?_, rfl, by decide⟩
  intro merged h
  rw [h]
  decide

/-! ## `LoadDeployConfig` -/

/-- Claim C10: when the deploy configuration file does not exist (`util.FileExists`
returns `false` and no error), `LoadDeployConfigFile` and `LoadDeployConfig`
return a nil configuration, an empty file name and no error. -/
theorem LoadDeployConfig_not_exists (w : ConfigWorld) (projectDir fileName : String)
    (hfile : w.fileExists fileName = (false, none))
    (hdir : w.fileExists
      (if projectDir ≠ "" then w.filepathJoin [projectDir, DeployConfigPath w]
        else DeployConfigPath w) = (false, none)) :
    LoadDeployConfigFile w fileName = (none, "", none) ∧
    LoadDeployConfig w projectDir = (none, "", none) := by
  constructor
  · unfold LoadDeployConfigFile
    simp [hfile]
  · unfold LoadDeployConfig LoadDeployConfigFile
    simp only [hdir]
    simp

/-- The statement of C10 on the directory of `TestLoadDeployNotExists`. -/
theorem LoadDeployConfig_not_exists_witness :
    LoadDeployConfigFile exampleConfigWorld "test_data/jx-apps-phase-bad/.jenkins-x/Deployfile"
      = (none, "", none) ∧
    LoadDeployConfig exampleConfigWorld "test_data/jx-apps-phase-bad" = (none, "", none) :=
  LoadDeployConfig_not_exists exampleConfigWorld "test_data/jx-apps-phase-bad"
    "test_data/jx-apps-phase-bad/.jenkins-x/Deployfile" (by decide) (by decide)

/-! ## `LoadDeployConfig` on a file that exists -/

theorem intercalate_go_length (s : String) (l : List String) :
    ∀ acc, acc.length ≤ (String.intercalate.go acc s l).length := by
  induction l with
  | nil => intro acc; simp [String.intercalate.go]
  | cons a as ih =>
    intro acc
    simp only [String.intercalate.go]
    refine le_trans ?_ (ih _)
    simp only [String.length_append]
    omega

theorem exampleConfigWorld_filepathJoin (l : List String) (h : ∃ e ∈ l, e ≠ "") :
    exampleConfigWorld.filepathJoin l ≠ "" := by
  have hlen : ∀ t : String, t ≠ "" → 0 < t.length := by
    intro t ht
    rcases Nat.eq_zero_or_pos t.length with h0 | h0
    · exact absurd (String.ext (List.length_eq_zero.1 h0)) ht
    · exact h0
  have hpos : 0 < (exampleConfigWorld.filepathJoin l).length := by
    show 0 < ("/".intercalate l).length
    cases l with
    | nil => obtain ⟨e, he, -⟩ := h; simp at he
    | cons a as =>
      simp only [String.intercalate]
      cases as with
      | nil =>
        obtain ⟨e, he, hne⟩ := h
        simp only [List.mem_singleton] at he
        subst he
        simpa [String.intercalate.go] using hlen e hne
      | cons b bs =>
        simp only [String.intercalate.go]
        refine lt_of_lt_of_le ?_ (intercalate_go_length _ _ _)
        simp only [String.length_append]
        have : ("/" : String).length = 1 := rfl
        omega
  intro h0
  rw [h0] at hpos
  exact absurd hpos (by decide)

/-- Claim C11: when the deploy configuration file exists, can be read and
unmarshals without error, `LoadDeployConfig` returns the unmarshalled
configuration, no error, and the file name `filepath.Join(projectDir,
DeployConfigPath)`, or `DeployConfigPath` when `projectDir` is empty; that name
is not empty, `filepath.Join` returning an empty path only when all its
elements are empty. Whenever `LoadDeployConfigFile` or `LoadDeployConfig`
returns an error, the file name it returns is empty. -/
theorem LoadDeployConfig_exists (w : ConfigWorld) (projectDir data : String)
    (config : DeployConfig)
    (hjoin : ∀ l : List String, (∃ e ∈ l, e ≠ "") → w.filepathJoin l ≠ "")
    (hexists : w.fileExists
      (if projectDir ≠ "" then w.filepathJoin [projectDir, DeployConfigPath w]
        else DeployConfigPath w) = (true, none))
    (hread : w.readFile
      (if projectDir ≠ "" then w.filepathJoin [projectDir, DeployConfigPath w]
        else DeployConfigPath w) = .ok data)
    (hyaml : w.unmarshalDeployConfig data = (config, none)) :
    LoadDeployConfig w projectDir
      = (some config,
          if projectDir ≠ "" then w.filepathJoin [projectDir, w.filepathJoin [".jenkins-x", "Deployfile"]]
          else w.filepathJoin [".jenkins-x", "Deployfile"],
          none) ∧
    (LoadDeployConfig w projectDir).2.1 ≠ "" ∧
    (∀ fileName, (LoadDeployConfigFile w fileName).2.2 ≠ none →
      (LoadDeployConfigFile w fileName).2.1 = "") ∧
    (∀ dir, (LoadDeployConfig w dir).2.2 ≠ none → (LoadDeployConfig w dir).2.1 = "") := by
  have hfile : ∀ fileName, (LoadDeployConfigFile w fileName).2.2 ≠ none →
      (LoadDeployConfigFile w fileName).2.1 = "" := by
    intro fileName
    unfold LoadDeployConfigFile
    simp only
    split
    · intro _; rfl
    · split
      · intro _; rfl
      · split
        · intro _; rfl
        · intro h; exact absurd rfl h
  have hload : LoadDeployConfig w projectDir
      = (some config,
          if projectDir ≠ "" then w.filepathJoin [projectDir, DeployConfigPath w]
          else DeployConfigPath w,
          none) := by
    unfold LoadDeployConfig LoadDeployConfigFile
    simp only [hexists, hread, hyaml]
    simp
  have hpath : DeployConfigPath w ≠ "" := hjoin _ ⟨".jenkins-x", by simp, by decide⟩
  refine ⟨hload, ?_, hfile, ?_⟩
  · rw [hload]
    simp only
    split
    · rename_i hdir
      exact hjoin _ ⟨projectDir, by simp, hdir⟩
    · exact hpath
  · intro dir
    unfold LoadDeployConfig
    exact hfile _

/-- The statement of C11 on the directory of `TestLoadDeployExists`. -/
theorem LoadDeployConfig_exists_witness :
    LoadDeployConfig exampleConfigWorld "test_data/deploy-config-remote-env"
      = (some { Spec := { KptPath := "namespaces/apps", Namespace := "myapps" } },
          "test_data/deploy-config-remote-env/.jenkins-x/Deployfile", none) :=
  (LoadDeployConfig_exists exampleConfigWorld "test_data/deploy-config-remote-env"
    "spec:\n  kptPath: namespaces/apps\n  namespace: myapps\n"
    { Spec := { KptPath := "namespaces/apps", Namespace := "myapps" } }
    exampleConfigWorld_filepathJoin (by decide) rfl rfl).1

/-! ## `step_verify_environments.go`: the remote requirements -/

theorem ModifyEnvironmentRequirements_sections (w : EnvironmentsWorld)
    (dev : RequirementsConfig) (env : Environment) (remote : RequirementsConfig) :
    (∃ envs, (ModifyEnvironmentRequirements w dev env remote).1
        = { remote with Environments := envs } ∧
      (ModifyEnvironmentRequirements w dev env remote).2.2 ≠ none) ∨
    (∃ envs e, (ModifyEnvironmentRequirements w dev env remote).1
        = (populateRemoteRequirements w dev env { remote with Environments := envs } e).1 ∧
      (ModifyEnvironmentRequirements w dev env remote).2.2 = none) := by
  unfold ModifyEnvironmentRequirements
  simp only
  split
  · left; exact ⟨_, rfl, by simp⟩
  · split
    · split
      · left; exact ⟨_, rfl, by simp⟩
      · right; exact ⟨_, _, rfl, rfl⟩
    · right; exact ⟨_, _, rfl, rfl⟩

/-- Claim C12, as amended: for each of `Cluster.Provider`, `Cluster.GitKind`,
`Cluster.GitName`, `Cluster.GitServer`, `Ingress.Kind`, `Ingress.ServiceType`,
`VersionStream.URL`, `VersionStream.Ref`, `Velero.Schedule` and
`Velero.TimeToLive`, a value that is not empty in the remote requirements
before `ModifyEnvironmentRequirements` is unchanged after it; and when the call
returns no error, an empty one is set to the value of the development
requirements, `GitKind` and `GitName` falling back to `gits.KindGitHub` and
`GitServer` to `gits.GitHubURL` when that value is empty too. -/
theorem ModifyEnvironmentRequirements_populates (w : EnvironmentsWorld)
    (dev : RequirementsConfig) (env : Environment) (remote : RequirementsConfig) :
    (∀ f ∈ [fun r : RequirementsConfig => r.Cluster.Provider, fun r => r.Cluster.GitKind,
        fun r => r.Cluster.GitName, fun r => r.Cluster.GitServer, fun r => r.Ingress.Kind,
        fun r => r.Ingress.ServiceType, fun r => r.VersionStream.URL,
        fun r => r.VersionStream.Ref, fun r => r.Velero.Schedule,
        fun r => r.Velero.TimeToLive],
      f remote ≠ "" → f (ModifyEnvironmentRequirements w dev env remote).1 = f remote) ∧
    ((ModifyEnvironmentRequirements w dev env remote).2.2 = none →
      (∀ f ∈ [fun r : RequirementsConfig => r.Cluster.Provider, fun r => r.Ingress.Kind,
          fun r => r.Ingress.ServiceType, fun r => r.VersionStream.URL,
          fun r => r.VersionStream.Ref, fun r => r.Velero.Schedule,
          fun r => r.Velero.TimeToLive],
        f remote = "" → f (ModifyEnvironmentRequirements w dev env remote).1 = f dev) ∧
      (remote.Cluster.GitKind = "" →
        (ModifyEnvironmentRequirements w dev env remote).1.Cluster.GitKind
          = if dev.Cluster.GitKind = "" then w.KindGitHub else dev.Cluster.GitKind) ∧
      (remote.Cluster.GitName = "" →
        (ModifyEnvironmentRequirements w dev env remote).1.Cluster.GitName
          = if dev.Cluster.GitName = "" then w.KindGitHub else dev.Cluster.GitName) ∧
      (remote.Cluster.GitServer = "" →
        (ModifyEnvironmentRequirements w dev env remote).1.Cluster.GitServer
          = if dev.Cluster.GitServer = "" then w.GitHubURL else dev.Cluster.GitServer)) := by
  rcases ModifyEnvironmentRequirements_sections w dev env remote with
    ⟨envs, hres, herr⟩ | ⟨envs, e, hres, herr⟩
  · refine ⟨?_, fun h => absurd h herr⟩
    intro f hf hne
    rw [hres]
    simp only [List.mem_cons, List.mem_singleton, List.not_mem_nil, or_false] at hf
    rcases hf with h | h | h | h | h | h | h | h | h | h <;> subst h <;> rfl
  · refine ⟨?_, fun _ => ⟨?_, ?_, ?_, ?_⟩⟩
    · intro f hf hne
      rw [hres]
      simp only [List.mem_cons, List.mem_singleton, List.not_mem_nil, or_false] at hf
      rcases hf with h | h | h | h | h | h | h | h | h | h <;> subst h <;>
        simp only [populateRemoteRequirements, populateRemoteCluster, populateRemoteIngress,
          setIfEmpty] <;> simp_all
    · intro f hf hempty
      rw [hres]
      simp only [List.mem_cons, List.mem_singleton, List.not_mem_nil, or_false] at hf
      rcases hf with h | h | h | h | h | h | h <;> subst h <;>
        simp only [populateRemoteRequirements, populateRemoteCluster, populateRemoteIngress,
          setIfEmpty] <;> simp_all
    · intro hempty
      rw [hres]
      simp only [populateRemoteRequirements, populateRemoteCluster, setIfEmpty]
      simp_all
    · intro hempty
      rw [hres]
      simp only [populateRemoteRequirements, populateRemoteCluster, setIfEmpty]
      simp_all
    · intro hempty
      rw [hres]
      simp only [populateRemoteRequirements, populateRemoteCluster, setIfEmpty]
      simp_all

/-- Claim C12 fails as stated: when the git URL of the environment does not
parse, `ModifyEnvironmentRequirements` returns the error before it populates
anything, and the empty provider of the remote requirements stays empty. -/
theorem ModifyEnvironmentRequirements_error_leaves_empty :
    (ModifyEnvironmentRequirements exampleEnvironmentsWorld
        { Cluster := { Provider := "gke" } }
        { Name := "staging", Spec := { Source := { URL := "https://github.com" } } } {}).2.2
      = some "Invalid path could not determine organisation and repository name: https://github.com" ∧
    (ModifyEnvironmentRequirements exampleEnvironmentsWorld
        { Cluster := { Provider := "gke" } }
        { Name := "staging", Spec := { Source := { URL := "https://github.com" } } }
        {}).1.Cluster.Provider = "" ∧
    ({} : RequirementsConfig).Cluster.Provider = "" :=
  ⟨rfl, rfl, rfl⟩

/-! ## `step_verify_preinstall.go` -/


theorem ValidateRequirements_ok (w : PreInstallWorld) (requirements : RequirementsConfig)
    (fileName : String)
    (hok : (StepVerifyPreInstallOptions.ValidateRequirements w requirements fileName).2 = none) :
    (StepVerifyPreInstallOptions.ValidateRequirements w requirements fileName).1.Environments
      = nameEnvironmentRepositories w requirements := by
  unfold StepVerifyPreInstallOptions.ValidateRequirements at hok ⊢
  simp only at hok ⊢
  split at hok
  · exact absurd hok (Option.some_ne_none _)
  · rename_i hc
    rw [if_neg hc]
    split at hok
    · exact absurd hok (Option.some_ne_none _)
    · rename_i req' hb
      have hreq : nameEnvironmentRepositories w req'
          = nameEnvironmentRepositories w requirements := by
        split at hb
        · simp only [Prod.mk.injEq] at hb
          rw [← hb.1]
          rfl
        · simp only [Prod.mk.injEq] at hb
          rw [← hb.1]
      split
      · split
        · exact hreq
        · exact hreq
      · exact hreq

/-- Claim C13: when `ValidateRequirements` returns no error, the environments
are those of before in the same order; an environment that had a `Repository`
keeps it, and an environment without one gets
`naming.ToValidName("environment-" + clusterName)` when there is one
environment, and `naming.ToValidName("environment-" + clusterName + "-" + env.Key)`,
or `naming.ToValidName("environment-" + env.Key)` when the cluster name is
empty, when there are several. -/
theorem ValidateRequirements_repository_names (w : PreInstallWorld)
    (requirements : RequirementsConfig) (fileName : String)
    (hok : (StepVerifyPreInstallOptions.ValidateRequirements w requirements fileName).2 = none) :
    (StepVerifyPreInstallOptions.ValidateRequirements w requirements fileName).1.Environments.length
      = requirements.Environments.length ∧
    ∀ (i : Nat) (env : EnvironmentConfig), requirements.Environments[i]? = some env →
      ∃ env', (StepVerifyPreInstallOptions.ValidateRequirements w requirements
          fileName).1.Environments[i]? = some env' ∧
        env' = { env with Repository := env'.Repository } ∧
        (env.Repository ≠ "" → env'.Repository = env.Repository) ∧
        (env.Repository = "" → requirements.Environments.length = 1 →
          env'.Repository = w.toValidName ("environment-" ++ requirements.Cluster.ClusterName)) ∧
        (env.Repository = "" → 1 < requirements.Environments.length →
          requirements.Cluster.ClusterName ≠ "" →
          env'.Repository = w.toValidName
            ("environment-" ++ requirements.Cluster.ClusterName ++ "-" ++ env.Key)) ∧
        (env.Repository = "" → 1 < requirements.Environments.length →
          requirements.Cluster.ClusterName = "" →
          env'.Repository = w.toValidName ("environment-" ++ env.Key)) := by
  rw [ValidateRequirements_ok w requirements fileName hok]
  unfold nameEnvironmentRepositories
  refine ⟨by simp, ?_⟩
  intro i env hi
  rw [List.getElem?_map, hi]
  refine ⟨_, rfl, ?_, ?_, ?_, ?_, ?_⟩
  · show (if env.Repository = "" then _ else env) = _
    by_cases hrepo : env.Repository = ""
    · simp [hrepo]
    · simp [hrepo]
  · intro h
    simp [h]
  · intro h hlen
    simp [h, environmentRepositoryName, hlen]
  · intro h hlen hname
    have : requirements.Environments.length > 1 := hlen
    simp [h, environmentRepositoryName, this, hname, String.append_assoc]
  · intro h hlen hname
    have : requirements.Environments.length > 1 := hlen
    simp [h, environmentRepositoryName, this, hname]

/-- The statement of C13 on three environments, two of them without a repository. -/
theorem ValidateRequirements_repository_names_witness :
    (StepVerifyPreInstallOptions.ValidateRequirements exampleWritableWorld
        exampleUnnamedRequirements "jx-requirements.yml").1.Environments.map
        (fun e => (e.Key, e.Repository))
      = [("dev", "my-dev"), ("staging", "environment-mycluster-staging"),
         ("production", "environment-mycluster-production")] ∧
    (StepVerifyPreInstallOptions.ValidateRequirements exampleWritableWorld
        exampleUnnamedRequirements "jx-requirements.yml").1.Environments.length
      = exampleUnnamedRequirements.Environments.length :=
  ⟨rfl, (ValidateRequirements_repository_names exampleWritableWorld exampleUnnamedRequirements
    "jx-requirements.yml" rfl).1⟩


theorem ValidateRequirements_save_failure (w : PreInstallWorld)
    (requirements : RequirementsConfig) (fileName : String)
    (hno : ¬ (requirements.Webhook = w.WebhookTypeProw ∧
      ((requirements.Cluster.GitKind ≠ "" ∧ requirements.Cluster.GitKind ≠ "github") ∨
        (requirements.Cluster.GitServer ≠ "" ∧
          w.isGitHubServerURL requirements.Cluster.GitServer = false)))) :
    (StepVerifyPreInstallOptions.ValidateRequirements w requirements fileName).2 = none ∨
    ∃ saved err, StepVerifyPreInstallOptions.SaveConfig w saved fileName = some err ∧
      (StepVerifyPreInstallOptions.ValidateRequirements w requirements fileName).2
        = some ("failed to save changes to file: " ++ fileName ++ ": " ++ err) := by
  unfold StepVerifyPreInstallOptions.ValidateRequirements
  simp only
  rw [if_neg hno]
  split
  · rename_i req err hb
    right
    split at hb
    · simp only [Prod.mk.injEq] at hb
      exact ⟨_, err, hb.2, rfl⟩
    · simp only [Prod.mk.injEq] at hb
      exact absurd hb.2 (by simp)
  · split
    · split
      · rename_i err hs
        right; exact ⟨_, err, hs, rfl⟩
      · left; rfl
    · left; rfl

/-- Claim C14, as amended: when the webhook is prow, `ValidateRequirements`
returns the error `invalid requirements ... cannot use prow as a webhook`,
without modifying the requirements, if and only if the git kind is non-empty
and not `github` or the git server is non-empty and not a GitHub server URL.
Every other error that it returns, for prow and for any other webhook, wraps a
failure of `SaveConfig` to save the requirements: for another webhook it never
fails because of the git kind or server, and when no save fails it returns an
error for prow exactly under that condition. -/
theorem ValidateRequirements_webhook (w : PreInstallWorld) (requirements : RequirementsConfig)
    (fileName : String) :
    (requirements.Webhook = w.WebhookTypeProw →
      (((requirements.Cluster.GitKind ≠ "" ∧ requirements.Cluster.GitKind ≠ "github") ∨
          (requirements.Cluster.GitServer ≠ "" ∧
            w.isGitHubServerURL requirements.Cluster.GitServer = false)) ↔
        StepVerifyPreInstallOptions.ValidateRequirements w requirements fileName
          = (requirements,
              some ("invalid requirements in file " ++ fileName
                ++ " cannot use prow as a webhook for git kind: "
                ++ requirements.Cluster.GitKind ++ " server: " ++ requirements.Cluster.GitServer
                ++ ". Please try using lighthouse instead")))) ∧
    (requirements.Webhook = w.WebhookTypeProw →
      ¬ ((requirements.Cluster.GitKind ≠ "" ∧ requirements.Cluster.GitKind ≠ "github") ∨
          (requirements.Cluster.GitServer ≠ "" ∧
            w.isGitHubServerURL requirements.Cluster.GitServer = false)) →
      (StepVerifyPreInstallOptions.ValidateRequirements w requirements fileName).2 = none ∨
      ∃ saved err, StepVerifyPreInstallOptions.SaveConfig w saved fileName = some err ∧
        (StepVerifyPreInstallOptions.ValidateRequirements w requirements fileName).2
          = some ("failed to save changes to file: " ++ fileName ++ ": " ++ err)) ∧
    (requirements.Webhook ≠ w.WebhookTypeProw →
      (StepVerifyPreInstallOptions.ValidateRequirements w requirements fileName).2 = none ∨
      ∃ saved err, StepVerifyPreInstallOptions.SaveConfig w saved fileName = some err ∧
        (StepVerifyPreInstallOptions.ValidateRequirements w requirements fileName).2
          = some ("failed to save changes to file: " ++ fileName ++ ": " ++ err)) ∧
    ((∀ saved, StepVerifyPreInstallOptions.SaveConfig w saved fileName = none) →
      (requirements.Webhook = w.WebhookTypeProw →
        ((StepVerifyPreInstallOptions.ValidateRequirements w requirements fileName).2 ≠ none ↔
          ((requirements.Cluster.GitKind ≠ "" ∧ requirements.Cluster.GitKind ≠ "github") ∨
            (requirements.Cluster.GitServer ≠ "" ∧
              w.isGitHubServerURL requirements.Cluster.GitServer = false)))) ∧
      (requirements.Webhook ≠ w.WebhookTypeProw →
        (StepVerifyPreInstallOptions.ValidateRequirements w requirements fileName).2 = none)) := by
  have hinvalid : requirements.Webhook = w.WebhookTypeProw →
      ((requirements.Cluster.GitKind ≠ "" ∧ requirements.Cluster.GitKind ≠ "github") ∨
        (requirements.Cluster.GitServer ≠ "" ∧
          w.isGitHubServerURL requirements.Cluster.GitServer = false)) →
      StepVerifyPreInstallOptions.ValidateRequirements w requirements fileName
        = (requirements,
            some ("invalid requirements in file " ++ fileName
              ++ " cannot use prow as a webhook for git kind: "
              ++ requirements.Cluster.GitKind ++ " server: " ++ requirements.Cluster.GitServer
              ++ ". Please try using lighthouse instead")) := by
    intro hprow hcond
    unfold StepVerifyPreInstallOptions.ValidateRequirements
    simp only
    rw [if_pos ⟨hprow, hcond⟩]
  have hsave := ValidateRequirements_save_failure w requirements fileName
  refine ⟨?_, ?_, ?_, ?_⟩
  · intro hprow
    refine ⟨hinvalid hprow, ?_⟩
    intro hres
    by_contra hcond
    rcases hsave (fun h => hcond h.2) with h | ⟨_, err, _, h⟩
    · rw [hres] at h
      exact absurd h (Option.some_ne_none _)
    · rw [hres] at h
      simp only [Option.some.injEq] at h
      have h0 := congrArg (fun s : String => s.data.head?) h
      simp at h0
  · intro _ hcond
    exact hsave (fun h => hcond h.2)
  · intro hother
    exact hsave (fun h => hother h.1)
  · intro hnofail
    refine ⟨?_, ?_⟩
    · intro hprow
      constructor
      · intro herr
        by_contra hcond
        rcases hsave (fun h => hcond h.2) with h | ⟨saved, err, hs, _⟩
        · exact herr h
        · rw [hnofail saved] at hs
          exact absurd hs (by simp)
      · intro hcond
        rw [hinvalid hprow hcond]
        exact Option.some_ne_none _
    · intro hother
      rcases hsave (fun h => hother h.1) with h | ⟨saved, err, hs, _⟩
      · exact h
      · rw [hnofail saved] at hs
        exact absurd hs (by simp)

/-- Claim C14 fails as stated: with prow on GitHub, where the condition on the
git kind and server does not hold, an environment without a repository and a
file that cannot be written, `ValidateRequirements` returns an error, the
failure to save the name it gave to the repository of the environment. -/
theorem ValidateRequirements_prow_save_error :
    exampleProwRequirements.Webhook = examplePreInstallWorld.WebhookTypeProw ∧
    ¬ ((exampleProwRequirements.Cluster.GitKind ≠ ""
          ∧ exampleProwRequirements.Cluster.GitKind ≠ "github") ∨
        (exampleProwRequirements.Cluster.GitServer ≠ "" ∧
          examplePreInstallWorld.isGitHubServerURL exampleProwRequirements.Cluster.GitServer
            = false)) ∧
    (StepVerifyPreInstallOptions.ValidateRequirements examplePreInstallWorld
        exampleProwRequirements "jx-requirements.yml").2
      = some ("failed to save changes to file: jx-requirements.yml: "
          ++ "failed to save file jx-requirements.yml: read-only file system") ∧
    (StepVerifyPreInstallOptions.ValidateRequirements examplePreInstallWorld
        exampleProwRequirements "jx-requirements.yml").2 ≠ none ∧
    (StepVerifyPreInstallOptions.ValidateRequirements examplePreInstallWorld
        exampleProwRequirements "jx-requirements.yml").1.Environments.map
        (fun e => e.Repository) = ["environment-mycluster"] :=
  ⟨rfl, by decide, rfl, by simp [show (StepVerifyPreInstallOptions.ValidateRequirements
      examplePreInstallWorld exampleProwRequirements "jx-requirements.yml").2
      = some ("failed to save changes to file: jx-requirements.yml: "
          ++ "failed to save file jx-requirements.yml: read-only file system") from rfl], rfl⟩

/-- Claim C15 on the code: when lazy creation is off, lines 173-188 of `Run`
return no error whatever the verification of the dev namespace says. In the
example the namespace `jx` has no team label, so `verifyDevNamespace` fails,
lazy creation is off, and `Run` goes on with the ingress and the remaining
steps and returns no error. -/
theorem Run_ignores_dev_namespace_error :
    (∀ (w : PreInstallWorld) (o : StepVerifyPreInstallOptions) (ns : String),
      o.LazyCreate = false → (verifyOrCreateDevNamespace w o ns).1 = none) ∧
    StepVerifyPreInstallOptions.verifyDevNamespace examplePreInstallWorld false "jx"
      = some "namespace jx has no team label" ∧
    StepVerifyPreInstallOptions.Run examplePreInstallWorld { Dir := "." }
      = (none,
          [.loadRequirementsConfig, .configureCommonOptions, .gatherRequirements,
           .validateRequirements, .isLazyCreateSecrets, .getDeployNamespace, .kubeClient,
           .verifyTLS, .verifyDevNamespace, .verifyIngress, .namespaceRun, .verifyPackages,
           .verifyInstallConfig, .verifyStorage, .verifyHelm, .verifyProwConfigMaps]) := by
  refine ⟨?_, rfl, rfl⟩
  intro w o ns hlazy
  unfold verifyOrCreateDevNamespace
  split
  · rfl
  · simp [hlazy]

/-- Claim C16: in batch mode `gatherRequirements` returns a nil pointer and the
error `please specify '<field>' in jx-requirements when running  in  batch
mode`, leaves the requirements as they were and asks nothing, for the first
field that is missing among the provider, the region when the provider is
`eks` or `aws`, the project ID and the zone when the provider is `gke`, the
environment git owner and the cluster name; the provider is named `provider`,
the region `region`, the project ID `project`, the zone `zone`, the owner
`environmentGitOwner` and the cluster name `clusterName`. -/
theorem gatherRequirements_batch_mode (w : PreInstallWorld) (o : StepVerifyPreInstallOptions)
    (requirements : RequirementsConfig) (fileName : String) (hbatch : o.BatchMode = true) :
    (requirements.Cluster.Provider = "" →
      StepVerifyPreInstallOptions.gatherRequirements w o requirements fileName
        = { requirements := requirements, returned := none, prompts := [],
            err := some "please specify 'provider' in jx-requirements when running  in  batch mode" }) ∧
    (requirements.Cluster.Provider = "eks" ∨ requirements.Cluster.Provider = "aws" →
      requirements.Cluster.Region = "" →
      StepVerifyPreInstallOptions.gatherRequirements w o requirements fileName
        = { requirements := requirements, returned := none, prompts := [],
            err := some "please specify 'region' in jx-requirements when running  in  batch mode" }) ∧
    (requirements.Cluster.Provider = "gke" → requirements.Cluster.ProjectID = "" →
      StepVerifyPreInstallOptions.gatherRequirements w o requirements fileName
        = { requirements := requirements, returned := none, prompts := [],
            err := some "please specify 'project' in jx-requirements when running  in  batch mode" }) ∧
    (requirements.Cluster.Provider = "gke" → requirements.Cluster.ProjectID ≠ "" →
      requirements.Cluster.Zone = "" →
      StepVerifyPreInstallOptions.gatherRequirements w o requirements fileName
        = { requirements := requirements, returned := none, prompts := [],
            err := some "please specify 'zone' in jx-requirements when running  in  batch mode" }) ∧
    (requirements.Cluster.Provider ≠ "" →
      (requirements.Cluster.Provider = "eks" ∨ requirements.Cluster.Provider = "aws" →
        requirements.Cluster.Region ≠ "") →
      (requirements.Cluster.Provider = "gke" →
        requirements.Cluster.ProjectID ≠ "" ∧ requirements.Cluster.Zone ≠ "") →
      (requirements.Cluster.EnvironmentGitOwner = "" →
        StepVerifyPreInstallOptions.gatherRequirements w o requirements fileName
          = { requirements := requirements, returned := none, prompts := [],
              err := some
                "please specify 'environmentGitOwner' in jx-requirements when running  in  batch mode" }) ∧
      (requirements.Cluster.EnvironmentGitOwner ≠ "" → requirements.Cluster.ClusterName = "" →
        StepVerifyPreInstallOptions.gatherRequirements w o requirements fileName
          = { requirements := requirements, returned := none, prompts := [],
              err := some
                "please specify 'clusterName' in jx-requirements when running  in  batch mode" }) ∧
      (requirements.Cluster.EnvironmentGitOwner ≠ "" → requirements.Cluster.ClusterName ≠ "" →
        StepVerifyPreInstallOptions.gatherRequirements w o requirements fileName
          = w.gatherInteractive o requirements fileName)) := by
  have hfail : ∀ field, missingInBatchMode requirements = some field →
      StepVerifyPreInstallOptions.gatherRequirements w o requirements fileName
        = { requirements := requirements, returned := none, prompts := [],
            err := some (batchModeMessage field) } := by
    intro field h
    unfold StepVerifyPreInstallOptions.gatherRequirements
    simp only [hbatch, if_true, h]
  refine ⟨?_, ?_, ?_, ?_, ?_⟩
  · intro h
    exact hfail "provider" (by simp [missingInBatchMode, h])
  · intro h hr
    have hp : requirements.Cluster.Provider ≠ "" := by
      rcases h with h | h <;> rw [h] <;> decide
    exact hfail "region" (by simp [missingInBatchMode, hp, EKS, AWS, h, hr])
  · intro h hp
    exact hfail "project" (by simp [missingInBatchMode, h, GKE, EKS, AWS, hp])
  · intro h hp hz
    exact hfail "zone" (by simp [missingInBatchMode, h, GKE, EKS, AWS, hp, hz])
  · intro hp hregion hgke
    have h2 : ¬ ((requirements.Cluster.Provider = EKS ∨ requirements.Cluster.Provider = AWS)
        ∧ requirements.Cluster.Region = "") := fun h => hregion h.1 h.2
    have h3 : ¬ (requirements.Cluster.Provider = GKE ∧ requirements.Cluster.ProjectID = "") :=
      fun h => (hgke h.1).1 h.2
    have h4 : ¬ (requirements.Cluster.Provider = GKE ∧ requirements.Cluster.Zone = "") :=
      fun h => (hgke h.1).2 h.2
    refine ⟨?_, ?_, ?_⟩
    · intro ho
      exact hfail "environmentGitOwner" (by
        unfold missingInBatchMode
        rw [if_neg hp, if_neg h2, if_neg h3, if_neg h4, if_pos ho])
    · intro ho hc
      exact hfail "clusterName" (by
        unfold missingInBatchMode
        rw [if_neg hp, if_neg h2, if_neg h3, if_neg h4, if_neg ho, if_pos hc])
    · intro ho hc
      unfold StepVerifyPreInstallOptions.gatherRequirements
      have : missingInBatchMode requirements = none := by
        unfold missingInBatchMode
        rw [if_neg hp, if_neg h2, if_neg h3, if_neg h4, if_neg ho, if_neg hc]
      simp only [hbatch, if_true, this]

/-- The statement of C16 on requirements for `gke` that give no zone. -/
theorem gatherRequirements_batch_mode_witness :
    StepVerifyPreInstallOptions.gatherRequirements examplePreInstallWorld { BatchMode := true }
        { Cluster := { Provider := "gke", ProjectID := "myproject" } } "jx-requirements.yml"
      = { requirements := { Cluster := { Provider := "gke", ProjectID := "myproject" } },
          returned := none, prompts := [],
          err := some "please specify 'zone' in jx-requirements when running  in  batch mode" } :=
  (gatherRequirements_batch_mode examplePreInstallWorld { BatchMode := true }
    { Cluster := { Provider := "gke", ProjectID := "myproject" } } "jx-requirements.yml"
    rfl).2.2.2.1 rfl (by decide) rfl

/-! ## `step_verify_environments.go`: the boot variables -/


theorem CombineErrors_pair (a b : Option String) :
    CombineErrors [a, b] = none ↔ a = none ∧ b = none := by
  cases a <;> cases b <;> simp [CombineErrors]

/-- Claim C17: `readEnvironment` returns an error if and only if one of the
variables `boot.ConfigRepoURLEnvVarName` and `boot.ConfigBaseRefEnvVarName` is
not set; when both are set, also to the empty string, it returns their values
and no error. -/
theorem readEnvironment_error_iff (w : EnvironmentsWorld) :
    ((readEnvironment w).2.2 ≠ none ↔
      (w.lookupEnv w.ConfigRepoURLEnvVarName = none ∨
        w.lookupEnv w.ConfigBaseRefEnvVarName = none)) ∧
    (∀ url ref, w.lookupEnv w.ConfigRepoURLEnvVarName = some url →
      w.lookupEnv w.ConfigBaseRefEnvVarName = some ref →
      readEnvironment w = (url, ref, none)) := by
  constructor
  · unfold readEnvironment
    simp only [ne_eq, CombineErrors_pair]
    cases h1 : w.lookupEnv w.ConfigRepoURLEnvVarName <;>
      cases h2 : w.lookupEnv w.ConfigBaseRefEnvVarName <;> simp
  · intro url ref h1 h2
    unfold readEnvironment
    simp [h1, h2, CombineErrors]

/-! ## `create_helmfile.go`: repositories and generated values -/

/-- Claim C18: `AddRepositoryIfNeeded` returns `repos` unchanged when some entry
of `repos` has the name of `r` and `repos` with `r` appended as its last element
otherwise; so the result has an entry named `r.Name`, has `repos` as a prefix,
and adding `r` a second time changes nothing. -/
theorem AddRepositoryIfNeeded_only_if_needed (repos : List RepositorySpec) (r : RepositorySpec) :
    ((∃ x ∈ repos, x.Name = r.Name) → AddRepositoryIfNeeded repos r = repos) ∧
    ((∀ x ∈ repos, x.Name ≠ r.Name) → AddRepositoryIfNeeded repos r = repos ++ [r]) ∧
    (∃ x ∈ AddRepositoryIfNeeded repos r, x.Name = r.Name) ∧
    repos <+: AddRepositoryIfNeeded repos r ∧
    AddRepositoryIfNeeded (AddRepositoryIfNeeded repos r) r = AddRepositoryIfNeeded repos r := by
  have hany : (repos.any fun x => decide (x.Name = r.Name)) = true ↔ ∃ x ∈ repos, x.Name = r.Name := by
    simp only [List.any_eq_true, decide_eq_true_eq]
  refine ⟨?_, ?_, ?_, ?_, AddRepositoryIfNeeded_idem repos r⟩
  · intro h
    unfold AddRepositoryIfNeeded
    rw [if_pos (hany.2 h)]
  · intro h
    unfold AddRepositoryIfNeeded
    have : ¬ (repos.any fun x => decide (x.Name = r.Name)) = true := by
      rw [hany]; rintro ⟨x, hx, hxn⟩; exact h x hx hxn
    rw [if_neg this]
  · unfold AddRepositoryIfNeeded
    split
    · rename_i h
      obtain ⟨x, hx, hxn⟩ := hany.1 h
      exact ⟨x, hx, hxn⟩
    · exact ⟨r, by simp, rfl⟩
  · unfold AddRepositoryIfNeeded
    split
    · exact List.prefix_refl _
    · exact List.prefix_append _ _

/-- Claim C19 on the code: when the values file of the namespace `tekton` cannot
be written, `writeGeneratedNamespaceValues` returns no error; when its directory
cannot be created it returns an error, which `ensureNamespaceExist` drops. In
both cases `generateHelmFile` succeeds with the helmfile of the example, whose
release `namespace-tekton` has the values file `generated/tekton/values.yaml`. -/
theorem writeGeneratedNamespaceValues_failure_not_propagated :
    writeGeneratedNamespaceValues exampleFullDiskWorld exampleOptions "tekton" "apps" = none ∧
    generateHelmFile exampleFullDiskWorld exampleOptions {} exampleApplications exampleCharts
      exampleLocalHelmRepos exampleAppConfig "apps" = .ok exampleHelmState ∧
    writeGeneratedNamespaceValues exampleNoGeneratedDirWorld exampleOptions "tekton" "apps"
      = some "cannot create generated values directory apps/generated/tekton : permission denied" ∧
    generateHelmFile exampleNoGeneratedDirWorld exampleOptions {} exampleApplications exampleCharts
      exampleLocalHelmRepos exampleAppConfig "apps" = .ok exampleHelmState ∧
    (exampleHelmState.Releases.head?).map (fun r => (r.Name, r.Values))
      = some ("namespace-tekton", ["generated/tekton/values.yaml"]) :=
  ⟨rfl, rfl, rfl, rfl, rfl⟩

/-! ## `step_verify_environments.go`: the environment repository -/

/-- Claim C20 on the code: the pipeline user `jx-bot` of the GitHub server is
found and has no token, so its credentials are invalid;
`createEnvironmentRepository` performs no git operation and returns no error,
the error wrapped at line 357 being nil. -/
theorem createEnvironmentRepository_invalid_user_no_error :
    exampleEnvironmentsWorld.getPipelineAuth exampleInvalidAuthConfig
      = (some { URL := "https://github.com", Name := "GitHub", Kind := "github",
                Users := [{ Username := "jx-bot" }] },
         some { Username := "jx-bot" }) ∧
    exampleEnvironmentsWorld.isInvalid { Username := "jx-bot" } = true ∧
    createEnvironmentRepository exampleEnvironmentsWorld {} "staging" { Helmfile := true }
      exampleInvalidAuthConfig exampleStaging
      "https://github.com/myorg/environment-staging.git" exampleStagingRepository
      = (none, []) :=
  ⟨rfl, rfl, rfl⟩

/-! ## `step_verify_environments.go`: pushing the updates and the helm values -/

theorem pushToRemote_empty_remote (w : EnvironmentsWorld) (environmentRepo : GitRepository)
    (localRepoDir remoteURL : String)
    (hurl : w.addUserToURL environmentRepo.CloneURL w.currentUsername = .ok remoteURL)
    (hremote : w.getRemoteForURL localRepoDir remoteURL = .ok "") :
    pushToRemote w environmentRepo localRepoDir = (none, [.getRemoteForURL]) := by
  unfold pushToRemote
  simp only [hurl, hremote, if_true, Wrapf]

/-- Claim C21 on the code: when `gits.GetRemoteForURL` succeeds with an empty
remote name, lines 673-691 of `pushDevEnvironmentUpdates` push nothing and
return no error, the error wrapped at line 682 being nil; so
`pushDevEnvironmentUpdates` pushes nothing, and returns no error when the
steps before succeed. In the example no remote has the URL of the repository
of the development environment, and `pushDevEnvironmentUpdates` returns no
error after the lookup of the remote. -/
theorem pushDevEnvironmentUpdates_no_remote_no_error :
    (∀ (w : EnvironmentsWorld) (environmentRepo : GitRepository) (localRepoDir remoteURL : String),
      w.addUserToURL environmentRepo.CloneURL w.currentUsername = .ok remoteURL →
      w.getRemoteForURL localRepoDir remoteURL = .ok "" →
      pushToRemote w environmentRepo localRepoDir = (none, [.getRemoteForURL]) ∧
      (∀ remoteName,
        GitOperation.push remoteName ∉ (pushDevEnvironmentUpdates w environmentRepo localRepoDir).2) ∧
      (w.forkAndPullRepo environmentRepo.CloneURL localRepoDir = none →
        w.modifyPipelineGitEnvVars localRepoDir = none →
        w.hasChanges localRepoDir = .ok false →
        pushDevEnvironmentUpdates w environmentRepo localRepoDir
          = (none, [.forkAndPullRepo, .hasChanges, .getRemoteForURL]))) ∧
    exampleNoRemoteWorld.getRemoteForURL "/workspace/."
        "https://github.com/myorg/environment-mycluster-dev.git" = .ok "" ∧
    pushDevEnvironmentUpdates exampleNoRemoteWorld exampleDevRepository "/workspace/."
      = (none, [.forkAndPullRepo, .hasChanges, .getRemoteForURL]) := by
  refine ⟨?_, rfl, rfl⟩
  intro w environmentRepo localRepoDir remoteURL hurl hremote
  have hpush := pushToRemote_empty_remote w environmentRepo localRepoDir remoteURL hurl hremote
  refine ⟨hpush, ?_, ?_⟩
  · intro remoteName
    unfold pushDevEnvironmentUpdates
    rw [hpush]
    unfold commitChanges
    split
    · simp
    · split
      · simp
      · split
        · simp
        · split
          · rename_i heq
            split at heq <;> (try split at heq) <;> (try split at heq) <;>
              simp only [Prod.mk.injEq] at heq <;> obtain ⟨-, hops⟩ := heq <;>
              rw [← hops] <;> simp
          · rename_i heq
            split at heq <;> (try split at heq) <;> (try split at heq) <;>
              simp only [Prod.mk.injEq] at heq <;> obtain ⟨-, hops⟩ := heq <;>
              rw [← hops] <;> simp
  · intro hfork hmodify hchanges
    unfold pushDevEnvironmentUpdates
    simp only [hfork, hmodify, hchanges, commitChanges, hpush]
    rfl

/-- Claim C22 on the code: when the lookup of the environment in the
requirements returns an error, `createEnvironmentHelmValues` returns that
error wrapped; when it returns no configuration and no error,
`createEnvironmentHelmValues` returns an empty `HelmValuesConfig` and no
error, the error wrapped at line 697 being nil. In the example the requirements
do not configure the environment `staging`, and `createEnvironmentRepository`
goes on to create the repository with the empty helm values. -/
theorem createEnvironmentHelmValues_no_configuration_no_error :
    (∀ (w : EnvironmentsWorld) (requirements : RequirementsConfig) (environment : Environment)
        (envCfg : Option EnvironmentConfig) (err : String),
      w.requirementsEnvironment requirements environment.Name = (envCfg, some err) →
      createEnvironmentHelmValues w requirements environment
        = ({}, some ("looking the configuration of environment \"" ++ environment.Name
            ++ "\" in the requirements configuration: " ++ err))) ∧
    (∀ (w : EnvironmentsWorld) (requirements : RequirementsConfig) (environment : Environment),
      w.requirementsEnvironment requirements environment.Name = (none, none) →
      createEnvironmentHelmValues w requirements environment = ({}, none)) ∧
    exampleNoConfigurationWorld.requirementsEnvironment { Environments := [{ Key := "dev" }] }
        exampleStaging.Name = (none, none) ∧
    createEnvironmentHelmValues exampleNoConfigurationWorld { Environments := [{ Key := "dev" }] }
        exampleStaging = ({}, none) ∧
    createEnvironmentRepository exampleNoConfigurationWorld {} "staging"
        { Environments := [{ Key := "dev" }] } exampleAuthConfig exampleStaging
        "https://github.com/myorg/environment-staging.git" exampleStagingRepository
      = (none, [.ensureUserAndEmailSetup, .doCreateEnvironmentGitRepo]) := by
  refine ⟨?_, ?_, rfl, rfl, rfl⟩
  · intro w requirements environment envCfg err h
    unfold createEnvironmentHelmValues
    rw [h]
    cases envCfg <;> simp [Wrapf, wrapf, String.append_assoc]
  · intro w requirements environment h
    unfold createEnvironmentHelmValues
    rw [h]
    rfl

end Jx
